import Mathlib

/-!
# go_tmpl_module_app: session store, token issuance and validation, policies, provisioning

A shallow embedding of the authentication and user-provisioning code of the
repository, followed by the properties established about it.

Conventions of the embedding:

* `time.Time` is an integer number of nanoseconds since the Unix epoch; every
  function that reads `time.Now()` takes the clock value as the argument `now`
  (one clock value per call of the auth service); `Manager.GenerateToken` takes
  its three clock readings as three arguments.
* `uuid.UUID` is identified with its canonical textual form, so `.String()` is
  the identity; values produced by `uuid.New()` are arguments of the caller.
* The table `refresh_tokens` is the list of its rows in insertion order.
* A store call that can return a driver error takes a Boolean saying whether
  it does; the store is left untouched by a failing statement.
* Go's `int`, `int64` and `time.Duration` are unbounded integers in the auth
  service: its lifetimes are configured minutes and hours, whose products with
  the duration constants stay far below the 64-bit range. `Manager.GenerateToken`,
  whose properties are stated for every lifetime, multiplies in `int64`
  (`wrapInt64`).
* Columns that an `INSERT` does not name take the defaults the scans rely on
  (`revoked = false`, no revocation time, empty strings).
* Calls into third-party libraries (signing and decoding of tokens, bcrypt,
  the translations of the validation library, `unicode.ToLower`, `uuid.Parse`)
  are arguments of the functions that make them; what a property needs of a
  library is a hypothesis of its theorem. A decoded token carries the outcome
  of its signature verification under every key.
* The schema of the database is not among the sources; the unique constraint
  on `refresh_tokens.token` is taken from the specification (`uniqueTokens`).
-/

namespace GoTmpl

/-! ## Basic types -/

/-- Clock values: nanoseconds since the Unix epoch (`time.Time`). -/
abbrev Time := Int

/-- Identifiers `uuid.UUID`, identified with their canonical string form. -/
abbrev UUID := String

/-- The zero identifier `uuid.Nil`. -/
def uuidNil : UUID := "00000000-0000-0000-0000-000000000000"

/-- Duration constant `time.Second` in nanoseconds. -/
def Second : Int := 1000000000

/-- The value of an `int64` expression whose mathematical value is `x`: Go's
signed 64-bit arithmetic wraps around modulo `2^64`. -/
def wrapInt64 (x : Int) : Int :=
  (x + 9223372036854775808) % 18446744073709551616 - 9223372036854775808

/-- Duration constant `time.Minute` in nanoseconds. -/
def Minute : Int := 60 * Second

/-- Duration constant `time.Hour` in nanoseconds. -/
def Hour : Int := 60 * Minute

/-- Method `Time.Unix`: whole seconds since the epoch (rounded down). -/
def Unix (t : Time) : Int := t / Second

/-! ## Errors (`internal/core/errors/errors.go`) -/

/-- Application error `AppError`: `Err` is the text of the wrapped error
(`none` for `nil`), `Details` the entries of the details map (empty for `nil`);
the captured stack trace is left out. -/
structure AppError where
  Status : Nat
  Code : String
  Message : String
  Err : Option String
  Details : List (String × String)
  deriving DecidableEq, Repr

/-- Go `error` values met in the embedded code: an `*AppError`, a plain
error, or `fmt.Errorf("...: %w", err)` wrapping another error. -/
inductive Err where
  | app (e : AppError)
  | plain (msg : String)
  | wrapped (msg : String) (inner : Err)
  deriving DecidableEq, Repr

deriving instance DecidableEq for Except

/-- Constructor `NewAppError(status, code, message, err, details)`. -/
def NewAppError (status : Nat) (code message : String) (err : Option String)
    (details : List (String × String)) : AppError :=
  { Status := status, Code := code, Message := message, Err := err, Details := details }

/-- Constructor `NotFoundError(key, err, details)`. -/
def NotFoundError (key : String) (err : Option String) (details : List (String × String)) : Err :=
  .app (NewAppError 404 "NOT_FOUND" key err details)

/-- Constructor `BadRequestError(key, err, details)`. -/
def BadRequestError (key : String) (err : Option String) (details : List (String × String)) : Err :=
  .app (NewAppError 400 "BAD_REQUEST" key err details)

/-- Constructor `ValidationError(key, err, details)`. -/
def ValidationError (key : String) (err : Option String) (details : List (String × String)) : Err :=
  .app (NewAppError 400 "VALIDATION_ERROR" key err details)

/-- Constructor `UnauthorizedError(key, err, details)`. -/
def UnauthorizedError (key : String) (err : Option String) (details : List (String × String)) : Err :=
  .app (NewAppError 401 "UNAUTHORIZED" key err details)

/-- Constructor `ConflictError(key, err, details)`. -/
def ConflictError (key : String) (err : Option String) (details : List (String × String)) : Err :=
  .app (NewAppError 409 "CONFLICT" key err details)

/-- Constructor `InternalServerError(key, err, details)`. -/
def InternalServerError (key : String) (err : Option String) (details : List (String × String)) : Err :=
  .app (NewAppError 500 "INTERNAL_ERROR" key err details)

/-- The text of an error returned by the database driver. -/
def driverErrorText : String := "driver error"

/-- The error of a store call that fails in the driver. -/
def driverError : Err := .plain driverErrorText

/-! ## Session records (`internal/module/auth/model/refresh_token.go`) -/

/-- Row of `refresh_tokens` and the in-memory `model.RefreshToken`. -/
structure RefreshToken where
  ID : UUID
  UserID : UUID
  Token : String
  ExpiresAt : Time
  Revoked : Bool
  CreatedAt : Time
  CreatedByIP : String
  RevokedAt : Option Time
  RevokedByIP : String
  ReplacedByToken : String
  DeviceIdentifier : String
  deriving DecidableEq, Repr

namespace RefreshToken

/-- Function `IsExpired`: `rt.ExpiresAt.Before(time.Now())`. -/
def IsExpired (rt : RefreshToken) (now : Time) : Bool :=
  decide (rt.ExpiresAt < now)

/-- Function `IsActive`: `!rt.Revoked && !rt.IsExpired()`. -/
def IsActive (rt : RefreshToken) (now : Time) : Bool :=
  !rt.Revoked && !rt.IsExpired now

/-- Function `Revoke`: marks the record revoked at `now` by `ip`, with its successor. -/
def Revoke (rt : RefreshToken) (ip : String) (replacedByToken : String) (now : Time) : RefreshToken :=
  { rt with Revoked := true, RevokedAt := some now, RevokedByIP := ip,
            ReplacedByToken := replacedByToken }

end RefreshToken

/-! ## Request context (`context.Context`, `net/http.Request`) -/

/-- Context keys. Go compares keys as interface values, so a key of the
defined type `middleware.contextKey` never equals a plain `string` key with
the same text, nor a key of the type `pg.key`. -/
inductive CtxKey where
  | str (s : String)
  | contextKey (s : String)
  | pgKey (s : String)
  deriving DecidableEq, Repr

/-- The fields of `*http.Request` that the services read. -/
structure Request where
  RemoteAddr : String
  UserAgent : String
  deriving DecidableEq, Repr

/-- Values stored in a context: a request pointer, a transaction handle, or
anything else. -/
inductive CtxVal where
  | request (r : Request)
  | tx
  | other (s : String)
  deriving DecidableEq, Repr

/-- A context is the chain of its key/value bindings, innermost first. -/
abbrev Context := List (CtxKey × CtxVal)

/-- Empty context `context.Background()`. -/
def Background : Context := []

/-- Binding `context.WithValue(ctx, key, val)`. -/
def WithValue (ctx : Context) (key : CtxKey) (val : CtxVal) : Context :=
  (key, val) :: ctx

/-- Lookup `ctx.Value(key)`: the innermost binding of an equal key. -/
def Context.Value (ctx : Context) (key : CtxKey) : Option CtxVal :=
  (ctx.find? (fun kv => decide (kv.1 = key))).map (fun kv => kv.2)

/-- Constant `middleware.RequestKey contextKey = "request"`. -/
def RequestKey : CtxKey := .contextKey "request"

/-- Constant `middleware.UserContextKey contextKey = "user"`. -/
def UserContextKey : CtxKey := .contextKey "user"

/-- Constant `pg.TxKey key = "tx"`. -/
def TxKey : CtxKey := .pgKey "tx"

/-- The context the handlers `Login`, `Register`, `Logout` and the refresh
middleware build: `context.WithValue(c.Request.Context(), middleware.RequestKey, c.Request)`. -/
def handlerContext (base : Context) (req : Request) : Context :=
  WithValue base RequestKey (.request req)

/-- Function `getClientIP`: the remote address of the request stored under
`middleware.RequestKey`, otherwise `"unknown"`. -/
def getClientIP (ctx : Context) : String :=
  match ctx.Value RequestKey with
  | some (.request req) => req.RemoteAddr
  | _ => "unknown"

/-- Function `getDeviceIdentifier`: reads `ctx.Value("request")` (a plain string key);
when it holds a request the result is `fmt.Sprintf("%s-%s", ip, userAgent)`,
otherwise `uuid.New().String()`, the fresh identifier being `fresh`. -/
def getDeviceIdentifier (ctx : Context) (fresh : UUID) : String :=
  match ctx.Value (.str "request") with
  | some (.request req) => req.RemoteAddr ++ "-" ++ req.UserAgent
  | _ => fresh

/-! ## Session store (`auth/repository/impl/refresh_token_repository.go`) -/

/-- Table `refresh_tokens`: its rows in insertion order. -/
abbrev Store := List RefreshToken

/-- The condition `revoked = false AND expires_at > now` of the queries. -/
def sqlActive (now : Time) (rt : RefreshToken) : Bool :=
  !rt.Revoked && decide (rt.ExpiresAt > now)

/-- The condition `user_id = $1 AND revoked = false AND expires_at > now`. -/
def sqlActiveOf (userID : UUID) (now : Time) (rt : RefreshToken) : Bool :=
  decide (rt.UserID = userID) && sqlActive now rt

namespace refreshTokenRepository

/-- Function `Create`: inserts the row with the columns the statement names (id,
user_id, token, expires_at, created_at, created_by_ip, device_identifier);
the other columns take their defaults. A nil id is replaced by `freshID`. -/
def Create (s : Store) (token : RefreshToken) (freshID : UUID) (dbErr : Bool) : Except Err Unit × Store :=
  if dbErr then (.error (InternalServerError "token.create_error" (some driverErrorText) []), s)
  else
    let id := if token.ID = uuidNil then freshID else token.ID
    (.ok (), s ++ [{ ID := id, UserID := token.UserID, Token := token.Token,
                     ExpiresAt := token.ExpiresAt, Revoked := false,
                     CreatedAt := token.CreatedAt, CreatedByIP := token.CreatedByIP,
                     RevokedAt := none, RevokedByIP := "", ReplacedByToken := "",
                     DeviceIdentifier := token.DeviceIdentifier }])

/-- Function `GetByToken`: the row `WHERE token = $1`, `nil` when there is none. -/
def GetByToken (s : Store) (tokenStr : String) (dbErr : Bool) : Except Err (Option RefreshToken) :=
  if tokenStr = "" then .error (BadRequestError "token.empty" none [])
  else if dbErr then .error (InternalServerError "token.get_error" (some driverErrorText) [])
  else .ok (s.find? (fun rt => decide (rt.Token = tokenStr)))

/-- Function `GetActiveByUserID`: the rows of the user that the store counts as active. -/
def GetActiveByUserID (s : Store) (userID : UUID) (now : Time) (dbErr : Bool) : Except Err (List RefreshToken) :=
  if userID = uuidNil then .error (BadRequestError "user_id.empty" none [])
  else if dbErr then .error (InternalServerError "token.get_error" (some driverErrorText) [])
  else .ok (s.filter (sqlActiveOf userID now))

/-- Function `Update`: `SET revoked, revoked_at, revoked_by_ip, replaced_by_token WHERE id = $5`. -/
def Update (s : Store) (token : RefreshToken) (dbErr : Bool) : Except Err Unit × Store :=
  if dbErr then (.error (InternalServerError "token.update_error" (some driverErrorText) []), s)
  else
    (.ok (), s.map (fun rt =>
      if rt.ID = token.ID then
        { rt with Revoked := token.Revoked, RevokedAt := token.RevokedAt,
                  RevokedByIP := token.RevokedByIP, ReplacedByToken := token.ReplacedByToken }
      else rt))

/-- Function `CountActiveByUserID`: `SELECT COUNT(*)` of the user's active rows. -/
def CountActiveByUserID (s : Store) (userID : UUID) (now : Time) (dbErr : Bool) : Except Err Int :=
  if userID = uuidNil then .error (BadRequestError "user_id.empty" none [])
  else if dbErr then .error (InternalServerError "token.count_error" (some driverErrorText) [])
  else .ok ((s.filter (sqlActiveOf userID now)).length : Int)

/-- The subquery of `RevokeOldestIfLimitExceeded`: ids of the user's active
rows `ORDER BY created_at ASC LIMIT n` (rows with equal `created_at` are kept
in store order; SQL leaves their order open). -/
def oldestActiveIDs (s : Store) (userID : UUID) (now : Time) (n : Int) : List UUID :=
  (((s.filter (sqlActiveOf userID now)).insertionSort
      (fun a b => a.CreatedAt ≤ b.CreatedAt)).take n.toNat).map (fun rt => rt.ID)

/-- Function `RevokeOldestIfLimitExceeded`: counts the user's active rows and, when
the count exceeds `limit`, marks the `count - limit` oldest ones revoked. The
count and the update are separate statements: `countErr` and `dbErr`. -/
def RevokeOldestIfLimitExceeded (s : Store) (userID : UUID) (limit : Int) (ipAddress : String)
    (now : Time) (countErr dbErr : Bool) : Except Err Unit × Store :=
  if userID = uuidNil then (.error (BadRequestError "user_id.empty" none []), s)
  else
    match CountActiveByUserID s userID now countErr with
    | .error e => (.error e, s)
    | .ok count =>
      if count ≤ limit then (.ok (), s)
      else if dbErr then (.error (InternalServerError "token.revoke_error" (some driverErrorText) []), s)
      else
        let tokensToRevoke := count - limit
        let ids := oldestActiveIDs s userID now tokensToRevoke
        (.ok (), s.map (fun rt =>
          if rt.ID ∈ ids then
            { rt with Revoked := true, RevokedAt := some now, RevokedByIP := ipAddress }
          else rt))

/-- Function `GetByDeviceIdentifier`: the user's active row of the device with the
latest `created_at` (`ORDER BY created_at DESC LIMIT 1`), `nil` when none. -/
def GetByDeviceIdentifier (s : Store) (userID : UUID) (deviceID : String) (now : Time)
    (dbErr : Bool) : Except Err (Option RefreshToken) :=
  if userID = uuidNil then .error (BadRequestError "user_id.empty" none [])
  else if deviceID = "" then .error (BadRequestError "device_id.empty" none [])
  else if dbErr then .error (InternalServerError "token.get_error" (some driverErrorText) [])
  else
    .ok (((s.filter (fun rt => sqlActiveOf userID now rt && decide (rt.DeviceIdentifier = deviceID))).insertionSort
          (fun a b => a.CreatedAt ≥ b.CreatedAt)).head?)

end refreshTokenRepository

/-! ## Users, roles, permissions (`internal/module/user/model`) -/

/-- Business model `Permission`. -/
structure Permission where
  ID : Int
  Name : String
  Description : String
  deriving DecidableEq, Repr

/-- Business model `Role` with the permissions loaded for it. -/
structure Role where
  ID : Int
  Name : String
  Description : String
  Permissions : List Permission
  deriving DecidableEq, Repr

/-- Database row `UserModel` of the table `users`. -/
structure UserModel where
  ID : UUID
  Email : String
  Password : String
  FirstName : String
  LastName : String
  MiddleName : String
  Phone : String
  Position : String
  Active : Bool
  DataRole : String
  EmailVerified : Bool
  LastLogin : Option Time
  CreatedAt : Time
  UpdatedAt : Time
  DeletedAt : Option Time
  deriving DecidableEq, Repr

/-- Business model `User`: the row together with roles and permissions. -/
structure User where
  ID : UUID
  Email : String
  Password : String
  FirstName : String
  LastName : String
  MiddleName : String
  Phone : String
  Position : String
  Active : Bool
  DataRole : String
  EmailVerified : Bool
  LastLogin : Option Time
  CreatedAt : Time
  UpdatedAt : Time
  DeletedAt : Option Time
  Roles : List Role
  Permissions : List Permission
  deriving DecidableEq, Repr

/-- Constructor `FromDBModel(dbUser, roles, permissions)`. -/
def FromDBModel (dbUser : UserModel) (roles : List Role) (permissions : List Permission) : User :=
  { ID := dbUser.ID, Email := dbUser.Email, Password := dbUser.Password,
    FirstName := dbUser.FirstName, LastName := dbUser.LastName,
    MiddleName := dbUser.MiddleName, Phone := dbUser.Phone, Position := dbUser.Position,
    Active := dbUser.Active, DataRole := dbUser.DataRole,
    EmailVerified := dbUser.EmailVerified, LastLogin := dbUser.LastLogin,
    CreatedAt := dbUser.CreatedAt, UpdatedAt := dbUser.UpdatedAt,
    DeletedAt := dbUser.DeletedAt, Roles := roles, Permissions := permissions }

namespace User

/-- Method `HasRole`: some role of the user has the name. -/
def HasRole (u : User) (roleName : String) : Bool :=
  u.Roles.any (fun role => decide (role.Name = roleName))

/-- Method `HasPermission`: the name is among the direct permissions, or
among the permissions of one of the roles. -/
def HasPermission (u : User) (permissionName : String) : Bool :=
  u.Permissions.any (fun perm => decide (perm.Name = permissionName)) ||
  u.Roles.any (fun role => role.Permissions.any (fun perm => decide (perm.Name = permissionName)))

/-- Method `HasAnyPermission`: `slices.ContainsFunc(permissions, u.HasPermission)`. -/
def HasAnyPermission (u : User) (permissions : List String) : Bool :=
  permissions.any (fun p => u.HasPermission p)

end User

/-- Request item `RoleRequest`. -/
structure RoleRequest where
  Name : String
  deriving DecidableEq, Repr

/-- Request item `PermissionRequest`. -/
structure PermissionRequest where
  Name : String
  deriving DecidableEq, Repr

/-- Request body `CreateUserRequest`. -/
structure CreateUserRequest where
  FirstName : String
  LastName : String
  MiddleName : String
  Email : String
  Password : String
  PasswordConfirmation : String
  Phone : String
  Position : String
  Active : Int
  DataRole : String
  Roles : List RoleRequest
  Permissions : List PermissionRequest
  deriving DecidableEq, Repr

/-! ## Token codec (`pkg/jwt/manager.go`) and configuration -/

/-- Claims `UserClaims` of an access token; the three dates are
`*jwt.NumericDate` values, `none` for a nil pointer (a claim that is absent). -/
structure UserClaims where
  Subject : String
  ExpiresAt : Option Time
  IssuedAt : Option Time
  NotBefore : Option Time
  UserID : String
  Roles : List String
  Permissions : List String
  deriving DecidableEq, Repr

/-- Claims handed to the signing library: `UserClaims`, or the
`jwt.MapClaims` of a refresh token with its entries `user_id`, `type`, `exp`. -/
inductive Claims where
  | user (c : UserClaims)
  | refresh (userID : String) (type : String) (exp : Int)
  deriving DecidableEq, Repr

/-- The library call `jwt.NewWithClaims(jwt.SigningMethodHS256, claims).SignedString(key)`:
a function of the claims and the key. -/
abbrev Signer := Claims → String → Except Err String

/-- Library function `jwt.NewNumericDate`: the time truncated to whole seconds. -/
def NewNumericDate (t : Time) : Time := (t / Second) * Second

/-- Token manager `jwt.Manager`. -/
structure Manager where
  secret : String
  expirationMinutes : Int
  deriving DecidableEq, Repr

/-- Method `Manager.GenerateToken`: signs the user claims with the secret.
The method reads the clock three times: `now` for the expiry, `iatNow` for
`IssuedAt` and `nbfNow` for `NotBefore`. The lifetime
`time.Duration(m.expirationMinutes) * time.Minute` is an `int64` product. -/
def Manager.GenerateToken (m : Manager) (sign : Signer) (userID : String) (roles permissions : List String)
    (now iatNow nbfNow : Time) : Except Err String :=
  let expiresAt := now + wrapInt64 (m.expirationMinutes * Minute)
  let claims : UserClaims :=
    { Subject := userID, ExpiresAt := some (NewNumericDate expiresAt),
      IssuedAt := some (NewNumericDate iatNow), NotBefore := some (NewNumericDate nbfNow),
      UserID := userID, Roles := roles, Permissions := permissions }
  match sign (.user claims) m.secret with
  | .error e => .error (.wrapped "ошибка подписания токена" e)
  | .ok tokenString => .ok tokenString

/-- Configuration `config.JWTConfig`. -/
structure JWTConfig where
  SecretKey : String
  AccessTokenExpiryMinutes : Int
  RefreshTokenExpiryHours : Int
  deriving DecidableEq, Repr

/-- Response `AuthResponse`. -/
structure AuthResponse where
  Token : String
  RefreshToken : String
  TokenType : String
  ExpiresIn : Int
  AccessExpiresAt : Time
  deriving DecidableEq, Repr

/-! ## Auth service (`auth/service/impl/auth_service.go`) -/

/-- Interface `service.UserService` as the auth service calls it. -/
structure UserService where
  Create : CreateUserRequest → Except Err User
  ValidateCredentials : String → String → Except Err User
  GetByID : UUID → Except Err (Option User)

/-- Service struct `authService`: configuration, token manager, the signing library
and the user service reached through the service provider. -/
structure authService where
  cfg : JWTConfig
  jwtManager : Manager
  sign : Signer
  users : UserService

/-- Store calls of one request that return a driver error. -/
structure Faults where
  getByToken : Bool
  getByDevice : Bool
  updateDevice : Bool
  countActive : Bool
  revokeOldest : Bool
  create : Bool
  updateRotated : Bool
  deriving DecidableEq, Repr

/-- No store call fails. -/
def noFaults : Faults :=
  { getByToken := false, getByDevice := false, updateDevice := false, countActive := false,
    revokeOldest := false, create := false, updateRotated := false }

/-- Values drawn by `uuid.New()` during one token issuance: the fallback
device identifier and the id of the new session record. -/
structure Fresh where
  deviceID : UUID
  tokenID : UUID
  deriving DecidableEq, Repr

/-- The bound `maxTokensPerUser` of `saveRefreshToken`. -/
def maxTokensPerUser : Int := 3

/-- Function `saveRefreshToken` (session admission): revokes the active
session of the same device, enforces the cap, inserts the new record. -/
def saveRefreshToken (s : Store) (ctx : Context) (userID : UUID) (tokenString : String)
    (expiresAt : Time) (ipAddress : String) (now : Time) (fr : Fresh) (f : Faults) :
    Except Err Unit × Store :=
  let deviceID := getDeviceIdentifier ctx fr.deviceID
  match refreshTokenRepository.GetByDeviceIdentifier s userID deviceID now f.getByDevice with
  | .error e => (.error e, s)
  | .ok existingToken =>
    let s1 :=
      match existingToken with
      | some existing => (refreshTokenRepository.Update s (existing.Revoke ipAddress tokenString now) f.updateDevice).2
      | none => s
    let s2 := (refreshTokenRepository.RevokeOldestIfLimitExceeded s1 userID (maxTokensPerUser - 1) ipAddress now
                f.countActive f.revokeOldest).2
    let refreshToken : RefreshToken :=
      { ID := fr.tokenID, UserID := userID, Token := tokenString, ExpiresAt := expiresAt,
        Revoked := false, CreatedAt := now, CreatedByIP := ipAddress, RevokedAt := none,
        RevokedByIP := "", ReplacedByToken := "", DeviceIdentifier := deviceID }
    refreshTokenRepository.Create s2 refreshToken fr.tokenID f.create

/-- The permission names `generateToken` collects: direct ones, then those of
the roles, each name once (Go iterates the map in no fixed order). -/
def permissionNames (user : User) : List String :=
  (user.Permissions.map (fun p => p.Name) ++
    (user.Roles.map (fun role => role.Permissions.map (fun p => p.Name))).flatten).dedup

/-- Function `generateToken`: access token, refresh token, session admission. -/
def authService.generateToken (a : authService) (s : Store) (ctx : Context) (user : User) (ipAddress : String)
    (now : Time) (fr : Fresh) (f : Faults) : Except Err AuthResponse × Store :=
  let expiresAt := now + a.cfg.AccessTokenExpiryMinutes * Minute
  let roleNames := user.Roles.map (fun role => role.Name)
  match a.jwtManager.GenerateToken a.sign user.ID roleNames (permissionNames user) now now now with
  | .error e => (.error e, s)
  | .ok accessToken =>
    let refreshExpiresAt := now + a.cfg.RefreshTokenExpiryHours * Hour
    match a.sign (.refresh user.ID "refresh" (Unix refreshExpiresAt)) a.cfg.SecretKey with
    | .error e => (.error (.wrapped "failed to generate refresh token" e), s)
    | .ok refreshTokenString =>
      match saveRefreshToken s ctx user.ID refreshTokenString refreshExpiresAt ipAddress now fr f with
      | (.error e, s1) => (.error (.wrapped "failed to save refresh token" e), s1)
      | (.ok _, s1) =>
        (.ok { Token := accessToken, RefreshToken := refreshTokenString, TokenType := "Bearer",
               ExpiresIn := a.cfg.AccessTokenExpiryMinutes * 60, AccessExpiresAt := expiresAt }, s1)

/-- Method `Register`: creates the user, then issues the token pair. -/
def authService.Register (a : authService) (s : Store) (ctx : Context) (req : CreateUserRequest)
    (now : Time) (fr : Fresh) (f : Faults) : Except Err AuthResponse × Store :=
  match a.users.Create req with
  | .error e => (.error e, s)
  | .ok createdUser => a.generateToken s ctx createdUser (getClientIP ctx) now fr f

/-- Method `Login`: validates the credentials, then issues the token pair. -/
def authService.Login (a : authService) (s : Store) (ctx : Context) (email password : String)
    (now : Time) (fr : Fresh) (f : Faults) : Except Err AuthResponse × Store :=
  match a.users.ValidateCredentials email password with
  | .error e => (.error e, s)
  | .ok user => a.generateToken s ctx user (getClientIP ctx) now fr f

/-- Method `RefreshToken`: checks the presented record, issues a new pair,
then marks the presented record revoked and replaced by the new token. -/
def authService.RefreshToken (a : authService) (s : Store) (ctx : Context) (refreshTokenString : String)
    (now : Time) (fr : Fresh) (f : Faults) : Except Err AuthResponse × Store :=
  match refreshTokenRepository.GetByToken s refreshTokenString f.getByToken with
  | .error e => (.error e, s)
  | .ok none => (.error (UnauthorizedError "token.not_found" (some "refresh token not found") []), s)
  | .ok (some storedToken) =>
    if !storedToken.IsActive now then (.error (UnauthorizedError "token.inactive" (some "refresh token is inactive") []), s)
    else
      match a.users.GetByID storedToken.UserID with
      | .error e => (.error e, s)
      | .ok none => (.error (NotFoundError "user.not_found" none [("id", storedToken.UserID)]), s)
      | .ok (some user) =>
        let ipAddress := getClientIP ctx
        match a.generateToken s ctx user ipAddress now fr f with
        | (.error e, s1) => (.error e, s1)
        | (.ok authResponse, s1) =>
          let s2 := (refreshTokenRepository.Update s1 (storedToken.Revoke ipAddress authResponse.RefreshToken now)
                      f.updateRotated).2
          (.ok authResponse, s2)

/-! ## Policies (`user/policy/user_policy.go`, `core/policy/permission_policy.go`) -/

/-- Constant `ResourceName` of the user policy, the name the routes pass. -/
def ResourceName : String := "user"

/-- Method `UserPolicy.Check`. The context and the resource are not read. -/
def UserPolicy.Check (user : User) (_resource : String) (action : String) : Bool :=
  if user.HasAnyPermission ["full", "users:full"] then true
  else if action = "create" then user.HasPermission "users:create"
  else if action = "view" then user.HasPermission "users:view"
  else if action = "update" then user.HasPermission "users:update"
  else if action = "delete" then user.HasPermission "users:delete"
  else if action = "assign-role" then user.HasPermission "users:assign-role"
  else if action = "revoke-role" then user.HasPermission "users:revoke-role"
  else if action = "view-roles" then user.HasPermission "users:view-roles"
  else if action = "assign-permission" then user.HasPermission "users:assign-permission"
  else if action = "revoke-permission" then user.HasAnyPermission ["users:revoke-permission"]
  else if action = "view-permissions" then user.HasPermission "users:view-permissions"
  else false

/-- Method `PermissionPolicy.Check`. The context and the resource are not read. -/
def PermissionPolicy.Check (user : User) (_resource : String) (action : String) : Bool :=
  if user.HasAnyPermission ["full", "permissions:full"] then true
  else if action = "create" then user.HasPermission "permissions:create"
  else if action = "view" then user.HasPermission "permissions:view"
  else if action = "delete" then user.HasPermission "permissions:delete"
  else if action = "assign" then user.HasPermission "permissions:assign"
  else if action = "revoke" then user.HasPermission "permissions:revoke"
  else false

/-! ## User directory (`user/repository/postgres/user_repository.go`, `core/client/db/pg/pg.go`) -/

/-- Database row `RoleModel` of the table `roles`. -/
structure RoleModel where
  ID : Int
  RoleName : String
  Description : String
  deriving DecidableEq, Repr

/-- Database row `PermissionModel` of the table `permissions`. -/
structure PermissionModel where
  ID : Int
  PermissionName : String
  Description : String
  deriving DecidableEq, Repr

/-- The tables of the user directory, each the list of its rows. -/
structure Tables where
  users : List UserModel
  roles : List RoleModel
  permissions : List PermissionModel
  user_roles : List (UUID × Int)
  role_permissions : List (Int × Int)
  user_permissions : List (UUID × Int)
  deriving DecidableEq, Repr

/-- The database as one request sees it: the committed tables reached
through the pool, and the tables as the open transaction sees them (`none`
when no transaction is open). No other transaction runs meanwhile. -/
structure DB where
  pool : Tables
  tx : Option Tables
  deriving DecidableEq, Repr

/-- Where the statements of `pg.ExecContext` / `pg.QueryContext` run:
`ctx.Value(TxKey).(pgx.Tx)` when the context carries a transaction,
otherwise the pool. The result is `none` for a transaction that is closed. -/
def DB.conn (db : DB) (ctx : Context) : Option Tables :=
  match ctx.Value TxKey with
  | some .tx => db.tx
  | _ => some db.pool

/-- The tables written back to where the statement ran. -/
def DB.put (db : DB) (ctx : Context) (t : Tables) : DB :=
  match ctx.Value TxKey with
  | some .tx => { db with tx := some t }
  | _ => { db with pool := t }

/-- Method `pg.QueryContext` with its scan: runs a read on the connection. -/
def QueryContext {α : Type} (db : DB) (ctx : Context) (dbErr : Bool) (q : Tables → α) : Except Err α :=
  if dbErr then .error driverError
  else
    match db.conn ctx with
    | none => .error driverError
    | some t => .ok (q t)

/-- Method `pg.ScanOneContext`: runs a read that must yield one row
(`pgxscan.ScanOne`); no row is reported as `nil` by the repository, more than
one row is an error. -/
def ScanOneContext {α : Type} (db : DB) (ctx : Context) (dbErr : Bool) (q : Tables → List α) :
    Except Err (Option α) :=
  match QueryContext db ctx dbErr q with
  | .error e => .error e
  | .ok [] => .ok none
  | .ok [row] => .ok (some row)
  | .ok _ => .error (.plain "scany: expected 1 row, got more")

/-- Method `pg.ExecContext`: runs a write on the connection. -/
def ExecContext (db : DB) (ctx : Context) (dbErr : Bool) (stmt : Tables → Tables) : Except Err Unit × DB :=
  if dbErr then (.error driverError, db)
  else
    match db.conn ctx with
    | none => (.error driverError, db)
    | some t => (.ok (), db.put ctx (stmt t))

namespace userRepository

/-- Method `Create`: `INSERT INTO users (...)`. -/
def Create (db : DB) (ctx : Context) (user : UserModel) (dbErr : Bool) : Except Err Unit × DB :=
  ExecContext db ctx dbErr (fun t =>
    { t with users := t.users ++ [{ user with LastLogin := none, DeletedAt := none }] })

/-- Method `FindByEmail`: the row `WHERE email = $1 AND deleted_at IS NULL`,
with the columns id, email, password, first_name, last_name scanned. -/
def FindByEmail (db : DB) (ctx : Context) (email : String) (dbErr : Bool) : Except Err (Option UserModel) :=
  ScanOneContext db ctx dbErr (fun t =>
    (t.users.filter (fun u => decide (u.Email = email) && u.DeletedAt.isNone)).map (fun u =>
      { ID := u.ID, Email := u.Email, Password := u.Password, FirstName := u.FirstName,
        LastName := u.LastName, MiddleName := "", Phone := "", Position := "", Active := false,
        DataRole := "", EmailVerified := false, LastLogin := none, CreatedAt := 0,
        UpdatedAt := 0, DeletedAt := none }))

/-- Method `GetAllRoles`: `SELECT id, role_name as name, description FROM roles`. -/
def GetAllRoles (db : DB) (ctx : Context) (dbErr : Bool) : Except Err (List Role) :=
  QueryContext db ctx dbErr (fun t =>
    t.roles.map (fun r => { ID := r.ID, Name := r.RoleName, Description := r.Description,
                            Permissions := [] }))

/-- Method `GetAllPermissions`: `SELECT id, permission_name as name, description FROM permissions`. -/
def GetAllPermissions (db : DB) (ctx : Context) (dbErr : Bool) : Except Err (List Permission) :=
  QueryContext db ctx dbErr (fun t =>
    t.permissions.map (fun p => { ID := p.ID, Name := p.PermissionName, Description := p.Description }))

/-- Method `FindRoleByName`: the row `WHERE role_name = $1`, `nil` when none. -/
def FindRoleByName (db : DB) (ctx : Context) (name : String) (dbErr : Bool) : Except Err (Option RoleModel) :=
  ScanOneContext db ctx dbErr (fun t => t.roles.filter (fun r => decide (r.RoleName = name)))

/-- Method `FindPermissionByName`: the row `WHERE permission_name = $1`, `nil` when none. -/
def FindPermissionByName (db : DB) (ctx : Context) (name : String) (dbErr : Bool) :
    Except Err (Option PermissionModel) :=
  ScanOneContext db ctx dbErr (fun t => t.permissions.filter (fun p => decide (p.PermissionName = name)))

/-- Method `AssignRole`: `INSERT INTO user_roles (user_id, role_id)`. -/
def AssignRole (db : DB) (ctx : Context) (userID : UUID) (roleID : Int) (dbErr : Bool) : Except Err Unit × DB :=
  ExecContext db ctx dbErr (fun t => { t with user_roles := t.user_roles ++ [(userID, roleID)] })

/-- Method `AssignPermission`: `INSERT INTO user_permissions (user_id, permission_id)`. -/
def AssignPermission (db : DB) (ctx : Context) (userID : UUID) (permissionID : Int) (dbErr : Bool) :
    Except Err Unit × DB :=
  ExecContext db ctx dbErr (fun t =>
    { t with user_permissions := t.user_permissions ++ [(userID, permissionID)] })

/-- The query `user.GetRolePermissions`: permissions joined to a role. -/
def rolePermissions (t : Tables) (roleID : Int) : List Permission :=
  (t.role_permissions.filter (fun rp => decide (rp.1 = roleID))).flatMap (fun rp =>
    (t.permissions.filter (fun p => decide (p.ID = rp.2))).map (fun p =>
      { ID := p.ID, Name := p.PermissionName, Description := p.Description }))

/-- The first query of `GetUserRoles`: roles joined to the user. -/
def userRoleRows (t : Tables) (userID : UUID) : List Role :=
  (t.user_roles.filter (fun ur => decide (ur.1 = userID))).flatMap (fun ur =>
    (t.roles.filter (fun r => decide (r.ID = ur.2))).map (fun r =>
      { ID := r.ID, Name := r.RoleName, Description := r.Description, Permissions := [] }))

/-- The loop of `GetUserRoles` loading the permissions of each role: one
query per role, the `n`-th store call failing when `fail n` holds. -/
def loadRolePermissions (db : DB) (ctx : Context) (fail : Nat → Bool) (n : Nat) :
    List Role → Except Err (List Role)
  | [] => .ok []
  | role :: rest =>
    match QueryContext db ctx (fail n) (fun t => rolePermissions t role.ID) with
    | .error e => .error e
    | .ok permissions =>
      match loadRolePermissions db ctx fail (n + 1) rest with
      | .error e => .error e
      | .ok roles => .ok ({ role with Permissions := permissions } :: roles)

/-- Method `GetUserRoles`: the roles of the user, each with its permissions;
the store calls are numbered from `n`. -/
def GetUserRoles (db : DB) (ctx : Context) (userID : UUID) (fail : Nat → Bool) (n : Nat) :
    Except Err (List Role) :=
  match QueryContext db ctx (fail n) (fun t => userRoleRows t userID) with
  | .error e => .error e
  | .ok roles => loadRolePermissions db ctx fail (n + 1) roles

/-- Method `GetUserPermissions`: the `UNION` of the direct permissions and
the permissions through roles, each row once. -/
def GetUserPermissions (db : DB) (ctx : Context) (userID : UUID) (dbErr : Bool) : Except Err (List Permission) :=
  QueryContext db ctx dbErr (fun t =>
    (((t.user_permissions.filter (fun up => decide (up.1 = userID))).flatMap (fun up =>
        (t.permissions.filter (fun p => decide (p.ID = up.2))).map (fun p =>
          ({ ID := p.ID, Name := p.PermissionName, Description := p.Description } : Permission)))) ++
     ((t.user_roles.filter (fun ur => decide (ur.1 = userID))).flatMap (fun ur =>
        rolePermissions t ur.2))).dedup)

end userRepository

/-! ## User service (`user/service/impl/user_service.go`) -/

/-- Go map `map[string]int` as the list of its entries. -/
abbrev NameMap := List (String × Int)

/-- Assignment `m[k] = v`. -/
def NameMap.set (m : NameMap) (k : String) (v : Int) : NameMap :=
  (k, v) :: m.filter (fun kv => !decide (kv.1 = k))

/-- Lookup `v, exists := m[k]`. -/
def NameMap.get? (m : NameMap) (k : String) : Option Int :=
  (m.find? (fun kv => decide (kv.1 = k))).map (fun kv => kv.2)

/-- The loop building `roleMap`: `roleMap[r.Name] = r.ID` for each role. -/
def roleMapOf (availableRoles : List Role) : NameMap :=
  availableRoles.foldl (fun m r => m.set r.Name r.ID) []

/-- The loop building `permMap`: `permMap[p.Name] = p.ID` for each permission. -/
def permMapOf (availablePermissions : List Permission) : NameMap :=
  availablePermissions.foldl (fun m p => m.set p.Name p.ID) []

namespace userService

/-- The loop `for _, role := range req.Roles` of `Create`: assigns each
requested role, from the catalog map or by a lookup by name; stops at the
first error. Store calls are numbered from `n`; the number reached is returned. -/
def assignRoles (ctx : Context) (fail : Nat → Bool) (userID : UUID) (roleMap : NameMap) :
    DB → Nat → List RoleRequest → Except Err Unit × DB × Nat
  | db, n, [] => (.ok (), db, n)
  | db, n, role :: rest =>
    match roleMap.get? role.Name with
    | some roleID =>
      match userRepository.AssignRole db ctx userID roleID (fail n) with
      | (.error e, db1) => (.error e, db1, n + 1)
      | (.ok _, db1) => assignRoles ctx fail userID roleMap db1 (n + 1) rest
    | none =>
      match userRepository.FindRoleByName db ctx role.Name (fail n) with
      | .error e => (.error e, db, n + 1)
      | .ok none => (.error (NotFoundError "role.not_found" none [("name", role.Name)]), db, n + 1)
      | .ok (some roleModel) =>
        match userRepository.AssignRole db ctx userID roleModel.ID (fail (n + 1)) with
        | (.error e, db1) => (.error e, db1, n + 2)
        | (.ok _, db1) => assignRoles ctx fail userID roleMap db1 (n + 2) rest

/-- The loop `for _, perm := range req.Permissions` of `Create`. -/
def assignPermissions (ctx : Context) (fail : Nat → Bool) (userID : UUID) (permMap : NameMap) :
    DB → Nat → List PermissionRequest → Except Err Unit × DB × Nat
  | db, n, [] => (.ok (), db, n)
  | db, n, perm :: rest =>
    match permMap.get? perm.Name with
    | some permID =>
      match userRepository.AssignPermission db ctx userID permID (fail n) with
      | (.error e, db1) => (.error e, db1, n + 1)
      | (.ok _, db1) => assignPermissions ctx fail userID permMap db1 (n + 1) rest
    | none =>
      match userRepository.FindPermissionByName db ctx perm.Name (fail n) with
      | .error e => (.error e, db, n + 1)
      | .ok none => (.error (NotFoundError "permission.not_found" none [("name", perm.Name)]), db, n + 1)
      | .ok (some permModel) =>
        match userRepository.AssignPermission db ctx userID permModel.ID (fail (n + 1)) with
        | (.error e, db1) => (.error e, db1, n + 2)
        | (.ok _, db1) => assignPermissions ctx fail userID permMap db1 (n + 2) rest

/-- The function passed to `txManager.ReadCommitted` by `Create`: inserts the
user, assigns roles and permissions, re-reads both. `ctx` is the context the
transaction runner hands to the function; the store calls are numbered from
0 and the `n`-th fails when `fail n` holds. -/
def createBody (db : DB) (ctx : Context) (fail : Nat → Bool) (user : UserModel) (req : CreateUserRequest) :
    Except Err (List Role × List Permission) × DB :=
  match userRepository.Create db ctx user (fail 0) with
  | (.error e, db1) => (.error e, db1)
  | (.ok _, db1) =>
    match userRepository.GetAllRoles db1 ctx (fail 1) with
    | .error e => (.error e, db1)
    | .ok availableRoles =>
      match assignRoles ctx fail user.ID (roleMapOf availableRoles) db1 2 req.Roles with
      | (.error e, db2, _) => (.error e, db2)
      | (.ok _, db2, n2) =>
        match userRepository.GetAllPermissions db2 ctx (fail n2) with
        | .error e => (.error e, db2)
        | .ok availablePermissions =>
          match assignPermissions ctx fail user.ID (permMapOf availablePermissions) db2 (n2 + 1)
                  req.Permissions with
          | (.error e, db3, _) => (.error e, db3)
          | (.ok _, db3, n3) =>
            match userRepository.GetUserRoles db3 ctx user.ID fail n3 with
            | .error e => (.error e, db3)
            | .ok roles =>
              match userRepository.GetUserPermissions db3 ctx user.ID (fail (n3 + 1 + roles.length)) with
              | .error e => (.error e, db3)
              | .ok permissions => (.ok (roles, permissions), db3)

end userService

/-- Modelled from the spec: the transaction runner `db.TxManager.ReadCommitted`
(package `transaction`, absent from the sources). The spec: `RunInTransaction(fn)`
"guarantees rollback on any non-nil error returned by `fn`, commit otherwise".
It opens a transaction on the committed tables, runs `fn` with a context that
carries the transaction under `pg.TxKey`, and then either discards what the
transaction wrote or makes it the committed state. -/
def ReadCommitted {α : Type} (db : DB) (ctx : Context) (fn : DB → Context → Except Err α × DB) :
    Except Err α × DB :=
  match fn { db with tx := some db.pool } (WithValue ctx TxKey .tx) with
  | (.error e, db1) => (.error e, { pool := db1.pool, tx := none })
  | (.ok a, db1) => (.ok a, { pool := db1.tx.getD db1.pool, tx := none })

/-- The row `Create` builds from the request: `&model.UserModel{...}`. -/
def newUserModel (req : CreateUserRequest) (now : Time) (freshID : UUID) (hashedPassword : String) :
    UserModel :=
  { ID := freshID, Email := req.Email, Password := hashedPassword,
    FirstName := req.FirstName, LastName := req.LastName, MiddleName := req.MiddleName,
    Phone := req.Phone, Position := req.Position, Active := decide (req.Active = 1),
    DataRole := req.DataRole, EmailVerified := false, LastLogin := none,
    CreatedAt := now, UpdatedAt := now, DeletedAt := none }

/-- Method `userService.Create`. `hash` is `bcrypt.GenerateFromPassword`,
`freshID` the value of `uuid.New()`, `preErr` whether the `FindByEmail` before
the transaction fails, `fail` which store call of the transaction fails. On a
transaction error the code re-reads the user by email for a log line only. -/
def userService.Create (db : DB) (ctx : Context) (req : CreateUserRequest) (now : Time)
    (freshID : UUID) (hash : String → Except Err String) (preErr : Bool) (fail : Nat → Bool) :
    Except Err User × DB :=
  if req.Password ≠ req.PasswordConfirmation then
    (.error (ValidationError "user.password_mismatch" none
      [("password", "***"), ("password_confirmation", "***")]), db)
  else
    match userRepository.FindByEmail db ctx req.Email preErr with
    | .error e => (.error e, db)
    | .ok (some _) => (.error (ConflictError "user.email_exists" none [("email", req.Email)]), db)
    | .ok none =>
      match hash req.Password with
      | .error e => (.error e, db)
      | .ok hashedPassword =>
        let user := newUserModel req now freshID hashedPassword
        match ReadCommitted db ctx (fun d c => userService.createBody d c fail user req) with
        | (.error txErr, db1) => (.error txErr, db1)
        | (.ok (roles, permissions), db1) => (.ok (FromDBModel user roles permissions), db1)

/-- The actions `UserPolicy.Check` maps, each with its permission. -/
def userActionPermissions : List (String × String) :=
  [("create", "users:create"), ("view", "users:view"), ("update", "users:update"),
   ("delete", "users:delete"), ("assign-role", "users:assign-role"),
   ("revoke-role", "users:revoke-role"), ("view-roles", "users:view-roles"),
   ("assign-permission", "users:assign-permission"),
   ("revoke-permission", "users:revoke-permission"),
   ("view-permissions", "users:view-permissions")]

/-- The actions `PermissionPolicy.Check` maps, each with its permission. -/
def permissionActionPermissions : List (String × String) :=
  [("create", "permissions:create"), ("view", "permissions:view"),
   ("delete", "permissions:delete"), ("assign", "permissions:assign"),
   ("revoke", "permissions:revoke")]

/-- Number of sessions of the user that the store counts as active at `now`. -/
def activeCount (s : Store) (userID : UUID) (now : Time) : Nat :=
  (s.filter (sqlActiveOf userID now)).length

/-- One call of `saveRefreshToken`: its arguments, the clock value and the
values drawn by `uuid.New()`. -/
structure Admission where
  ctx : Context
  userID : UUID
  tokenString : String
  expiresAt : Time
  ipAddress : String
  now : Time
  fresh : Fresh
  deriving DecidableEq, Repr

/-- The store after one session admission in which no store call fails. -/
def runAdmission (s : Store) (a : Admission) : Store :=
  (saveRefreshToken s a.ctx a.userID a.tokenString a.expiresAt a.ipAddress a.now a.fresh noFaults).2

/-- The store after a sequence of session admissions, one after the other. -/
def runAdmissions (s : Store) (as : List Admission) : Store :=
  as.foldl runAdmission s

/-- The row `saveRefreshToken` inserts for an admission. -/
def sessionRow (a : Admission) : RefreshToken :=
  { ID := a.fresh.tokenID, UserID := a.userID, Token := a.tokenString, ExpiresAt := a.expiresAt,
    Revoked := false, CreatedAt := a.now, CreatedByIP := a.ipAddress, RevokedAt := none,
    RevokedByIP := "", ReplacedByToken := "",
    DeviceIdentifier := getDeviceIdentifier a.ctx a.fresh.deviceID }

/-! ## Revocation (`refresh_token_repository.go`, `auth_service.go`) -/

/-- Method `refreshTokenRepository.RevokeAllUserTokens`: `SET revoked = true,
revoked_at = $1, revoked_by_ip = $2 WHERE user_id = $3 AND revoked = false AND
expires_at > $4`, both times being the clock value of the call. -/
def refreshTokenRepository.RevokeAllUserTokens (s : Store) (userID : UUID) (ipAddress : String)
    (now : Time) (dbErr : Bool) : Except Err Unit × Store :=
  if userID = uuidNil then (.error (BadRequestError "user_id.empty" none []), s)
  else if dbErr then (.error (InternalServerError "token.revoke_error" (some driverErrorText) []), s)
  else
    (.ok (), s.map (fun rt =>
      if sqlActiveOf userID now rt then
        { rt with Revoked := true, RevokedAt := some now, RevokedByIP := ipAddress }
      else rt))

/-- Method `authService.RevokeToken`: looks the record up by its token string,
marks it revoked by `ipAddress` with an empty successor and stores it.
`getErr` and `updateErr` say whether the lookup and the update fail. -/
def authService.RevokeToken (_a : authService) (s : Store) (tokenStr ipAddress : String)
    (now : Time) (getErr updateErr : Bool) : Except Err Unit × Store :=
  match refreshTokenRepository.GetByToken s tokenStr getErr with
  | .error e => (.error e, s)
  | .ok none => (.error (NotFoundError "token.not_found" none []), s)
  | .ok (some token) => refreshTokenRepository.Update s (token.Revoke ipAddress "" now) updateErr

/-- Method `authService.RevokeAllUserTokens`: the repository call. -/
def authService.RevokeAllUserTokens (_a : authService) (s : Store) (userID : UUID)
    (ipAddress : String) (now : Time) (dbErr : Bool) : Except Err Unit × Store :=
  refreshTokenRepository.RevokeAllUserTokens s userID ipAddress now dbErr

/-- One call of an operation of the auth service, with its arguments, its
clock value, the fresh values it draws and the store calls that fail. -/
inductive AuthOp where
  | register (ctx : Context) (req : CreateUserRequest) (now : Time) (fr : Fresh) (f : Faults)
  | login (ctx : Context) (email password : String) (now : Time) (fr : Fresh) (f : Faults)
  | refresh (ctx : Context) (refreshTokenString : String) (now : Time) (fr : Fresh) (f : Faults)
  | revoke (tokenStr ipAddress : String) (now : Time) (getErr updateErr : Bool)
  | revokeAll (userID : UUID) (ipAddress : String) (now : Time) (dbErr : Bool)
  | admission (ctx : Context) (userID : UUID) (tokenString : String) (expiresAt : Time)
      (ipAddress : String) (now : Time) (fr : Fresh) (f : Faults)

/-- The store after one operation of the auth service. -/
def authStep (a : authService) (s : Store) : AuthOp → Store
  | .register ctx req now fr f => (a.Register s ctx req now fr f).2
  | .login ctx email password now fr f => (a.Login s ctx email password now fr f).2
  | .refresh ctx tok now fr f => (a.RefreshToken s ctx tok now fr f).2
  | .revoke tok ip now getErr updateErr => (a.RevokeToken s tok ip now getErr updateErr).2
  | .revokeAll userID ip now dbErr => (a.RevokeAllUserTokens s userID ip now dbErr).2
  | .admission ctx userID tok exp ip now fr f => (saveRefreshToken s ctx userID tok exp ip now fr f).2

/-- The store after a sequence of operations of the auth service. -/
def authRun (a : authService) (s : Store) (ops : List AuthOp) : Store :=
  ops.foldl (authStep a) s

/-- Relation between a store and a later one: each row of the earlier store
is in the same place with the same id, user and token string, and is still
revoked if it was; the later store may have more rows at the end. -/
def keepsRevoked (s s' : Store) : Prop :=
  ∃ (f : RefreshToken → RefreshToken) (t : Store), s' = s.map f ++ t ∧
    ∀ r, (f r).ID = r.ID ∧ (f r).UserID = r.UserID ∧ (f r).Token = r.Token ∧
      (r.Revoked = true → (f r).Revoked = true)

/-! ## Credentials (`user/service/impl/user_service.go`) -/

/-- Method `userService.ValidateCredentials`. `compare` is
`bcrypt.CompareHashAndPassword` applied to the stored hash and the password:
the text of its error, `none` when the password matches. `findErr` and
`permErr` say whether `FindByEmail` and `GetUserPermissions` fail, `fail`
which store call of `GetUserRoles` fails. -/
def userService.ValidateCredentials (db : DB) (ctx : Context) (email password : String)
    (compare : String → String → Option String) (findErr : Bool) (fail : Nat → Bool)
    (permErr : Bool) : Except Err User :=
  match userRepository.FindByEmail db ctx email findErr with
  | .error e => .error e
  | .ok none => .error (NotFoundError "user.not_found" none [("email", email)])
  | .ok (some user) =>
    match compare user.Password password with
    | some err => .error (UnauthorizedError "errors.invalid_credentials" (some err) [])
    | none =>
      match userRepository.GetUserRoles db ctx user.ID fail 0 with
      | .error e => .error e
      | .ok roles =>
        match userRepository.GetUserPermissions db ctx user.ID permErr with
        | .error e => .error e
        | .ok permissions => .ok (FromDBModel user roles permissions)

/-- Method `Error()` of a Go error: the message of an `AppError`, followed by
its wrapped error when there is one; `fmt.Errorf("...: %w", err)` prints the
text and the wrapped error. -/
def Err.Error : Err → String
  | .app e =>
    match e.Err with
    | some inner => e.Message ++ ": " ++ inner
    | none => e.Message
  | .plain msg => msg
  | .wrapped msg inner => msg ++ ": " ++ inner.Error

/-- Library function `errors.As(err, &appErr)` for `*AppError`: the first
`AppError` of the chain. -/
def Err.asAppError : Err → Option AppError
  | .app e => some e
  | .plain _ => none
  | .wrapped _ inner => inner.asAppError

/-- Function `IsUnauthorizedError`. -/
def IsUnauthorizedError (err : Err) : Bool :=
  match err.asAppError with
  | some appErr => decide (appErr.Code = "UNAUTHORIZED")
  | none => false

/-! ## Expiry sweep (`refresh_token_repository.go`) -/

/-- Method `refreshTokenRepository.DeleteExpired`: `DELETE FROM refresh_tokens
WHERE expires_at < $1` with `$1 = time.Now().Add(-24*time.Hour)`. -/
def refreshTokenRepository.DeleteExpired (s : Store) (now : Time) (dbErr : Bool) :
    Except Err Unit × Store :=
  if dbErr then (.error (InternalServerError "token.delete_error" (some driverErrorText) []), s)
  else (.ok (), s.filter (fun rt => !decide (rt.ExpiresAt < now - 24 * Hour)))

/-! ## Token validation (`pkg/jwt/manager.go`, library `golang-jwt/jwt/v5`) -/

/-- Signing methods the `alg` header of a token can name. -/
inductive SigningMethod where
  | HS256 | HS384 | HS512 | RS256 | ES256 | PS256 | EdDSA | None
  deriving DecidableEq, Repr

/-- The type test `token.Method.(*jwt.SigningMethodHMAC)`. -/
def SigningMethod.isHMAC : SigningMethod → Bool
  | .HS256 => true
  | .HS384 => true
  | .HS512 => true
  | _ => false

/-- A decoded token `jwt.Token`: the method its header names, its claims, and
`Verify key`, the outcome of `token.Method.Verify(signingString, signature, key)`
for the two signed parts and the signature part of the string: whether the
signature verifies under `key` with the method of the header. -/
structure Token where
  Method : SigningMethod
  Claims : UserClaims
  Verify : String → Bool
  Valid : Bool

/-- HMAC key preparation for a key no longer than the block of the hash
function (64 bytes for SHA-256): the key is padded with zero bytes up to the
block length, so keys that differ in trailing zero bytes are one key. The
result is the key without its trailing zero bytes. -/
def hmacPaddedKey (key : String) : List Char :=
  (key.data.reverse.dropWhile (fun c => c == Char.ofNat 0)).reverse

/-- Verification of an HMAC signature made under `signingKey` with the key
`key`, both no longer than the block of the hash function: the padded keys
are compared. -/
def hmacVerify (signingKey key : String) : Bool :=
  decide (hmacPaddedKey signingKey = hmacPaddedKey key)

/-- What the library reads from a token string (`Parser.ParseUnverified`):
`none` for a string that is not three base64url segments holding a JSON header
and JSON claims, or whose `alg` names no registered method. -/
abbrev Decoder := String → Option Token

/-- Library check of `exp`, made when the claim is present: `now.Before(exp)`. -/
def verifyExpiresAt (claims : UserClaims) (now : Time) : Bool :=
  match claims.ExpiresAt with
  | none => true
  | some exp => decide (now < exp)

/-- Library check of `nbf`, made when the claim is present: `!now.Before(nbf)`. -/
def verifyNotBefore (claims : UserClaims) (now : Time) : Bool :=
  match claims.NotBefore with
  | none => true
  | some nbf => !decide (now < nbf)

/-- Library method `Validator.Validate` with the default options (no leeway,
`iat` not verified, no expected audience, issuer or subject). -/
def Validate (claims : UserClaims) (now : Time) : Except Err Unit :=
  if !verifyExpiresAt claims now then .error (.plain "token is expired")
  else if !verifyNotBefore claims now then .error (.plain "token is not valid yet")
  else .ok ()

/-- Library function `jwt.ParseWithClaims(tokenString, claims, keyFunc)`:
decodes the string, asks `keyFunc` for the key, verifies the signature with the
method of the header and that key, validates the claims at the clock value
`now`, and marks the token valid. -/
def ParseWithClaims (decode : Decoder) (tokenString : String)
    (keyFunc : Token → Except Err String) (now : Time) : Except Err Token :=
  match decode tokenString with
  | none => .error (.plain "token is malformed")
  | some token =>
    match keyFunc token with
    | .error e => .error (.wrapped "token is unverifiable: error while executing keyfunc" e)
    | .ok key =>
      if !token.Verify key then
        .error (.plain "token signature is invalid")
      else
        match Validate token.Claims now with
        | .error e => .error (.wrapped "token has invalid claims" e)
        | .ok _ => .ok { token with Valid := true }

/-- Method `Manager.ValidateToken`: parses the token with a key function that
accepts HMAC methods only and hands out the secret of the manager. -/
def Manager.ValidateToken (m : Manager) (decode : Decoder) (tokenString : String) (now : Time) :
    Except Err UserClaims :=
  match ParseWithClaims decode tokenString
      (fun token =>
        if !token.Method.isHMAC then .error (.plain "неожиданный метод подписи")
        else .ok m.secret) now with
  | .error e => .error (.wrapped "ошибка валидации токена" e)
  | .ok token =>
    if !token.Valid then .error (.plain "недействительный токен")
    else .ok token.Claims

/-- The codec law of the signing library for claims whose dates are whole
seconds (the precision of `jwt.NumericDate`): a string signed with HS256 under
`key` decodes to an HS256 token with the claims that were signed, and its
signature verifies under `key`. -/
def decodesSigned (sign : Signer) (decode : Decoder) : Prop :=
  ∀ (c : UserClaims) (key tokenString : String),
    (∀ t, c.ExpiresAt = some t ∨ c.IssuedAt = some t ∨ c.NotBefore = some t → t % Second = 0) →
    sign (.user c) key = .ok tokenString →
    ∃ token : Token, decode tokenString = some token ∧ token.Method = .HS256 ∧
      token.Claims = c ∧ token.Verify key = true

/-! ## Authentication middleware (`internal/middleware/auth_middleware.go`) -/

/-- Library function `strings.Split(s, sep)` for a separator of one character. -/
def stringsSplit (s : String) (sep : Char) : List String :=
  (s.data.splitOn sep).map String.mk

/-- Method `AuthMiddleware.extractToken`: the token of the header
`Authorization: Bearer <token>`; `authHeader` is `c.GetHeader("Authorization")`,
empty when the header is missing. The error is given by its text. -/
def AuthMiddleware.extractToken (authHeader : String) : Except String String :=
  if authHeader = "" then .error "отсутствует заголовок Authorization"
  else
    match stringsSplit authHeader ' ' with
    | [p0, p1] => if p0 ≠ "Bearer" then .error "неверный формат токена" else .ok p1
    | _ => .error "неверный формат токена"

/-- Whether the Go slice expression `s[:hi]` on a string stays in range: it
panics at run time when `hi` exceeds `len(s)`, the length in bytes. -/
def sliceInRange (s : String) (hi : Nat) : Bool := decide (hi ≤ s.utf8ByteSize)

/-- How the handler `Authenticate` ends: with an error response and
`c.Abort()`, with a run-time panic, or by calling the next handler with the
user and the claims set. -/
inductive Outcome where
  | aborted (e : Err)
  | panicked (msg : String)
  | next (user : User) (claims : UserClaims)
  deriving DecidableEq, Repr

/-- Handler `AuthMiddleware.Authenticate`. `parseUUID` is `uuid.Parse`. -/
def AuthMiddleware.Authenticate (m : Manager) (decode : Decoder) (users : UserService)
    (parseUUID : String → Except Err UUID) (authHeader : String) (now : Time) : Outcome :=
  match AuthMiddleware.extractToken authHeader with
  | .error err => .aborted (UnauthorizedError "errors.unauthorized" (some err) [])
  | .ok tokenString =>
    if !sliceInRange tokenString 10 then
      .panicked "runtime error: slice bounds out of range"
    else
      match m.ValidateToken decode tokenString now with
      | .error err => .aborted (UnauthorizedError "errors.unauthorized" (some err.Error) [])
      | .ok claims =>
        match parseUUID claims.UserID with
        | .error err => .aborted (UnauthorizedError "errors.invalid_input" (some err.Error) [])
        | .ok userID =>
          match users.GetByID userID with
          | .error err => .aborted err
          | .ok none => .aborted (NotFoundError "user.not_found" none [("id", userID)])
          | .ok (some user) => .next user claims

/-! ## Validation errors (`internal/core/errors/validator.go`) -/

/-- A field error of the validation library (`validator.FieldError`) as
`parseValidationErrors` reads it; `Value` is the submitted value. -/
structure FieldError where
  Namespace : String
  Field : String
  Tag : String
  Param : String
  Value : String
  deriving DecidableEq, Repr

/-- Entry `ValidationFieldError` of the details; `Value` is `none` when the
field `value` is left unset. -/
structure ValidationFieldError where
  Field : String
  Tag : String
  Value : Option String
  Message : String
  Param : String
  deriving DecidableEq, Repr

/-- Library function `strings.ToLower`: `lower` is `unicode.ToLower`, applied
to every character. -/
def stringsToLower (lower : Char → Char) (s : String) : String := String.mk (s.data.map lower)

/-- Library function `strings.Contains`. -/
def stringsContains (s substr : String) : Bool := decide (substr.data <:+: s.data)

/-- The list `confidentialFields` of `isConfidentialField`. -/
def confidentialFields : List String := ["password", "пароль", "secret", "token", "key", "pin"]

/-- Function `isConfidentialField`. -/
def isConfidentialField (lower : Char → Char) (fieldName : String) : Bool :=
  let lowercaseName := stringsToLower lower fieldName
  confidentialFields.any (fun field => stringsContains lowercaseName field)

/-- The map `validErrs.Translate(trans)` read at a namespace: the translation
of the last field error with that namespace, the empty string when there is
none. `translate` is `FieldError.Translate(trans)`. -/
def Translate (translate : FieldError → String) (validErrs : List FieldError) (ns : String) : String :=
  match validErrs.reverse.find? (fun fe => decide (fe.Namespace = ns)) with
  | some fe => translate fe
  | none => ""

/-- Function `parseValidationErrors`: `validErrs` is `none` for a nil error and
for an error that is no `validator.ValidationErrors`. -/
def parseValidationErrors (lower : Char → Char) (translate : FieldError → String)
    (validErrs : Option (List FieldError)) : List ValidationFieldError :=
  match validErrs with
  | none => []
  | some errs =>
    errs.map (fun fieldErr =>
      { Field := fieldErr.Field, Tag := fieldErr.Tag,
        Value := if !isConfidentialField lower fieldErr.Field then some fieldErr.Value else none,
        Message := Translate translate errs fieldErr.Namespace, Param := fieldErr.Param })

/-- The words of the specification for a confidential field: its name
contains `word` in some letter case. -/
def containsAnyCase (fieldName word : String) : Prop :=
  ∃ w : List Char, w <:+: fieldName.data ∧ w.map Char.toLower = word.data

/-! ## Sequences of token issuances -/

/-- A token issuance: a call of `Register`, `Login` or `RefreshToken` with its
context, clock value, fresh ids and failing store calls. -/
inductive IssueOp where
  | register (ctx : Context) (req : CreateUserRequest) (now : Time) (fr : Fresh) (f : Faults)
  | login (ctx : Context) (email password : String) (now : Time) (fr : Fresh) (f : Faults)
  | refresh (ctx : Context) (refreshTokenString : String) (now : Time) (fr : Fresh) (f : Faults)

/-- The result of one issuance and the store it leaves. -/
def issue (a : authService) (s : Store) : IssueOp → Except Err AuthResponse × Store
  | .register ctx req now fr f => a.Register s ctx req now fr f
  | .login ctx email password now fr f => a.Login s ctx email password now fr f
  | .refresh ctx refreshTokenString now fr f => a.RefreshToken s ctx refreshTokenString now fr f

/-- The results of a sequence of issuances, each run on the store the one
before it left. -/
def issueAll (a : authService) : Store → List IssueOp → List (Except Err AuthResponse × Store)
  | _, [] => []
  | s, op :: ops => issue a s op :: issueAll a (issue a s op).2 ops

/-- The refresh token strings returned by the successful issuances of a
sequence, in the order of issue. -/
def issuedRefreshTokens (a : authService) (s : Store) (ops : List IssueOp) : List String :=
  (issueAll a s ops).filterMap (fun r => r.1.toOption.map (fun resp => resp.RefreshToken))

/-- Modelled from the spec: the unique constraint on the column
`refresh_tokens.token`; the schema of the table is not among the sources. The
spec: "`refresh_tokens.token` must be unique". A state of the table satisfies
the constraint when no two rows carry the same token string; the database
refuses an `INSERT` that would break it, so every state it reaches satisfies
it. -/
def uniqueTokens (s : Store) : Prop := (s.map (fun rt => rt.Token)).Nodup

instance (s : Store) : Decidable (uniqueTokens s) := by
  unfold uniqueTokens
  infer_instance

/-! ## Sample data for closed evaluations -/

/-- A signing function for closed evaluations: the output spells out the key
and the claims, so different claims give different strings. -/
def sampleSign : Signer := fun claims key =>
  match claims with
  | .user c => .ok ("access/" ++ key ++ "/" ++ c.UserID ++ "/" ++ toString (c.ExpiresAt.getD 0))
  | .refresh userID type exp => .ok (type ++ "/" ++ key ++ "/" ++ userID ++ "/" ++ toString exp)

/-- A user without roles or permissions. -/
def sampleUser : User :=
  { ID := "11111111-1111-1111-1111-111111111111", Email := "a@x.com", Password := "hash",
    FirstName := "", LastName := "", MiddleName := "", Phone := "", Position := "",
    Active := true, DataRole := "", EmailVerified := false, LastLogin := none,
    CreatedAt := 0, UpdatedAt := 0, DeletedAt := none, Roles := [], Permissions := [] }

/-- A user service that knows `sampleUser` with the password `"secret"`. -/
def sampleUsers : UserService :=
  { Create := fun _ => .ok sampleUser,
    ValidateCredentials := fun email password =>
      if email = "a@x.com" then
        if password = "secret" then .ok sampleUser
        else .error (UnauthorizedError "errors.invalid_credentials"
          (some "crypto/bcrypt: hashedPassword is not the hash of the given password") [])
      else .error (NotFoundError "user.not_found" none [("email", email)]),
    GetByID := fun id => if id = sampleUser.ID then .ok (some sampleUser) else .ok none }

/-- An auth service with the default lifetimes (60 minutes, 24 hours). -/
def sampleAuth : authService :=
  { cfg := { SecretKey := "k", AccessTokenExpiryMinutes := 60, RefreshTokenExpiryHours := 24 },
    jwtManager := { secret := "k", expirationMinutes := 60 },
    sign := sampleSign, users := sampleUsers }

/-- A request from one address with one agent string. -/
def sampleRequest : Request := { RemoteAddr := "10.0.0.1:5000", UserAgent := "agent/1.0" }

/-- The context a handler builds for `sampleRequest`. -/
def sampleCtx : Context := handlerContext Background sampleRequest

/-- A session row of `sampleUser` created at second `n` for device `d`,
expiring 24 hours later. -/
def sampleSession (n : Int) (d : String) : RefreshToken :=
  { ID := "id-" ++ d, UserID := sampleUser.ID, Token := "token-" ++ d,
    ExpiresAt := n * Second + 24 * Hour, Revoked := false, CreatedAt := n * Second,
    CreatedByIP := "10.0.0.1:5000", RevokedAt := none, RevokedByIP := "",
    ReplacedByToken := "", DeviceIdentifier := d }

/-- An admission of `sampleUser` at second `n` from device `d`, with no
request in the context, so that the device identifier is the fresh value `d`. -/
def sampleAdmission (n : Int) (d : String) : Admission :=
  { ctx := Background, userID := sampleUser.ID, tokenString := "token-" ++ d,
    expiresAt := n * Second + 24 * Hour, ipAddress := "10.0.0.1:5000", now := n * Second,
    fresh := { deviceID := d, tokenID := "id-" ++ d } }

/-- A directory with the role `member` and the permission `users:view`. -/
def sampleDB : DB :=
  { pool := { users := [], roles := [{ ID := 1, RoleName := "member", Description := "" }],
              permissions := [{ ID := 1, PermissionName := "users:view", Description := "" }],
              user_roles := [], role_permissions := [], user_permissions := [] },
    tx := none }

/-- A registration request naming the role `member` and a permission that
does not exist. -/
def sampleCreateRequest : CreateUserRequest :=
  { FirstName := "A", LastName := "B", MiddleName := "", Email := "a@x.com",
    Password := "secret", PasswordConfirmation := "secret", Phone := "", Position := "",
    Active := 1, DataRole := "", Roles := [{ Name := "member" }],
    Permissions := [{ Name := "reports:export" }] }

/-- A stand-in for `bcrypt.GenerateFromPassword` in closed evaluations. -/
def sampleHash : String → Except Err String := fun p => .ok ("hash:" ++ p)

/-- A permission named `name`. -/
def samplePermission (id : Int) (name : String) : Permission :=
  { ID := id, Name := name, Description := "" }

/-- The sample user with the role `editor`, which grants `docs:read` and
`docs:write`, and with a direct grant of `docs:write`. -/
def sampleEditor : User :=
  { sampleUser with
    Roles := [{ ID := 1, Name := "editor", Description := "",
                Permissions := [samplePermission 1 "docs:read", samplePermission 2 "docs:write"] }],
    Permissions := [samplePermission 2 "docs:write"] }

/-- The sample user with the role `editor` twice in the role list. -/
def sampleTwiceEditor : User :=
  { sampleUser with
    Roles := [{ ID := 1, Name := "editor", Description := "", Permissions := [] },
              { ID := 1, Name := "editor", Description := "", Permissions := [] }] }

/-- A signing function whose output for access claims spells out the role
names and the permission names of the claims. -/
def echoSign : Signer := fun claims _ =>
  match claims with
  | .user c => .ok ("roles=" ++ String.intercalate "," c.Roles ++ ";permissions=" ++
      String.intercalate "," c.Permissions)
  | .refresh userID _ exp => .ok ("refresh/" ++ userID ++ "/" ++ toString exp)

/-- The sample auth service with `echoSign` as signing function. -/
def echoAuth : authService := { sampleAuth with sign := echoSign }

/-- The stored row of the sample user: the password `secret` hashed by
`sampleHash`. -/
def sampleUserRow : UserModel :=
  { ID := "11111111-1111-1111-1111-111111111111", Email := "a@x.com",
    Password := "hash:secret", FirstName := "A", LastName := "B", MiddleName := "", Phone := "",
    Position := "", Active := true, DataRole := "", EmailVerified := false, LastLogin := none,
    CreatedAt := 0, UpdatedAt := 0, DeletedAt := none }

/-- The sample directory with the sample user stored, holding the role `member`. -/
def sampleDirectory : DB :=
  { pool := { sampleDB.pool with users := [sampleUserRow], user_roles := [(sampleUserRow.ID, 1)] },
    tx := none }

/-- A stand-in for `bcrypt.CompareHashAndPassword` matching `sampleHash`. -/
def sampleCompare : String → String → Option String := fun hashed password =>
  if hashed = "hash:" ++ password then none
  else some "crypto/bcrypt: hashedPassword is not the hash of the given password"

/-- The sample auth service with the credentials checked against `sampleDirectory`. -/
def directoryAuth (ctx : Context) : authService :=
  { sampleAuth with
    users := { sampleUsers with
      ValidateCredentials := fun email password =>
        userService.ValidateCredentials sampleDirectory ctx email password sampleCompare false
          (fun _ => false) false } }

/-- A signing function that knows one token: it signs the claims `c0` under
`key0` as `tok0` and fails on anything else. -/
def oneTokenSign (c0 : UserClaims) (key0 tok0 : String) : Signer := fun claims key =>
  if claims = .user c0 ∧ key = key0 then .ok tok0 else .error (.plain "signing failed")

/-- The decoder that goes with `oneTokenSign`: `tok0` is the HS256 token with
the claims `c0` signed under `key0`, every other string is no token. -/
def oneTokenDecode (c0 : UserClaims) (key0 tok0 : String) : Decoder := fun tokenString =>
  if tokenString = tok0 then
    some { Method := .HS256, Claims := c0, Verify := hmacVerify key0, Valid := false }
  else none

/-- The access claims of the sample user issued at 5.3 seconds for 60 minutes. -/
def sampleClaims : UserClaims :=
  { Subject := sampleUser.ID, ExpiresAt := some (3605 * Second), IssuedAt := some (5 * Second),
    NotBefore := some (5 * Second), UserID := sampleUser.ID, Roles := ["editor"],
    Permissions := ["docs:read"] }

/-- A decoder for closed evaluations that knows four strings: a token signed
under the key `other`, an unsigned token naming the method `none`, a token
signed under the key `k`, and a token signed under the key `k` followed by a
zero byte. -/
def sampleDecode : Decoder := fun tokenString =>
  if tokenString = "signed-with-other-key" then
    some { Method := .HS256, Claims := sampleClaims, Verify := hmacVerify "other", Valid := false }
  else if tokenString = "alg-none" then
    some { Method := .None, Claims := sampleClaims, Verify := fun _ => false, Valid := false }
  else if tokenString = "signed-with-k" then
    some { Method := .HS256, Claims := sampleClaims, Verify := hmacVerify "k", Valid := false }
  else if tokenString = "signed-with-k-and-zero-byte" then
    some { Method := .HS256, Claims := sampleClaims,
           Verify := hmacVerify (String.mk ['k', Char.ofNat 0]), Valid := false }
  else none

/-- The sample directory in which the only user with the email `a@x.com` is
soft-deleted. -/
def softDeletedDirectory : DB :=
  { pool := { sampleDB.pool with users := [{ sampleUserRow with DeletedAt := some 500 }] },
    tx := none }

/-- The claims `GenerateToken` builds for the sample user at second
1762300800 with a lifetime of 153722868 minutes: the `int64` product of the
lifetime wraps around and the expiry lies before the issue time. -/
def overflowClaims : UserClaims :=
  { Subject := sampleUser.ID, ExpiresAt := some (-7461071194 * Second),
    IssuedAt := some (1762300800 * Second), NotBefore := some (1762300800 * Second),
    UserID := sampleUser.ID, Roles := ["editor"], Permissions := ["docs:read"] }

/-- The claims `GenerateToken` builds for the sample user with a lifetime of
60 minutes when the first clock reading is 0.999999999 s and the later two
are 1.000000001 s. -/
def boundaryClaims : UserClaims :=
  { Subject := sampleUser.ID, ExpiresAt := some (3600 * Second), IssuedAt := some (1 * Second),
    NotBefore := some (1 * Second), UserID := sampleUser.ID, Roles := ["editor"],
    Permissions := ["docs:read"] }

/-! ## Properties -/

/-! ### Token expiry boundary -/

/-- C1 (evaluation at the boundary): a record that is not revoked and whose
`ExpiresAt` equals the clock value is reported active by `IsActive`, although
`now < ExpiresAt` is false there; the store's own condition `expires_at > now`
rejects the same record. -/
theorem C1_isActive_at_expiry_instant :
    let rt : RefreshToken :=
      { ID := "11111111-1111-1111-1111-111111111111", UserID := "22222222-2222-2222-2222-222222222222",
        Token := "t", ExpiresAt := 1000, Revoked := false, CreatedAt := 0, CreatedByIP := "ip",
        RevokedAt := none, RevokedByIP := "", ReplacedByToken := "", DeviceIdentifier := "d" }
    rt.IsActive 1000 = true ∧ ¬ ((1000 : Time) < rt.ExpiresAt) ∧ sqlActive 1000 rt = false := by
  decide

/-! ### Device identifier -/

/-- C5 (evaluation on a handler context): for a context in which the request
is stored under `middleware.RequestKey`, as the handlers do, `getDeviceIdentifier`
does not find the request and returns the fresh random identifier, whatever the
address and the agent string; `getClientIP`, which reads the typed key, does
find the request. -/
theorem C5_getDeviceIdentifier_handler_context (req : Request) (fresh : UUID) :
    getDeviceIdentifier (handlerContext Background req) fresh = fresh ∧
    getClientIP (handlerContext Background req) = req.RemoteAddr := by
  constructor <;> rfl

/-! ### Policies -/

/-- C9 (counterexample): a user whose only permission is `"user:full"`, the
registered resource name followed by `":full"`, is denied the action `"view"`. -/
theorem C9_resource_full_denied :
    let u : User :=
      { ID := "11111111-1111-1111-1111-111111111111", Email := "a@x.com", Password := "",
        FirstName := "", LastName := "", MiddleName := "", Phone := "", Position := "",
        Active := true, DataRole := "", EmailVerified := false, LastLogin := none,
        CreatedAt := 0, UpdatedAt := 0, DeletedAt := none, Roles := [],
        Permissions := [{ ID := 1, Name := ResourceName ++ ":full", Description := "" }] }
    u.HasPermission (ResourceName ++ ":full") = true ∧ UserPolicy.Check u ResourceName "view" = false := by
  decide

/-- C9 (amended): every user whose effective permissions contain `"full"` or
`"users:full"` is allowed by `UserPolicy.Check` for every resource string and
every action string, unmapped actions included. -/
theorem C9_super_permission_allows (u : User) (resource action : String)
    (h : u.HasPermission "full" = true ∨ u.HasPermission "users:full" = true) :
    UserPolicy.Check u resource action = true := by
  have hany : u.HasAnyPermission ["full", "users:full"] = true := by
    simp only [User.HasAnyPermission, List.any_cons, List.any_nil, Bool.or_false, Bool.or_eq_true]
    exact h
  simp [UserPolicy.Check, hany]

/-- Witness for C9 (amended): a user holding `"users:full"` through a role is
allowed an action that no case of the policy maps. -/
theorem C9_super_permission_allows_witness :
    let u : User :=
      { ID := "11111111-1111-1111-1111-111111111111", Email := "a@x.com", Password := "",
        FirstName := "", LastName := "", MiddleName := "", Phone := "", Position := "",
        Active := true, DataRole := "", EmailVerified := false, LastLogin := none,
        CreatedAt := 0, UpdatedAt := 0, DeletedAt := none,
        Roles := [{ ID := 1, Name := "admin", Description := "",
                    Permissions := [{ ID := 7, Name := "users:full", Description := "" }] }],
        Permissions := [] }
    (u.HasPermission "full" = true ∨ u.HasPermission "users:full" = true) ∧
    UserPolicy.Check u ResourceName "no-such-action" = true :=
  ⟨Or.inr (by decide), C9_super_permission_allows _ _ _ (Or.inr (by decide))⟩

theorem HasAnyPermission_singleton (u : User) (p : String) :
    u.HasAnyPermission [p] = u.HasPermission p := by
  simp [User.HasAnyPermission]

theorem HasAnyPermission_pair (u : User) (p q : String) :
    u.HasAnyPermission [p, q] = (u.HasPermission p || u.HasPermission q) := by
  simp [User.HasAnyPermission]

theorem UserPolicy_Check_entry (u : User) (resource : String)
    (hany : u.HasAnyPermission ["full", "users:full"] = false) :
    ∀ e ∈ userActionPermissions, UserPolicy.Check u resource e.1 = u.HasPermission e.2 := by
  simp only [userActionPermissions, List.forall_mem_cons, List.not_mem_nil, false_implies,
    implies_true, and_true]
  refine ⟨?_, ?_, ?_, ?_, ?_, ?_, ?_, ?_, ?_, ?_⟩ <;>
    simp [UserPolicy.Check, hany, HasAnyPermission_singleton]

theorem UserPolicy_Check_unmapped (u : User) (resource action : String)
    (hany : u.HasAnyPermission ["full", "users:full"] = false)
    (hun : ∀ e ∈ userActionPermissions, e.1 ≠ action) :
    UserPolicy.Check u resource action = false := by
  simp only [userActionPermissions, List.forall_mem_cons, List.not_mem_nil, false_implies,
    implies_true, and_true, ne_eq] at hun
  obtain ⟨h1, h2, h3, h4, h5, h6, h7, h8, h9, h10⟩ := hun
  simp only [UserPolicy.Check, hany, Bool.false_eq_true, if_false,
    if_neg (Ne.symm h1), if_neg (Ne.symm h2), if_neg (Ne.symm h3), if_neg (Ne.symm h4),
    if_neg (Ne.symm h5), if_neg (Ne.symm h6), if_neg (Ne.symm h7), if_neg (Ne.symm h8),
    if_neg (Ne.symm h9), if_neg (Ne.symm h10)]

theorem PermissionPolicy_Check_entry (u : User) (resource : String)
    (hany : u.HasAnyPermission ["full", "permissions:full"] = false) :
    ∀ e ∈ permissionActionPermissions, PermissionPolicy.Check u resource e.1 = u.HasPermission e.2 := by
  simp only [permissionActionPermissions, List.forall_mem_cons, List.not_mem_nil, false_implies,
    implies_true, and_true]
  refine ⟨?_, ?_, ?_, ?_, ?_⟩ <;>
    simp [PermissionPolicy.Check, hany]

theorem PermissionPolicy_Check_unmapped (u : User) (resource action : String)
    (hany : u.HasAnyPermission ["full", "permissions:full"] = false)
    (hun : ∀ e ∈ permissionActionPermissions, e.1 ≠ action) :
    PermissionPolicy.Check u resource action = false := by
  simp only [permissionActionPermissions, List.forall_mem_cons, List.not_mem_nil, false_implies,
    implies_true, and_true, ne_eq] at hun
  obtain ⟨h1, h2, h3, h4, h5⟩ := hun
  simp only [PermissionPolicy.Check, hany, Bool.false_eq_true, if_false,
    if_neg (Ne.symm h1), if_neg (Ne.symm h2), if_neg (Ne.symm h3), if_neg (Ne.symm h4),
    if_neg (Ne.symm h5)]

/-- A policy that agrees with a table on the table's actions and denies every
other action allows exactly the actions whose permission the user holds. -/
theorem check_iff_of_table (u : User) (check : String → Bool) (tbl : List (String × String))
    (hentry : ∀ e ∈ tbl, check e.1 = u.HasPermission e.2)
    (hun : ∀ action, (∀ e ∈ tbl, e.1 ≠ action) → check action = false) (action : String) :
    check action = true ↔ ∃ p, (action, p) ∈ tbl ∧ u.HasPermission p = true := by
  constructor
  · intro h
    by_cases hex : ∃ e ∈ tbl, e.1 = action
    · obtain ⟨⟨a, p⟩, he, rfl⟩ := hex
      exact ⟨p, he, by rw [← hentry _ he]; exact h⟩
    · have hfalse := hun action (fun e he heq => hex ⟨e, he, heq⟩)
      rw [hfalse] at h
      exact absurd h (by simp)
  · rintro ⟨p, hmem, hp⟩
    rw [hentry _ hmem]
    exact hp

/-- C10: for a user holding no super-permission, `UserPolicy.Check` and
`PermissionPolicy.Check` return true exactly when the action is one of the
mapped actions and the user's effective permissions contain the permission the
action maps to; each mapped action has one permission; an action outside the
mapped set is denied whatever else the user holds. -/
theorem C10_policy_check_iff_mapped_permission (u : User) (resource action : String) :
    (u.HasAnyPermission ["full", "users:full"] = false →
      ((UserPolicy.Check u resource action = true ↔
          ∃ p, (action, p) ∈ userActionPermissions ∧ u.HasPermission p = true) ∧
       ((∀ e ∈ userActionPermissions, e.1 ≠ action) → UserPolicy.Check u resource action = false))) ∧
    (u.HasAnyPermission ["full", "permissions:full"] = false →
      ((PermissionPolicy.Check u resource action = true ↔
          ∃ p, (action, p) ∈ permissionActionPermissions ∧ u.HasPermission p = true) ∧
       ((∀ e ∈ permissionActionPermissions, e.1 ≠ action) →
          PermissionPolicy.Check u resource action = false))) ∧
    (userActionPermissions.map Prod.fst).Nodup ∧
    (permissionActionPermissions.map Prod.fst).Nodup := by
  refine ⟨fun hany => ⟨?_, ?_⟩, fun hany => ⟨?_, ?_⟩, by decide, by decide⟩
  · exact check_iff_of_table u (UserPolicy.Check u resource) userActionPermissions
      (UserPolicy_Check_entry u resource hany)
      (fun a ha => UserPolicy_Check_unmapped u resource a hany ha) action
  · exact UserPolicy_Check_unmapped u resource action hany
  · exact check_iff_of_table u (PermissionPolicy.Check u resource) permissionActionPermissions
      (PermissionPolicy_Check_entry u resource hany)
      (fun a ha => PermissionPolicy_Check_unmapped u resource a hany ha) action
  · exact PermissionPolicy_Check_unmapped u resource action hany

/-- Witness for C10: a user with the single direct permission `"users:view"`
holds no super-permission, is allowed `"view"` and denied `"delete"` and the
unmapped action `"export"` by the user policy. -/
theorem C10_policy_check_iff_mapped_permission_witness :
    let u : User :=
      { ID := "11111111-1111-1111-1111-111111111111", Email := "a@x.com", Password := "",
        FirstName := "", LastName := "", MiddleName := "", Phone := "", Position := "",
        Active := true, DataRole := "", EmailVerified := false, LastLogin := none,
        CreatedAt := 0, UpdatedAt := 0, DeletedAt := none, Roles := [],
        Permissions := [{ ID := 2, Name := "users:view", Description := "" }] }
    u.HasAnyPermission ["full", "users:full"] = false ∧
    UserPolicy.Check u ResourceName "view" = true ∧
    UserPolicy.Check u ResourceName "export" = false :=
  ⟨by decide,
   ((C10_policy_check_iff_mapped_permission _ ResourceName "view").1 (by decide)).1.mpr
     ⟨"users:view", by decide, by decide⟩,
   ((C10_policy_check_iff_mapped_permission _ ResourceName "export").1 (by decide)).2
     (by decide)⟩

/-! ### Session cap -/

theorem activeCount_eq_countP (s : Store) (u : UUID) (t : Time) :
    activeCount s u t = s.countP (sqlActiveOf u t) := by
  simp [activeCount, List.countP_eq_length_filter]

theorem sqlActiveOf_mono (u : UUID) (now t : Time) (h : now ≤ t) (rt : RefreshToken)
    (ha : sqlActiveOf u t rt = true) : sqlActiveOf u now rt = true := by
  simp only [sqlActiveOf, sqlActive, Bool.and_eq_true, decide_eq_true_eq, Bool.not_eq_true',
    gt_iff_lt] at ha ⊢
  exact ⟨ha.1, ha.2.1, lt_of_le_of_lt h ha.2.2⟩

theorem activeCount_mono_time (s : Store) (u : UUID) (now t : Time) (h : now ≤ t) :
    activeCount s u t ≤ activeCount s u now := by
  rw [activeCount_eq_countP, activeCount_eq_countP]
  exact List.countP_mono_left (fun rt _ ha => sqlActiveOf_mono u now t h rt ha)

theorem activeCount_map_le (s : Store) (u : UUID) (t : Time) (f : RefreshToken → RefreshToken)
    (hf : ∀ r, sqlActiveOf u t (f r) = true → sqlActiveOf u t r = true) :
    activeCount (s.map f) u t ≤ activeCount s u t := by
  rw [activeCount_eq_countP, activeCount_eq_countP, List.countP_map]
  exact List.countP_mono_left (fun rt _ ha => hf rt ha)

theorem activeCount_append (s s2 : Store) (u : UUID) (t : Time) :
    activeCount (s ++ s2) u t = activeCount s u t + activeCount s2 u t := by
  simp [activeCount]

theorem Update_eq (s : Store) (tok : RefreshToken) :
    (refreshTokenRepository.Update s tok false).2 = s.map (fun rt =>
      if rt.ID = tok.ID then
        { rt with Revoked := tok.Revoked, RevokedAt := tok.RevokedAt,
                  RevokedByIP := tok.RevokedByIP, ReplacedByToken := tok.ReplacedByToken }
      else rt) := by
  simp [refreshTokenRepository.Update]

theorem activeCount_Update_le (s : Store) (tok : RefreshToken) (dbErr : Bool) (u : UUID) (t : Time)
    (hrev : tok.Revoked = true) :
    activeCount (refreshTokenRepository.Update s tok dbErr).2 u t ≤ activeCount s u t := by
  cases dbErr
  · rw [Update_eq]
    apply activeCount_map_le
    intro r
    by_cases hid : r.ID = tok.ID
    · simp [hid, hrev, sqlActiveOf, sqlActive]
    · simp [hid]
  · simp [refreshTokenRepository.Update]

theorem RevokeOldest_store (s : Store) (v : UUID) (limit : Int) (ip : String) (now : Time)
    (e1 e2 : Bool) :
    (refreshTokenRepository.RevokeOldestIfLimitExceeded s v limit ip now e1 e2).2 = s ∨
    (v ≠ uuidNil ∧ e1 = false ∧ e2 = false ∧ ¬ ((activeCount s v now : Int) ≤ limit) ∧
      (refreshTokenRepository.RevokeOldestIfLimitExceeded s v limit ip now e1 e2).2 =
        s.map (fun rt =>
          if rt.ID ∈ refreshTokenRepository.oldestActiveIDs s v now ((activeCount s v now : Int) - limit) then
            { rt with Revoked := true, RevokedAt := some now, RevokedByIP := ip }
          else rt)) := by
  by_cases h1 : v = uuidNil
  · left; simp [refreshTokenRepository.RevokeOldestIfLimitExceeded, h1]
  · cases e1
    · by_cases h2 : (activeCount s v now : Int) ≤ limit
      · left
        simp only [activeCount] at h2
        simp [refreshTokenRepository.RevokeOldestIfLimitExceeded,
          refreshTokenRepository.CountActiveByUserID, h1, h2]
      · cases e2
        · right
          refine ⟨h1, rfl, rfl, h2, ?_⟩
          simp only [activeCount] at h2 ⊢
          simp [refreshTokenRepository.RevokeOldestIfLimitExceeded,
            refreshTokenRepository.CountActiveByUserID, h1, h2]
        · left
          simp only [activeCount] at h2
          simp [refreshTokenRepository.RevokeOldestIfLimitExceeded,
            refreshTokenRepository.CountActiveByUserID, h1, h2]
    · left
      simp [refreshTokenRepository.RevokeOldestIfLimitExceeded,
        refreshTokenRepository.CountActiveByUserID, h1]

theorem activeCount_RevokeOldest_le_self (s : Store) (v : UUID) (limit : Int) (ip : String)
    (now : Time) (e1 e2 : Bool) (u : UUID) (t : Time) :
    activeCount (refreshTokenRepository.RevokeOldestIfLimitExceeded s v limit ip now e1 e2).2 u t
      ≤ activeCount s u t := by
  rcases RevokeOldest_store s v limit ip now e1 e2 with h | ⟨_, _, _, _, h⟩
  · rw [h]
  · rw [h]
    apply activeCount_map_le
    intro r
    split_ifs
    · simp [sqlActiveOf, sqlActive]
    · exact id

theorem RevokeOldest_ok (s : Store) (v : UUID) (limit : Int) (ip : String) (now : Time)
    (hv : v ≠ uuidNil) :
    (refreshTokenRepository.RevokeOldestIfLimitExceeded s v limit ip now false false).2 =
      if (activeCount s v now : Int) ≤ limit then s
      else s.map (fun rt =>
          if rt.ID ∈ refreshTokenRepository.oldestActiveIDs s v now ((activeCount s v now : Int) - limit) then
            { rt with Revoked := true, RevokedAt := some now, RevokedByIP := ip }
          else rt) := by
  by_cases h2 : (activeCount s v now : Int) ≤ limit
  · rw [if_pos h2]
    simp only [activeCount] at h2
    simp [refreshTokenRepository.RevokeOldestIfLimitExceeded,
      refreshTokenRepository.CountActiveByUserID, hv, h2]
  · rw [if_neg h2]
    simp only [activeCount] at h2 ⊢
    simp [refreshTokenRepository.RevokeOldestIfLimitExceeded,
      refreshTokenRepository.CountActiveByUserID, hv, h2]

theorem countP_ge_take_of_forall {α : Type} (p : α → Bool) (l : List α) (k : Nat)
    (h : ∀ x ∈ l.take k, p x = true) : (l.take k).length ≤ l.countP p := by
  have hsplit : l.countP p = (l.take k).countP p + (l.drop k).countP p := by
    rw [← List.countP_append, List.take_append_drop]
  have htake : (l.take k).countP p = (l.take k).length := List.countP_eq_length.mpr h
  omega

theorem countP_oldest_ge (A : List RefreshToken) (k : Nat) (hk : k ≤ A.length) :
    k ≤ A.countP (fun rt => decide (rt.ID ∈
      ((A.insertionSort (fun a b => a.CreatedAt ≤ b.CreatedAt)).take k).map (fun rt => rt.ID))) := by
  have hperm := List.perm_insertionSort (fun a b : RefreshToken => a.CreatedAt ≤ b.CreatedAt) A
  rw [← hperm.countP_eq]
  have hlen : ((A.insertionSort (fun a b => a.CreatedAt ≤ b.CreatedAt)).take k).length = k := by
    rw [List.length_take, hperm.length_eq]; omega
  calc k = ((A.insertionSort (fun a b => a.CreatedAt ≤ b.CreatedAt)).take k).length := hlen.symm
    _ ≤ _ := countP_ge_take_of_forall _ _ k (fun x hx => by
        simp only [decide_eq_true_eq]
        exact List.mem_map_of_mem _ hx)

theorem countP_add_countP_not {α : Type} (p : α → Bool) (l : List α) :
    l.countP p + l.countP (fun a => !p a) = l.length := by
  induction l with
  | nil => rfl
  | cons a l ih =>
    by_cases h : p a = true
    · simp [List.countP_cons, h]; omega
    · simp [List.countP_cons, h]; omega

theorem countP_oldestActiveIDs_ge (s : Store) (u : UUID) (now : Time) (n : Int)
    (hn : n.toNat ≤ activeCount s u now) :
    n.toNat ≤ (s.filter (sqlActiveOf u now)).countP
      (fun rt => decide (rt.ID ∈ refreshTokenRepository.oldestActiveIDs s u now n)) :=
  countP_oldest_ge (s.filter (sqlActiveOf u now)) n.toNat hn

theorem activeCount_RevokeOldest_le_limit (s : Store) (u : UUID) (limit : Int) (ip : String)
    (now : Time) (hu : u ≠ uuidNil) (hl : 0 ≤ limit) :
    (activeCount (refreshTokenRepository.RevokeOldestIfLimitExceeded s u limit ip now false false).2
      u now : Int) ≤ limit := by
  rw [RevokeOldest_ok s u limit ip now hu]
  split_ifs with hc
  · exact hc
  · rw [activeCount_eq_countP, List.countP_map]
    generalize hn : (activeCount s u now : Int) - limit = n at *
    have hk : n.toNat ≤ activeCount s u now := by omega
    have hge := countP_oldestActiveIDs_ge s u now n hk
    have hsum := countP_add_countP_not
      (fun rt : RefreshToken => decide (rt.ID ∈ refreshTokenRepository.oldestActiveIDs s u now n))
      (s.filter (sqlActiveOf u now))
    have hrest : s.countP ((sqlActiveOf u now) ∘ (fun rt =>
          if rt.ID ∈ refreshTokenRepository.oldestActiveIDs s u now n then
            { rt with Revoked := true, RevokedAt := some now, RevokedByIP := ip }
          else rt)) =
        (s.filter (sqlActiveOf u now)).countP (fun rt => !(decide (rt.ID ∈
          refreshTokenRepository.oldestActiveIDs s u now n))) := by
      rw [List.countP_filter]
      apply List.countP_congr
      intro r _
      by_cases hr : r.ID ∈ refreshTokenRepository.oldestActiveIDs s u now n
      · simp [hr, sqlActiveOf, sqlActive]
      · simp [hr]
    rw [hrest]
    have hlen : (s.filter (sqlActiveOf u now)).length = activeCount s u now := rfl
    omega

theorem GetByDeviceIdentifier_ok_ne_nil (s : Store) (u : UUID) (d : String) (now : Time) (e : Bool)
    (x : Option RefreshToken)
    (h : refreshTokenRepository.GetByDeviceIdentifier s u d now e = .ok x) : u ≠ uuidNil := by
  intro hu
  simp [refreshTokenRepository.GetByDeviceIdentifier, hu] at h

theorem activeCount_singleton_le (r : RefreshToken) (u : UUID) (t : Time) :
    activeCount [r] u t ≤ 1 := by
  simp only [activeCount]
  exact (List.length_filter_le _ _)

theorem Create_ok (s : Store) (tok : RefreshToken) (freshID : UUID) :
    (refreshTokenRepository.Create s tok freshID false).2 =
      s ++ [{ ID := if tok.ID = uuidNil then freshID else tok.ID, UserID := tok.UserID,
              Token := tok.Token, ExpiresAt := tok.ExpiresAt, Revoked := false,
              CreatedAt := tok.CreatedAt, CreatedByIP := tok.CreatedByIP, RevokedAt := none,
              RevokedByIP := "", ReplacedByToken := "",
              DeviceIdentifier := tok.DeviceIdentifier }] := by
  simp [refreshTokenRepository.Create]

theorem Create_store (s : Store) (tok : RefreshToken) (freshID : UUID) (e : Bool) :
    (refreshTokenRepository.Create s tok freshID e).2 = s ∨
    ∃ row, row.UserID = tok.UserID ∧ row.Revoked = false ∧ row.Token = tok.Token ∧
      (refreshTokenRepository.Create s tok freshID e).2 = s ++ [row] := by
  cases e
  · right
    exact ⟨{ ID := if tok.ID = uuidNil then freshID else tok.ID, UserID := tok.UserID,
             Token := tok.Token, ExpiresAt := tok.ExpiresAt, Revoked := false,
             CreatedAt := tok.CreatedAt, CreatedByIP := tok.CreatedByIP, RevokedAt := none,
             RevokedByIP := "", ReplacedByToken := "",
             DeviceIdentifier := tok.DeviceIdentifier }, rfl, rfl, rfl, Create_ok s tok freshID⟩
  · left; simp [refreshTokenRepository.Create]

theorem activeCount_Create_le (s : Store) (tok : RefreshToken) (freshID : UUID) (e : Bool)
    (u : UUID) (t : Time) :
    activeCount (refreshTokenRepository.Create s tok freshID e).2 u t ≤
      activeCount s u t + (if tok.UserID = u then 1 else 0) := by
  rcases Create_store s tok freshID e with h | ⟨row, hu, _, _, h⟩
  · rw [h]; omega
  · rw [h, activeCount_append]
    by_cases hv : tok.UserID = u
    · rw [if_pos hv]
      have := activeCount_singleton_le row u t
      omega
    · rw [if_neg hv]
      have : activeCount [row] u t = 0 := by
        simp [activeCount, sqlActiveOf, hu, hv]
      omega

/-- The store after the first two steps of `saveRefreshToken`. -/
theorem saveRefreshToken_cases (s : Store) (ctx : Context) (v : UUID) (tok : String) (exp : Time)
    (ip : String) (now : Time) (fr : Fresh) (f : Faults) :
    (saveRefreshToken s ctx v tok exp ip now fr f).2 = s ∨
    ∃ s1 newTok, activeCount s1 v now ≤ activeCount s v now ∧
      (∀ u t, activeCount s1 u t ≤ activeCount s u t) ∧ v ≠ uuidNil ∧ newTok.UserID = v ∧
      (saveRefreshToken s ctx v tok exp ip now fr f).2 =
        (refreshTokenRepository.Create
          (refreshTokenRepository.RevokeOldestIfLimitExceeded s1 v (maxTokensPerUser - 1) ip now
            f.countActive f.revokeOldest).2 newTok fr.tokenID f.create).2 := by
  cases hg : refreshTokenRepository.GetByDeviceIdentifier s v (getDeviceIdentifier ctx fr.deviceID)
      now f.getByDevice with
  | error e => left; simp only [saveRefreshToken, hg]
  | ok existing =>
    right
    have hv := GetByDeviceIdentifier_ok_ne_nil _ _ _ _ _ _ hg
    cases existing with
    | none =>
      refine ⟨s, { ID := fr.tokenID, UserID := v, Token := tok, ExpiresAt := exp,
                   Revoked := false, CreatedAt := now, CreatedByIP := ip, RevokedAt := none,
                   RevokedByIP := "", ReplacedByToken := "",
                   DeviceIdentifier := getDeviceIdentifier ctx fr.deviceID },
        le_refl _, fun _ _ => le_refl _, hv, rfl, ?_⟩
      simp only [saveRefreshToken, hg]
    | some ex =>
      refine ⟨(refreshTokenRepository.Update s (ex.Revoke ip tok now) f.updateDevice).2,
        { ID := fr.tokenID, UserID := v, Token := tok, ExpiresAt := exp,
          Revoked := false, CreatedAt := now, CreatedByIP := ip, RevokedAt := none,
          RevokedByIP := "", ReplacedByToken := "",
          DeviceIdentifier := getDeviceIdentifier ctx fr.deviceID },
        activeCount_Update_le s _ _ v now rfl,
        fun u t => activeCount_Update_le s _ _ u t rfl, hv, rfl, ?_⟩
      simp only [saveRefreshToken, hg]

theorem activeCount_saveRefreshToken_le (s : Store) (ctx : Context) (v : UUID) (tok : String)
    (exp : Time) (ip : String) (now : Time) (fr : Fresh) (f : Faults) (u : UUID) (t : Time) :
    activeCount (saveRefreshToken s ctx v tok exp ip now fr f).2 u t ≤
      activeCount s u t + (if v = u then 1 else 0) := by
  rcases saveRefreshToken_cases s ctx v tok exp ip now fr f with h | ⟨s1, newTok, _, h1, _, hu, h⟩
  · rw [h]; omega
  · rw [h]
    have hc := activeCount_Create_le
      (refreshTokenRepository.RevokeOldestIfLimitExceeded s1 v (maxTokensPerUser - 1) ip now
        f.countActive f.revokeOldest).2 newTok fr.tokenID f.create u t
    have hr := activeCount_RevokeOldest_le_self s1 v (maxTokensPerUser - 1) ip now
      f.countActive f.revokeOldest u t
    have := h1 u t
    rw [hu] at hc
    omega

theorem activeCount_saveRefreshToken_cap (s : Store) (ctx : Context) (u : UUID) (tok : String)
    (exp : Time) (ip : String) (now : Time) (fr : Fresh) :
    (saveRefreshToken s ctx u tok exp ip now fr noFaults).2 = s ∨
    activeCount (saveRefreshToken s ctx u tok exp ip now fr noFaults).2 u now ≤ 3 := by
  rcases saveRefreshToken_cases s ctx u tok exp ip now fr noFaults with h | ⟨s1, newTok, _, _, hv, hu, h⟩
  · exact Or.inl h
  · right
    rw [h]
    have hc := activeCount_Create_le
      (refreshTokenRepository.RevokeOldestIfLimitExceeded s1 u (maxTokensPerUser - 1) ip now
        noFaults.countActive noFaults.revokeOldest).2 newTok fr.tokenID noFaults.create u now
    have hr := activeCount_RevokeOldest_le_limit s1 u (maxTokensPerUser - 1) ip now hv
      (by decide)
    rw [hu, if_pos rfl] at hc
    have h2 : maxTokensPerUser - 1 = 2 := by decide
    rw [h2] at hr hc ⊢
    simp only [noFaults] at hc hr ⊢
    omega


theorem activeCount_saveRefreshToken_step (s : Store) (ctx : Context) (u v : UUID) (tok : String)
    (exp : Time) (ip : String) (t0 now t : Time) (fr : Fresh)
    (h0 : activeCount s u t0 ≤ 3) (h1 : t0 ≤ now) (h2 : now ≤ t) :
    activeCount (saveRefreshToken s ctx v tok exp ip now fr noFaults).2 u t ≤ 3 := by
  have hold : activeCount s u t ≤ 3 :=
    le_trans (activeCount_mono_time s u t0 t (le_trans h1 h2)) h0
  by_cases hv : v = u
  · subst hv
    rcases activeCount_saveRefreshToken_cap s ctx v tok exp ip now fr with h | h
    · rw [h]; exact hold
    · exact le_trans (activeCount_mono_time _ v now t h2) h
  · have := activeCount_saveRefreshToken_le s ctx v tok exp ip now fr noFaults u t
    rw [if_neg hv] at this
    omega

theorem runAdmissions_cap (u : UUID) :
    ∀ (as : List Admission) (s : Store) (t0 t : Time), activeCount s u t0 ≤ 3 →
      List.Pairwise (fun a b => a ≤ b) (t0 :: as.map (fun a => a.now)) →
      (∀ a ∈ as, a.now ≤ t) → t0 ≤ t → activeCount (runAdmissions s as) u t ≤ 3 := by
  intro as
  induction as with
  | nil =>
    intro s t0 t h0 _ _ ht
    exact le_trans (activeCount_mono_time s u t0 t ht) h0
  | cons a rest ih =>
    intro s t0 t h0 hp hall ht
    simp only [List.map_cons, List.pairwise_cons, List.mem_cons, forall_eq_or_imp] at hp
    obtain ⟨⟨h0a, _⟩, hrest, hpr⟩ := hp
    have hstep : activeCount (runAdmission s a) u a.now ≤ 3 :=
      activeCount_saveRefreshToken_step s a.ctx u a.userID a.tokenString a.expiresAt a.ipAddress
        t0 a.now a.now a.fresh h0 h0a (le_refl _)
    have hat : a.now ≤ t := hall a (List.mem_cons_self _ _)
    have := ih (runAdmission s a) a.now t hstep
      (List.pairwise_cons.mpr ⟨hrest, hpr⟩)
      (fun b hb => hall b (List.mem_cons_of_mem _ hb)) hat
    simpa [runAdmissions] using this

theorem filter_eq_nil_of_other_user (s0 : Store) (u : UUID) (now : Time) (q : RefreshToken → Bool)
    (hs0 : ∀ r ∈ s0, r.UserID ≠ u) :
    s0.filter (fun rt => sqlActiveOf u now rt && q rt) = [] := by
  rw [List.filter_eq_nil_iff]
  intro r hr
  simp [sqlActiveOf, hs0 r hr]

theorem filter_active_eq_nil_of_other_user (s0 : Store) (u : UUID) (now : Time)
    (hs0 : ∀ r ∈ s0, r.UserID ≠ u) :
    s0.filter (sqlActiveOf u now) = [] := by
  rw [List.filter_eq_nil_iff]
  intro r hr
  simp [sqlActiveOf, hs0 r hr]

/-- Admission when the device has no active session and the user is under the cap. -/
theorem runAdmission_append (s : Store) (a : Admission)
    (hu : a.userID ≠ uuidNil) (hd : getDeviceIdentifier a.ctx a.fresh.deviceID ≠ "")
    (hdev : s.filter (fun rt => sqlActiveOf a.userID a.now rt &&
        decide (rt.DeviceIdentifier = getDeviceIdentifier a.ctx a.fresh.deviceID)) = [])
    (hcnt : activeCount s a.userID a.now ≤ 2) :
    runAdmission s a = s ++ [sessionRow a] := by
  have hc : (activeCount s a.userID a.now : Int) ≤ maxTokensPerUser - 1 := by
    have : maxTokensPerUser - 1 = 2 := by decide
    rw [this]; exact_mod_cast hcnt
  simp only [runAdmission, saveRefreshToken, refreshTokenRepository.GetByDeviceIdentifier, hu, hd, hdev,
    noFaults, if_false, Bool.false_eq_true, List.insertionSort, List.head?_nil]
  rw [RevokeOldest_ok _ _ _ _ _ hu, if_pos hc, Create_ok]
  simp [sessionRow]

/-- Admission when the device has no active session and the user is over the cap. -/
theorem runAdmission_revoke (s : Store) (a : Admission)
    (hu : a.userID ≠ uuidNil) (hd : getDeviceIdentifier a.ctx a.fresh.deviceID ≠ "")
    (hdev : s.filter (fun rt => sqlActiveOf a.userID a.now rt &&
        decide (rt.DeviceIdentifier = getDeviceIdentifier a.ctx a.fresh.deviceID)) = [])
    (hcnt : 2 < activeCount s a.userID a.now) :
    runAdmission s a = s.map (fun rt =>
        if rt.ID ∈ refreshTokenRepository.oldestActiveIDs s a.userID a.now
            ((activeCount s a.userID a.now : Int) - 2) then
          { rt with Revoked := true, RevokedAt := some a.now, RevokedByIP := a.ipAddress }
        else rt) ++ [sessionRow a] := by
  have h2 : maxTokensPerUser - 1 = 2 := by decide
  have hc : ¬ (activeCount s a.userID a.now : Int) ≤ maxTokensPerUser - 1 := by
    rw [h2]; omega
  simp only [runAdmission, saveRefreshToken, refreshTokenRepository.GetByDeviceIdentifier, hu, hd, hdev,
    noFaults, if_false, Bool.false_eq_true, List.insertionSort, List.head?_nil]
  rw [RevokeOldest_ok _ _ _ _ _ hu, if_neg hc, Create_ok, h2]
  simp [sessionRow]


theorem four_admissions (s0 : Store) (u : UUID) (a1 a2 a3 a4 : Admission)
    (hu : u ≠ uuidNil)
    (hu1 : a1.userID = u) (hu2 : a2.userID = u) (hu3 : a3.userID = u) (hu4 : a4.userID = u)
    (hs0 : ∀ r ∈ s0, r.UserID ≠ u) (hid0 : ∀ r ∈ s0, r.ID ≠ a1.fresh.tokenID)
    (hid2 : a2.fresh.tokenID ≠ a1.fresh.tokenID) (hid3 : a3.fresh.tokenID ≠ a1.fresh.tokenID)
    (hd : ((sessionRow a1).DeviceIdentifier ::
            (sessionRow a2).DeviceIdentifier :: (sessionRow a3).DeviceIdentifier ::
            (sessionRow a4).DeviceIdentifier :: [""]).Nodup)
    (ht12 : a1.now < a2.now) (ht23 : a2.now < a3.now)
    (he1 : a4.now < a1.expiresAt) (he2 : a4.now < a2.expiresAt) (he3 : a4.now < a3.expiresAt) :
    runAdmissions s0 [a1, a2, a3, a4] =
      s0 ++ [{ sessionRow a1 with Revoked := true, RevokedAt := some a4.now,
                                   RevokedByIP := a4.ipAddress },
             sessionRow a2, sessionRow a3, sessionRow a4] := by
  simp only [List.nodup_cons, List.mem_cons, List.mem_singleton, not_or, List.not_mem_nil,
    not_false_eq_true, List.nodup_nil, and_true, sessionRow] at hd
  obtain ⟨⟨hd12, hd13, hd14, hd1⟩, ⟨hd23, hd24, hd2⟩, ⟨hd34, hd3⟩, hd4⟩ := hd
  have hf := fun now => filter_active_eq_nil_of_other_user s0 u now hs0
  have hfq := fun now q => filter_eq_nil_of_other_user s0 u now q hs0
  -- first admission
  have h1 : runAdmission s0 a1 = s0 ++ [sessionRow a1] := by
    apply runAdmission_append s0 a1 (hu1 ▸ hu) hd1
    · rw [hu1]; exact hfq _ _
    · rw [hu1]; simp [activeCount, hf]
  -- second admission
  have h2 : runAdmission (s0 ++ [sessionRow a1]) a2 = s0 ++ [sessionRow a1, sessionRow a2] := by
    rw [runAdmission_append _ a2 (hu2 ▸ hu) hd2]
    · simp
    · rw [hu2, List.filter_append, hfq]
      simp [sessionRow, hd12]
    · rw [hu2]; simp only [activeCount, List.filter_append, hf]
      exact le_trans (List.length_filter_le _ _) (by simp)
  -- third admission
  have h3 : runAdmission (s0 ++ [sessionRow a1, sessionRow a2]) a3 =
      s0 ++ [sessionRow a1, sessionRow a2, sessionRow a3] := by
    rw [runAdmission_append _ a3 (hu3 ▸ hu) hd3]
    · simp
    · rw [hu3, List.filter_append, hfq]
      simp [sessionRow, hd13, hd23, List.filter_cons]
    · rw [hu3]; simp only [activeCount, List.filter_append, hf]
      exact le_trans (List.length_filter_le _ _) (by simp)
  -- fourth admission
  have hact : (s0 ++ [sessionRow a1, sessionRow a2, sessionRow a3]).filter (sqlActiveOf u a4.now) =
      [sessionRow a1, sessionRow a2, sessionRow a3] := by
    rw [List.filter_append, hf]
    simp [sessionRow, sqlActiveOf, sqlActive, hu1, hu2, hu3, he1, he2, he3, List.filter_cons]
  have h4 : runAdmission (s0 ++ [sessionRow a1, sessionRow a2, sessionRow a3]) a4 =
      s0 ++ [{ sessionRow a1 with Revoked := true, RevokedAt := some a4.now,
                                   RevokedByIP := a4.ipAddress },
             sessionRow a2, sessionRow a3, sessionRow a4] := by
    rw [runAdmission_revoke _ a4 (hu4 ▸ hu) hd4]
    · have hids : refreshTokenRepository.oldestActiveIDs
          (s0 ++ [sessionRow a1, sessionRow a2, sessionRow a3]) a4.userID a4.now
          ((activeCount (s0 ++ [sessionRow a1, sessionRow a2, sessionRow a3]) a4.userID a4.now : Int) - 2)
          = [a1.fresh.tokenID] := by
        rw [hu4]
        simp only [refreshTokenRepository.oldestActiveIDs, activeCount, hact]
        have l12 : a1.now ≤ a2.now := le_of_lt ht12
        have l23 : a2.now ≤ a3.now := le_of_lt ht23
        simp [List.insertionSort, List.orderedInsert, sessionRow, l12, l23]
      rw [hids]
      simp only [List.map_append, List.mem_singleton]
      have hs0map : s0.map (fun rt => if rt.ID = a1.fresh.tokenID then
          { rt with Revoked := true, RevokedAt := some a4.now, RevokedByIP := a4.ipAddress }
          else rt) = s0 := by
        conv_rhs => rw [← List.map_id s0]
        apply List.map_congr_left
        intro r hr
        simp [hid0 r hr]
      rw [hs0map]
      simp [sessionRow, hid2, hid3]
    · rw [hu4, List.filter_append, hfq]
      simp [sessionRow, hd14, hd24, hd34, List.filter_cons]
    · rw [hu4]; simp only [activeCount, hact]; simp
  simp only [runAdmissions, List.foldl_cons, List.foldl_nil, h1, h2, h3, h4]

/-- C3: in every sequence of sequential session admissions in which no store
call fails (clock values not decreasing), started in a state where the user has
at most 3 active sessions, the user has at most 3 active sessions after each
admission (after every prefix `as.take k` of the sequence, at every later clock
value); and after 4 admissions of one user from 4 distinct device identifiers,
created at increasing times and none expired, into a store without sessions of
that user, the earliest-created session is revoked and the three later ones
are the user's active sessions. -/
theorem C3_session_cap (u : UUID) (s : Store) :
    (∀ (as : List Admission) (k : Nat) (t0 t : Time),
        activeCount s u t0 ≤ 3 →
        List.Pairwise (fun a b => a ≤ b) (t0 :: as.map (fun a => a.now)) →
        (∀ a ∈ as.take k, a.now ≤ t) → t0 ≤ t →
        activeCount (runAdmissions s (as.take k)) u t ≤ 3) ∧
    (∀ a1 a2 a3 a4 : Admission,
        u ≠ uuidNil →
        a1.userID = u → a2.userID = u → a3.userID = u → a4.userID = u →
        (∀ r ∈ s, r.UserID ≠ u) → (∀ r ∈ s, r.ID ≠ a1.fresh.tokenID) →
        a2.fresh.tokenID ≠ a1.fresh.tokenID → a3.fresh.tokenID ≠ a1.fresh.tokenID →
        ((sessionRow a1).DeviceIdentifier :: (sessionRow a2).DeviceIdentifier ::
          (sessionRow a3).DeviceIdentifier :: (sessionRow a4).DeviceIdentifier :: [""]).Nodup →
        a1.now < a2.now → a2.now < a3.now → a3.now ≤ a4.now →
        a4.now < a1.expiresAt → a4.now < a2.expiresAt → a4.now < a3.expiresAt →
        a4.now < a4.expiresAt →
        runAdmissions s [a1, a2, a3, a4] =
          s ++ [{ sessionRow a1 with Revoked := true, RevokedAt := some a4.now,
                                      RevokedByIP := a4.ipAddress },
                sessionRow a2, sessionRow a3, sessionRow a4] ∧
        refreshTokenRepository.GetActiveByUserID (runAdmissions s [a1, a2, a3, a4]) u a4.now false =
          .ok [sessionRow a2, sessionRow a3, sessionRow a4]) := by
  constructor
  · intro as k t0 t h0 hp hall ht
    refine runAdmissions_cap u (as.take k) s t0 t h0 ?_ hall ht
    refine List.Pairwise.sublist ?_ hp
    rw [List.map_take]
    exact List.Sublist.cons₂ _ (List.take_sublist _ _)
  · intro a1 a2 a3 a4 hu hu1 hu2 hu3 hu4 hs0 hid0 hid2 hid3 hd ht12 ht23 _ he1 he2 he3 he4
    have heq := four_admissions s u a1 a2 a3 a4 hu hu1 hu2 hu3 hu4 hs0 hid0 hid2 hid3 hd
      ht12 ht23 he1 he2 he3
    refine ⟨heq, ?_⟩
    rw [heq]
    simp only [refreshTokenRepository.GetActiveByUserID, hu, if_false, Bool.false_eq_true,
      List.filter_append, filter_active_eq_nil_of_other_user s u a4.now hs0, List.nil_append]
    simp [sessionRow, sqlActiveOf, sqlActive, hu1, hu2, hu3, hu4, he2, he3, he4, List.filter_cons]

/-- Witness for C3: four admissions of one user from the devices `a`, `b`,
`c`, `d` at seconds 1 to 4 into the empty store leave the session of `a`
revoked and three active sessions. -/
theorem C3_session_cap_witness :
    runAdmissions [] [sampleAdmission 1 "a", sampleAdmission 2 "b", sampleAdmission 3 "c",
        sampleAdmission 4 "d"] =
      [{ sampleSession 1 "a" with Revoked := true, RevokedAt := some (4 * Second),
                                   RevokedByIP := "10.0.0.1:5000" },
       sampleSession 2 "b", sampleSession 3 "c", sampleSession 4 "d"] ∧
    activeCount (runAdmissions [] ([sampleAdmission 1 "a", sampleAdmission 2 "b", sampleAdmission 3 "c",
        sampleAdmission 4 "d"].take 4)) sampleUser.ID (4 * Second) ≤ 3 :=
  ⟨((C3_session_cap sampleUser.ID []).2 (sampleAdmission 1 "a") (sampleAdmission 2 "b")
      (sampleAdmission 3 "c") (sampleAdmission 4 "d") (by decide) rfl rfl rfl rfl
      (by simp) (by simp) (by decide) (by decide) (by decide) (by decide) (by decide)
      (by decide) (by decide) (by decide) (by decide) (by decide)).1,
   (C3_session_cap sampleUser.ID []).1 _ 4 0 (4 * Second) (by decide) (by decide)
      (by decide) (by decide)⟩

/-! ### Token rotation -/

theorem generateToken_ok (a : authService) (s : Store) (ctx : Context) (user : User) (ip : String)
    (now : Time) (fr : Fresh) (f : Faults) (resp : AuthResponse) (s1 : Store)
    (h : a.generateToken s ctx user ip now fr f = (.ok resp, s1)) :
    a.sign (.refresh user.ID "refresh" (Unix (now + a.cfg.RefreshTokenExpiryHours * Hour)))
        a.cfg.SecretKey = .ok resp.RefreshToken ∧
    saveRefreshToken s ctx user.ID resp.RefreshToken (now + a.cfg.RefreshTokenExpiryHours * Hour)
        ip now fr f = (.ok (), s1) := by
  unfold authService.generateToken at h
  simp only at h
  split at h
  · simp at h
  · split at h
    · simp at h
    · rename_i tokStr hsign
      split at h
      · simp at h
      · rename_i u1 s1' hsave
        simp only [Prod.mk.injEq, Except.ok.injEq] at h
        obtain ⟨hresp, hs⟩ := h
        subst hs
        subst hresp
        exact ⟨hsign, by rw [hsave]⟩

theorem RefreshToken_ok (a : authService) (s : Store) (ctx : Context) (tok : String) (now : Time)
    (fr : Fresh) (f : Faults) (resp : AuthResponse) (s2 : Store)
    (h : a.RefreshToken s ctx tok now fr f = (.ok resp, s2)) :
    ∃ r user s1, refreshTokenRepository.GetByToken s tok f.getByToken = .ok (some r) ∧
      r.IsActive now = true ∧ a.users.GetByID r.UserID = .ok (some user) ∧
      a.generateToken s ctx user (getClientIP ctx) now fr f = (.ok resp, s1) ∧
      s2 = (refreshTokenRepository.Update s1 (r.Revoke (getClientIP ctx) resp.RefreshToken now)
              f.updateRotated).2 := by
  unfold authService.RefreshToken at h
  split at h
  · simp at h
  · simp at h
  · rename_i r hget
    split_ifs at h with hact
    · simp at h
    · split at h
      · simp at h
      · simp at h
      · rename_i user huser
        simp only at h
        split at h
        · simp at h
        · rename_i resp1 s1 hgen
          simp only [Prod.mk.injEq, Except.ok.injEq] at h
          obtain ⟨hresp, hs⟩ := h
          subst hresp
          refine ⟨r, user, s1, hget, ?_, huser, hgen, hs.symm⟩
          simpa using hact


theorem map_keeps_id (s : Store) (f : RefreshToken → RefreshToken) (hf : ∀ x, (f x).ID = x.ID)
    (x : RefreshToken) (hx : x ∈ s) : ∃ y ∈ s.map f, y.ID = x.ID :=
  ⟨f x, List.mem_map_of_mem f hx, hf x⟩

theorem Update_keeps_id (s : Store) (tok : RefreshToken) (e : Bool) (x : RefreshToken)
    (hx : x ∈ s) : ∃ y ∈ (refreshTokenRepository.Update s tok e).2, y.ID = x.ID := by
  cases e
  · rw [Update_eq]
    apply map_keeps_id _ _ _ x hx
    intro r; split_ifs <;> rfl
  · exact ⟨x, by simpa [refreshTokenRepository.Update] using hx, rfl⟩

theorem RevokeOldest_keeps_id (s : Store) (v : UUID) (limit : Int) (ip : String) (now : Time)
    (e1 e2 : Bool) (x : RefreshToken) (hx : x ∈ s) :
    ∃ y ∈ (refreshTokenRepository.RevokeOldestIfLimitExceeded s v limit ip now e1 e2).2,
      y.ID = x.ID := by
  rcases RevokeOldest_store s v limit ip now e1 e2 with h | ⟨_, _, _, _, h⟩
  · rw [h]; exact ⟨x, hx, rfl⟩
  · rw [h]
    apply map_keeps_id _ _ _ x hx
    intro r; split_ifs <;> rfl

theorem Create_keeps_mem (s : Store) (tok : RefreshToken) (freshID : UUID) (e : Bool)
    (x : RefreshToken) (hx : x ∈ s) : x ∈ (refreshTokenRepository.Create s tok freshID e).2 := by
  rcases Create_store s tok freshID e with h | ⟨row, _, _, _, h⟩
  · rw [h]; exact hx
  · rw [h]; exact List.mem_append_left _ hx

theorem saveRefreshToken_keeps_id (s : Store) (ctx : Context) (v : UUID) (tok : String)
    (exp : Time) (ip : String) (now : Time) (fr : Fresh) (f : Faults) (x : RefreshToken)
    (hx : x ∈ s) : ∃ y ∈ (saveRefreshToken s ctx v tok exp ip now fr f).2, y.ID = x.ID := by
  unfold saveRefreshToken
  simp only
  split
  · exact ⟨x, hx, rfl⟩
  · rename_i existing _
    have h1 : ∃ y ∈ (match existing with
        | some ex => (refreshTokenRepository.Update s (ex.Revoke ip tok now) f.updateDevice).2
        | none => s), y.ID = x.ID := by
      cases existing with
      | none => exact ⟨x, hx, rfl⟩
      | some ex => exact Update_keeps_id s _ _ x hx
    obtain ⟨y, hy, hyid⟩ := h1
    obtain ⟨z, hz, hzid⟩ := RevokeOldest_keeps_id _ v (maxTokensPerUser - 1) ip now
      f.countActive f.revokeOldest y hy
    exact ⟨z, Create_keeps_mem _ _ _ _ z hz, hzid.trans hyid⟩

theorem GetByToken_mem (s : Store) (tok : String) (e : Bool) (r : RefreshToken)
    (h : refreshTokenRepository.GetByToken s tok e = .ok (some r)) : r ∈ s ∧ r.Token = tok := by
  unfold refreshTokenRepository.GetByToken at h
  split_ifs at h
  simp only [Except.ok.injEq] at h
  exact ⟨List.mem_of_find?_eq_some h, by simpa using List.find?_some h⟩

/-- C6: after a successful `RefreshToken` call in which no store call fails,
the stored record that was presented (the record with the presented record's
id) has `revoked = true`, `replaced_by_token` equal to the refresh token string
returned in the response, and `revoked_by_ip` equal to the caller's IP. -/
theorem C6_refresh_marks_presented_record_rotated (a : authService) (s : Store) (ctx : Context)
    (tok : String) (now : Time) (fr : Fresh) (resp : AuthResponse) (s2 : Store)
    (h : a.RefreshToken s ctx tok now fr noFaults = (.ok resp, s2)) :
    ∃ r, refreshTokenRepository.GetByToken s tok false = .ok (some r) ∧
      r.IsActive now = true ∧
      (∃ y ∈ s2, y.ID = r.ID) ∧
      ∀ y ∈ s2, y.ID = r.ID →
        y.Revoked = true ∧ y.ReplacedByToken = resp.RefreshToken ∧
        y.RevokedByIP = getClientIP ctx ∧ y.RevokedAt = some now := by
  obtain ⟨r, user, s1, hget, hact, _, hgen, hs2⟩ := RefreshToken_ok a s ctx tok now fr noFaults resp s2 h
  refine ⟨r, hget, hact, ?_, ?_⟩
  · obtain ⟨hr, _⟩ := GetByToken_mem s tok _ r hget
    obtain ⟨hsign, hsave⟩ := generateToken_ok a s ctx user _ now fr noFaults resp s1 hgen
    have hk := saveRefreshToken_keeps_id s ctx user.ID resp.RefreshToken
      (now + a.cfg.RefreshTokenExpiryHours * Hour) (getClientIP ctx) now fr noFaults r hr
    rw [hsave] at hk
    obtain ⟨y, hy, hyid⟩ := hk
    obtain ⟨z, hz, hzid⟩ := Update_keeps_id s1
      (r.Revoke (getClientIP ctx) resp.RefreshToken now) noFaults.updateRotated y hy
    rw [← hs2] at hz
    exact ⟨z, hz, hzid.trans hyid⟩
  · intro y hy hyid
    rw [hs2] at hy
    simp only [noFaults, Update_eq, List.mem_map] at hy
    obtain ⟨x, _, hxy⟩ := hy
    by_cases hx : x.ID = (r.Revoke (getClientIP ctx) resp.RefreshToken now).ID
    · rw [if_pos hx] at hxy
      subst hxy
      exact ⟨rfl, rfl, rfl, rfl⟩
    · rw [if_neg hx] at hxy
      subst hxy
      exact absurd hyid hx

/-- Witness for C6: refreshing the only session of the sample user. -/
theorem C6_refresh_marks_presented_record_rotated_witness :
    ∃ r, refreshTokenRepository.GetByToken [sampleSession 1 "a"] "token-a" false = .ok (some r) ∧
      r.IsActive (100 * Second) = true ∧
      (∃ y ∈ (sampleAuth.RefreshToken [sampleSession 1 "a"] sampleCtx "token-a" (100 * Second)
                { deviceID := "d-new", tokenID := "id-new" } noFaults).2, y.ID = r.ID) ∧
      ∀ y ∈ (sampleAuth.RefreshToken [sampleSession 1 "a"] sampleCtx "token-a" (100 * Second)
                { deviceID := "d-new", tokenID := "id-new" } noFaults).2, y.ID = r.ID →
        y.Revoked = true ∧
        y.ReplacedByToken = "refresh/k/11111111-1111-1111-1111-111111111111/86500" ∧
        y.RevokedByIP = getClientIP sampleCtx ∧ y.RevokedAt = some (100 * Second) :=
  C6_refresh_marks_presented_record_rotated sampleAuth [sampleSession 1 "a"] sampleCtx "token-a"
    (100 * Second) { deviceID := "d-new", tokenID := "id-new" }
    { Token := "access/k/11111111-1111-1111-1111-111111111111/3700000000000",
      RefreshToken := "refresh/k/11111111-1111-1111-1111-111111111111/86500",
      TokenType := "Bearer", ExpiresIn := 3600, AccessExpiresAt := 3700000000000 }
    (sampleAuth.RefreshToken [sampleSession 1 "a"] sampleCtx "token-a" (100 * Second)
      { deviceID := "d-new", tokenID := "id-new" } noFaults).2
    (by decide)

/-- C7 (counterexample): the sample user has three active sessions `a`, `b`,
`c`; a successful refresh with the token of `c` leaves two of them revoked,
the presented one and the oldest one `a`, which cap enforcement revoked. -/
theorem C7_refresh_revokes_oldest_too :
    let s : Store := [sampleSession 1 "a", sampleSession 2 "b", sampleSession 3 "c"]
    let call := sampleAuth.RefreshToken s sampleCtx "token-c" (100 * Second)
      { deviceID := "d-new", tokenID := "id-new" } noFaults
    (s.filter (sqlActive (100 * Second))).map (fun rt => rt.ID) = ["id-a", "id-b", "id-c"] ∧
    refreshTokenRepository.GetByToken s "token-c" false = .ok (some (sampleSession 3 "c")) ∧
    call.1.toBool = true ∧
    (call.2.filter (fun rt => rt.Revoked)).map (fun rt => rt.ID) = ["id-a", "id-c"] := by
  decide

theorem GetByDeviceIdentifier_none (s : Store) (u : UUID) (d : String) (now : Time)
    (h : refreshTokenRepository.GetByDeviceIdentifier s u d now false = .ok none) :
    u ≠ uuidNil ∧ d ≠ "" ∧
    s.filter (fun rt => sqlActiveOf u now rt && decide (rt.DeviceIdentifier = d)) = [] := by
  unfold refreshTokenRepository.GetByDeviceIdentifier at h
  split_ifs at h with h1 h2
  refine ⟨h1, h2, ?_⟩
  simp only [Except.ok.injEq, List.head?_eq_none_iff] at h
  have hlen := List.length_insertionSort (fun a b : RefreshToken => a.CreatedAt ≥ b.CreatedAt)
    (s.filter (fun rt => sqlActiveOf u now rt && decide (rt.DeviceIdentifier = d)))
  rw [h] at hlen
  exact List.length_eq_zero.mp hlen.symm

/-- C7 (amended): a successful `RefreshToken` call, made while the user has at
most 2 active sessions and none for the device identifier of the call, changes
only the records with the presented record's id, which it marks revoked and
replaced by the new token, and appends the new session: every other record
that was active before the call is unchanged and so still active. -/
theorem C7_refresh_revokes_only_presented (a : authService) (s : Store) (ctx : Context)
    (tok : String) (now : Time) (fr : Fresh) (resp : AuthResponse) (s2 : Store)
    (r : RefreshToken) (user : User)
    (hcall : a.RefreshToken s ctx tok now fr noFaults = (.ok resp, s2))
    (hget : refreshTokenRepository.GetByToken s tok false = .ok (some r))
    (huser : a.users.GetByID r.UserID = .ok (some user))
    (hcap : activeCount s user.ID now ≤ 2)
    (hdev : refreshTokenRepository.GetByDeviceIdentifier s user.ID
              (getDeviceIdentifier ctx fr.deviceID) now false = .ok none) :
    s2 = (s ++ [({ ID := fr.tokenID, UserID := user.ID, Token := resp.RefreshToken,
                   ExpiresAt := now + a.cfg.RefreshTokenExpiryHours * Hour, Revoked := false,
                   CreatedAt := now, CreatedByIP := getClientIP ctx, RevokedAt := none,
                   RevokedByIP := "", ReplacedByToken := "",
                   DeviceIdentifier := getDeviceIdentifier ctx fr.deviceID } : RefreshToken)]).map
            (fun rt => if rt.ID = r.ID then
                { rt with Revoked := true, RevokedAt := some now, RevokedByIP := getClientIP ctx,
                          ReplacedByToken := resp.RefreshToken }
              else rt) ∧
    (∀ x ∈ s, x.ID ≠ r.ID → x ∈ s2) ∧
    (∀ y ∈ s2, y.ID = r.ID → y.Revoked = true ∧ y.ReplacedByToken = resp.RefreshToken) := by
  obtain ⟨r', user', s1, hget', _, huser', hgen, hs2⟩ :=
    RefreshToken_ok a s ctx tok now fr noFaults resp s2 hcall
  have hr : r' = r := by
    have := hget'.symm.trans hget
    simpa [noFaults] using this
  subst hr
  have hus : user' = user := by
    have := huser'.symm.trans huser
    simpa using this
  subst hus
  obtain ⟨_, hsave⟩ := generateToken_ok a s ctx user' _ now fr noFaults resp s1 hgen
  obtain ⟨hu, hd, hfil⟩ := GetByDeviceIdentifier_none s user'.ID _ now hdev
  have hadm := runAdmission_append s
    { ctx := ctx, userID := user'.ID, tokenString := resp.RefreshToken,
      expiresAt := now + a.cfg.RefreshTokenExpiryHours * Hour, ipAddress := getClientIP ctx,
      now := now, fresh := fr } hu hd hfil hcap
  simp only [runAdmission, hsave, sessionRow] at hadm
  subst hadm
  have hstore : s2 = _ := hs2
  simp only [noFaults, Update_eq, RefreshToken.Revoke] at hstore
  refine ⟨hstore, ?_, ?_⟩
  · intro x hx hne
    rw [hstore, List.mem_map]
    exact ⟨x, List.mem_append_left _ hx, by rw [if_neg hne]⟩
  · intro y hy hyid
    rw [hstore, List.mem_map] at hy
    obtain ⟨x, _, hxy⟩ := hy
    by_cases hx : x.ID = r'.ID
    · rw [if_pos hx] at hxy; subst hxy; exact ⟨rfl, rfl⟩
    · rw [if_neg hx] at hxy; subst hxy; exact absurd hyid hx

/-- Witness for C7 (amended): the sample user has two active sessions `a` and
`b`; a refresh with the token of `b` leaves the record of `a` as it was. -/
theorem C7_refresh_revokes_only_presented_witness :
    activeCount [sampleSession 1 "a", sampleSession 2 "b"] sampleUser.ID (100 * Second) ≤ 2 ∧
    (∀ x ∈ [sampleSession 1 "a", sampleSession 2 "b"], x.ID ≠ (sampleSession 2 "b").ID →
      x ∈ (sampleAuth.RefreshToken [sampleSession 1 "a", sampleSession 2 "b"] sampleCtx "token-b"
            (100 * Second) { deviceID := "d-new", tokenID := "id-new" } noFaults).2) :=
  ⟨by decide,
   (C7_refresh_revokes_only_presented sampleAuth [sampleSession 1 "a", sampleSession 2 "b"]
      sampleCtx "token-b" (100 * Second) { deviceID := "d-new", tokenID := "id-new" }
      { Token := "access/k/11111111-1111-1111-1111-111111111111/3700000000000",
        RefreshToken := "refresh/k/11111111-1111-1111-1111-111111111111/86500",
        TokenType := "Bearer", ExpiresIn := 3600, AccessExpiresAt := 3700000000000 }
      (sampleAuth.RefreshToken [sampleSession 1 "a", sampleSession 2 "b"] sampleCtx "token-b"
        (100 * Second) { deviceID := "d-new", tokenID := "id-new" } noFaults).2
      (sampleSession 2 "b") sampleUser (by decide) (by decide) (by decide) (by decide)
      (by decide)).2.1⟩

/-! ### Refresh token strings -/

/-- The refresh token string is a function of the user and of the second in
which the refresh expiry falls: two issuances for the same user whose refresh
expiry falls in the same second sign the same string. -/
theorem same_second_same_refresh_token (a : authService) (s s1 s2 : Store)
    (ctx1 ctx2 : Context) (user : User) (ip1 ip2 : String) (now1 now2 : Time)
    (fr1 fr2 : Fresh) (f1 f2 : Faults) (resp1 resp2 : AuthResponse)
    (hsec : Unix (now1 + a.cfg.RefreshTokenExpiryHours * Hour) =
            Unix (now2 + a.cfg.RefreshTokenExpiryHours * Hour))
    (h1 : a.generateToken s ctx1 user ip1 now1 fr1 f1 = (.ok resp1, s1))
    (h2 : a.generateToken s1 ctx2 user ip2 now2 fr2 f2 = (.ok resp2, s2)) :
    resp1.RefreshToken = resp2.RefreshToken := by
  obtain ⟨hs1, _⟩ := generateToken_ok a s ctx1 user ip1 now1 fr1 f1 resp1 s1 h1
  obtain ⟨hs2, _⟩ := generateToken_ok a s1 ctx2 user ip2 now2 fr2 f2 resp2 s2 h2
  rw [hsec, hs2] at hs1
  simpa using hs1.symm

theorem Update_tokens (s : Store) (tok : RefreshToken) (e : Bool) :
    (refreshTokenRepository.Update s tok e).2.map (fun rt => rt.Token) =
      s.map (fun rt => rt.Token) := by
  cases e
  · simp only [refreshTokenRepository.Update, Bool.false_eq_true, if_false, List.map_map]
    apply List.map_congr_left
    intro r _
    by_cases h : r.ID = tok.ID <;> simp [h]
  · simp [refreshTokenRepository.Update]

theorem RevokeOldest_tokens (s : Store) (v : UUID) (limit : Int) (ip : String) (now : Time)
    (e1 e2 : Bool) :
    (refreshTokenRepository.RevokeOldestIfLimitExceeded s v limit ip now e1 e2).2.map
        (fun rt => rt.Token) = s.map (fun rt => rt.Token) := by
  rcases RevokeOldest_store s v limit ip now e1 e2 with h | ⟨_, _, _, _, h⟩
  · rw [h]
  · rw [h, List.map_map]
    apply List.map_congr_left
    intro r _
    simp only [Function.comp]
    split <;> rfl

theorem saveRefreshToken_tokens (s : Store) (ctx : Context) (v : UUID) (tok : String) (exp : Time)
    (ip : String) (now : Time) (fr : Fresh) (f : Faults) (s1 : Store)
    (h : saveRefreshToken s ctx v tok exp ip now fr f = (.ok (), s1)) :
    s1.map (fun rt => rt.Token) = s.map (fun rt => rt.Token) ++ [tok] := by
  unfold saveRefreshToken at h
  simp only at h
  split at h
  · simp at h
  · rename_i existingToken _
    cases hc : f.create with
    | true => simp [refreshTokenRepository.Create, hc] at h
    | false =>
      simp only [refreshTokenRepository.Create, hc, Bool.false_eq_true, if_false,
        Prod.mk.injEq, true_and] at h
      rw [← h]
      simp only [List.map_append, List.map_cons, List.map_nil, RevokeOldest_tokens]
      cases existingToken with
      | none => rfl
      | some existing => simp only [Update_tokens]

theorem generateToken_tokens (a : authService) (s : Store) (ctx : Context) (user : User)
    (ip : String) (now : Time) (fr : Fresh) (f : Faults) (resp : AuthResponse) (s1 : Store)
    (h : a.generateToken s ctx user ip now fr f = (.ok resp, s1)) :
    s1.map (fun rt => rt.Token) = s.map (fun rt => rt.Token) ++ [resp.RefreshToken] :=
  saveRefreshToken_tokens s ctx user.ID resp.RefreshToken _ ip now fr f s1
    (generateToken_ok a s ctx user ip now fr f resp s1 h).2

theorem issue_tokens (a : authService) (s : Store) (op : IssueOp) (resp : AuthResponse)
    (s1 : Store) (h : issue a s op = (.ok resp, s1)) :
    s1.map (fun rt => rt.Token) = s.map (fun rt => rt.Token) ++ [resp.RefreshToken] := by
  cases op with
  | register ctx req now fr f =>
    simp only [issue, authService.Register] at h
    split at h
    · simp at h
    · exact generateToken_tokens a s ctx _ _ now fr f resp s1 h
  | login ctx email password now fr f =>
    simp only [issue, authService.Login] at h
    split at h
    · simp at h
    · exact generateToken_tokens a s ctx _ _ now fr f resp s1 h
  | refresh ctx tok now fr f =>
    simp only [issue] at h
    obtain ⟨r, user, s0, _, _, _, hgen, hs1⟩ := RefreshToken_ok a s ctx tok now fr f resp s1 h
    rw [hs1, Update_tokens]
    exact generateToken_tokens a s ctx user _ now fr f resp s0 hgen

theorem issued_tokens_nodup (a : authService) :
    ∀ (ops : List IssueOp) (s : Store), uniqueTokens s →
      (∀ r ∈ issueAll a s ops, r.1.toOption.isSome = true) →
      (∀ r ∈ issueAll a s ops, uniqueTokens r.2) →
      (s.map (fun rt => rt.Token) ++ issuedRefreshTokens a s ops).Nodup := by
  intro ops
  induction ops with
  | nil =>
    intro s hs _ _
    simpa [issuedRefreshTokens, issueAll] using hs
  | cons op ops ih =>
    intro s _ hok huniq
    have hhead := hok (issue a s op) (by simp [issueAll])
    cases hres : issue a s op with
    | mk res s1 =>
      cases res with
      | error e => simp [hres, Except.toOption] at hhead
      | ok resp =>
        have hs1 : uniqueTokens s1 := by
          have := huniq (issue a s op) (by simp [issueAll])
          rw [hres] at this
          exact this
        have htok := issue_tokens a s op resp s1 hres
        have hrest := ih s1 hs1
          (fun r hr => hok r (by simp [issueAll, hres, hr]))
          (fun r hr => huniq r (by simp [issueAll, hres, hr]))
        have hissued : issuedRefreshTokens a s (op :: ops) =
            resp.RefreshToken :: issuedRefreshTokens a s1 ops := by
          simp [issuedRefreshTokens, issueAll, hres, Except.toOption]
        rw [hissued]
        rw [htok, List.append_assoc] at hrest
        exact hrest

theorem issued_tokens_length (a : authService) :
    ∀ (ops : List IssueOp) (s : Store),
      (∀ r ∈ issueAll a s ops, r.1.toOption.isSome = true) →
      (issuedRefreshTokens a s ops).length = ops.length := by
  intro ops
  induction ops with
  | nil =>
    intro s _
    rfl
  | cons op ops ih =>
    intro s hok
    have hhead := hok (issue a s op) (by simp [issueAll])
    cases hres : issue a s op with
    | mk res s1 =>
      cases res with
      | error e => simp [hres, Except.toOption] at hhead
      | ok resp =>
        have hissued : issuedRefreshTokens a s (op :: ops) =
            resp.RefreshToken :: issuedRefreshTokens a s1 ops := by
          simp [issuedRefreshTokens, issueAll, hres, Except.toOption]
        rw [hissued, List.length_cons, List.length_cons,
          ih s1 (fun r hr => hok r (by simp [issueAll, hres, hr]))]

/-- C8: the table `refresh_tokens` keeps its unique constraint on `token`.
For every sequence of successful token issuances (`Register`, `Login`,
`RefreshToken`, for any users, at any issuance times, equal times included)
that starts from a state of the table satisfying the constraint and reaches
only such states, each issued refresh token string differs from every refresh
token string issued earlier in the sequence, and from the token string of
every row stored before the sequence. -/
theorem C8_issued_refresh_tokens_distinct (a : authService) (s : Store) (ops : List IssueOp)
    (hs : uniqueTokens s)
    (hok : ∀ r ∈ issueAll a s ops, r.1.toOption.isSome = true)
    (huniq : ∀ r ∈ issueAll a s ops, uniqueTokens r.2) :
    (issuedRefreshTokens a s ops).length = ops.length ∧
    (issuedRefreshTokens a s ops).Pairwise (fun earlier later => later ≠ earlier) ∧
    (∀ tok ∈ issuedRefreshTokens a s ops, ∀ r ∈ s, r.Token ≠ tok) := by
  have hnodup := issued_tokens_nodup a ops s hs hok huniq
  rw [List.nodup_append] at hnodup
  obtain ⟨_, hissued, hdisj⟩ := hnodup
  refine ⟨issued_tokens_length a ops s hok, ?_, ?_⟩
  · exact hissued.imp (fun h => fun heq => h heq.symm)
  · intro tok htok r hr heq
    exact hdisj (List.mem_map_of_mem (fun rt => rt.Token) hr) (heq ▸ htok)

/-- Witness for C8: the sample user logs in at second 5 and at second 6 and
refreshes the first token at second 7; the three refresh token strings differ.
A second login within second 5 would sign the string of the first one, and
the table holding both rows would break the unique constraint. -/
theorem C8_issued_refresh_tokens_distinct_witness :
    issuedRefreshTokens sampleAuth []
        [.login sampleCtx "a@x.com" "secret" (5 * Second) { deviceID := "d1", tokenID := "i1" }
           noFaults,
         .login sampleCtx "a@x.com" "secret" (6 * Second) { deviceID := "d2", tokenID := "i2" }
           noFaults,
         .refresh sampleCtx "refresh/k/11111111-1111-1111-1111-111111111111/86405" (7 * Second)
           { deviceID := "d3", tokenID := "i3" } noFaults] =
      ["refresh/k/11111111-1111-1111-1111-111111111111/86405",
       "refresh/k/11111111-1111-1111-1111-111111111111/86406",
       "refresh/k/11111111-1111-1111-1111-111111111111/86407"] ∧
    (issuedRefreshTokens sampleAuth []
        [.login sampleCtx "a@x.com" "secret" (5 * Second) { deviceID := "d1", tokenID := "i1" }
           noFaults,
         .login sampleCtx "a@x.com" "secret" (6 * Second) { deviceID := "d2", tokenID := "i2" }
           noFaults,
         .refresh sampleCtx "refresh/k/11111111-1111-1111-1111-111111111111/86405" (7 * Second)
           { deviceID := "d3", tokenID := "i3" } noFaults]).Pairwise
      (fun earlier later => later ≠ earlier) ∧
    ¬ uniqueTokens (sampleAuth.Login
        (sampleAuth.Login [] sampleCtx "a@x.com" "secret" 5000000000
          { deviceID := "d1", tokenID := "i1" } noFaults).2
        sampleCtx "a@x.com" "secret" 5900000000 { deviceID := "d2", tokenID := "i2" }
        noFaults).2 :=
  ⟨by decide,
   (C8_issued_refresh_tokens_distinct sampleAuth []
      [.login sampleCtx "a@x.com" "secret" (5 * Second) { deviceID := "d1", tokenID := "i1" }
         noFaults,
       .login sampleCtx "a@x.com" "secret" (6 * Second) { deviceID := "d2", tokenID := "i2" }
         noFaults,
       .refresh sampleCtx "refresh/k/11111111-1111-1111-1111-111111111111/86405" (7 * Second)
         { deviceID := "d3", tokenID := "i3" } noFaults]
      (by decide) (by decide) (by decide)).2.1,
   by decide⟩

/-! ### Sessions per device -/

/-- C4 (evaluation): two successful logins of the sample user, one minute
apart, whose requests carry the same address and the same agent string and
reach the service through the handler's context. After the second login both
session records are active, the first is not revoked and names no successor,
and no record carries the identifier `"<address>-<agent>"`: each login drew a
fresh random device identifier. -/
theorem C4_same_device_logins_both_active :
    let r1 : Except Err AuthResponse × Store :=
      sampleAuth.Login [] sampleCtx "a@x.com" "secret" (5 * Second)
        { deviceID := "dev-1", tokenID := "id-1" } noFaults
    let r2 : Except Err AuthResponse × Store :=
      sampleAuth.Login r1.2 sampleCtx "a@x.com" "secret" (65 * Second)
        { deviceID := "dev-2", tokenID := "id-2" } noFaults
    r1.1.toBool = true ∧ r2.1.toBool = true ∧
    r2.2.map (fun rt => (rt.ID, rt.Revoked, rt.ReplacedByToken, rt.DeviceIdentifier)) =
      [("id-1", false, "", "dev-1"), ("id-2", false, "", "dev-2")] ∧
    activeCount r2.2 sampleUser.ID (65 * Second) = 2 ∧
    (r2.2.filter (fun rt => decide (rt.DeviceIdentifier =
        sampleRequest.RemoteAddr ++ "-" ++ sampleRequest.UserAgent))) = [] := by
  decide

/-! ### Provisioning transaction -/

theorem Value_WithValue_self (ctx : Context) (k : CtxKey) (v : CtxVal) :
    (WithValue ctx k v).Value k = some v := by
  simp [WithValue, Context.Value]

theorem ExecContext_pool (db : DB) (ctx : Context) (e : Bool) (stmt : Tables → Tables)
    (htx : ctx.Value TxKey = some .tx) : (ExecContext db ctx e stmt).2.pool = db.pool := by
  unfold ExecContext
  split_ifs
  · rfl
  · simp only [DB.conn, htx]
    cases db.tx with
    | none => rfl
    | some t => simp [DB.put, htx]

theorem assignRoles_pool (ctx : Context) (fail : Nat → Bool) (userID : UUID) (roleMap : NameMap)
    (htx : ctx.Value TxKey = some .tx) :
    ∀ (roles : List RoleRequest) (db : DB) (n : Nat),
      (userService.assignRoles ctx fail userID roleMap db n roles).2.1.pool = db.pool := by
  intro roles
  induction roles with
  | nil => intro db n; rfl
  | cons role rest ih =>
    intro db n
    have hA : ∀ id e, (userRepository.AssignRole db ctx userID id e).2.pool = db.pool :=
      fun id e => ExecContext_pool db ctx e _ htx
    unfold userService.assignRoles
    split
    · rename_i roleID _
      split
      · rename_i e db1 heq
        have := hA roleID (fail n); rw [heq] at this; exact this
      · rename_i u db1 heq
        have := hA roleID (fail n); rw [heq] at this
        rw [ih db1 (n + 1)]; exact this
    · split
      · rfl
      · rfl
      · rename_i roleModel _
        split
        · rename_i e db1 heq
          have := hA roleModel.ID (fail (n + 1)); rw [heq] at this; exact this
        · rename_i u db1 heq
          have := hA roleModel.ID (fail (n + 1)); rw [heq] at this
          rw [ih db1 (n + 2)]; exact this

theorem assignPermissions_pool (ctx : Context) (fail : Nat → Bool) (userID : UUID)
    (permMap : NameMap) (htx : ctx.Value TxKey = some .tx) :
    ∀ (perms : List PermissionRequest) (db : DB) (n : Nat),
      (userService.assignPermissions ctx fail userID permMap db n perms).2.1.pool = db.pool := by
  intro perms
  induction perms with
  | nil => intro db n; rfl
  | cons perm rest ih =>
    intro db n
    have hA : ∀ id e, (userRepository.AssignPermission db ctx userID id e).2.pool = db.pool :=
      fun id e => ExecContext_pool db ctx e _ htx
    unfold userService.assignPermissions
    split
    · rename_i permID _
      split
      · rename_i e db1 heq
        have := hA permID (fail n); rw [heq] at this; exact this
      · rename_i u db1 heq
        have := hA permID (fail n); rw [heq] at this
        rw [ih db1 (n + 1)]; exact this
    · split
      · rfl
      · rfl
      · rename_i permModel _
        split
        · rename_i e db1 heq
          have := hA permModel.ID (fail (n + 1)); rw [heq] at this; exact this
        · rename_i u db1 heq
          have := hA permModel.ID (fail (n + 1)); rw [heq] at this
          rw [ih db1 (n + 2)]; exact this

theorem createBody_pool (db : DB) (ctx : Context) (fail : Nat → Bool) (user : UserModel)
    (req : CreateUserRequest) (htx : ctx.Value TxKey = some .tx) :
    (userService.createBody db ctx fail user req).2.pool = db.pool := by
  have h1 : (userRepository.Create db ctx user (fail 0)).2.pool = db.pool :=
    ExecContext_pool db ctx _ _ htx
  unfold userService.createBody
  split
  · rename_i e db1 heq; rw [heq] at h1; exact h1
  · rename_i u db1 heq
    rw [heq] at h1
    split
    · exact h1
    · rename_i availableRoles _
      have h2 := assignRoles_pool ctx fail user.ID (roleMapOf availableRoles) htx req.Roles db1 2
      split
      · rename_i e db2 n2 heq2; rw [heq2] at h2; exact h2.trans h1
      · rename_i u2 db2 n2 heq2
        rw [heq2] at h2
        split
        · exact h2.trans h1
        · rename_i availablePermissions _
          have h3 := assignPermissions_pool ctx fail user.ID (permMapOf availablePermissions) htx
            req.Permissions db2 (n2 + 1)
          split
          · rename_i e db3 n3 heq3; rw [heq3] at h3; exact h3.trans (h2.trans h1)
          · rename_i u3 db3 n3 heq3
            rw [heq3] at h3
            split
            · exact h3.trans (h2.trans h1)
            · split
              · exact h3.trans (h2.trans h1)
              · exact h3.trans (h2.trans h1)

theorem ReadCommitted_error_pool {α : Type} (db : DB) (ctx : Context)
    (fn : DB → Context → Except Err α × DB)
    (hfn : ∀ d c, c.Value TxKey = some .tx → (fn d c).2.pool = d.pool)
    (e : Err) (h : (ReadCommitted db ctx fn).1 = .error e) :
    (ReadCommitted db ctx fn).2 = { pool := db.pool, tx := none } := by
  have hp := hfn { db with tx := some db.pool } (WithValue ctx TxKey .tx)
    (Value_WithValue_self ctx TxKey .tx)
  unfold ReadCommitted at h ⊢
  split
  · rename_i e1 db1 heq
    rw [heq] at hp
    simp only at hp
    rw [hp]
  · rename_i a1 db1 heq
    rw [heq] at h
    simp at h

theorem Create_error_pool (db : DB) (ctx : Context) (req : CreateUserRequest) (now : Time)
    (freshID : UUID) (hash : String → Except Err String) (preErr : Bool) (fail : Nat → Bool)
    (e : Err) (h : (userService.Create db ctx req now freshID hash preErr fail).1 = .error e) :
    (userService.Create db ctx req now freshID hash preErr fail).2.pool = db.pool := by
  cases hres : userService.Create db ctx req now freshID hash preErr fail with
  | mk res db' =>
    rw [hres] at h
    simp only at h ⊢
    unfold userService.Create at hres
    split_ifs at hres
    · simp only [Prod.mk.injEq] at hres; rw [← hres.2]
    · split at hres
      · simp only [Prod.mk.injEq] at hres; rw [← hres.2]
      · simp only [Prod.mk.injEq] at hres; rw [← hres.2]
      · split at hres
        · simp only [Prod.mk.injEq] at hres; rw [← hres.2]
        · simp only at hres
          split at hres
          · rename_i txErr db1 heq
            have := ReadCommitted_error_pool db ctx _
              (fun d c hc => createBody_pool d c fail _ req hc) txErr (by rw [heq])
            rw [heq] at this
            simp only [Prod.mk.injEq] at hres this
            rw [← hres.2, this]
          · simp only [Prod.mk.injEq] at hres
            rw [← hres.1] at h
            simp at h

theorem NameMap_get?_set (m : NameMap) (k k' : String) (v : Int) :
    (m.set k v).get? k' = if k = k' then some v else m.get? k' := by
  unfold NameMap.set NameMap.get?
  by_cases h : k = k'
  · simp [h]
  · simp only [h, if_false, List.find?_cons, decide_False]
    congr 1
    have hk : ¬ k' = k := fun h3 => h h3.symm
    induction m with
    | nil => rfl
    | cons kv rest ih =>
      by_cases h1 : kv.1 = k
      · have h2 : ¬ kv.1 = k' := fun h3 => h (h1.symm.trans h3)
        simp [List.filter_cons, List.find?_cons, h1, h2, h, ih]
      · by_cases h2 : kv.1 = k'
        · simp [List.filter_cons, List.find?_cons, h1, h2, hk]
        · simp [List.filter_cons, List.find?_cons, h1, h2, ih]

theorem NameMap_get?_foldl_none {α : Type} (f : α → String) (g : α → Int) (k : String) :
    ∀ (l : List α) (m : NameMap),
      ((l.foldl (fun m r => m.set (f r) (g r)) m).get? k = none ↔
        m.get? k = none ∧ ∀ r ∈ l, f r ≠ k) := by
  intro l
  induction l with
  | nil => intro m; simp
  | cons a rest ih =>
    intro m
    rw [List.foldl_cons, ih, NameMap_get?_set]
    by_cases h : f a = k
    · simp [h]
    · simp [h]

theorem roleMapOf_get?_some (roles : List Role) (k : String) (h : ∃ r ∈ roles, r.Name = k) :
    ∃ id, (roleMapOf roles).get? k = some id := by
  cases hg : (roleMapOf roles).get? k with
  | some id => exact ⟨id, rfl⟩
  | none =>
    have := (NameMap_get?_foldl_none (fun r : Role => r.Name) (fun r => r.ID) k roles []).mp hg
    obtain ⟨r, hr, hk⟩ := h
    exact absurd hk (this.2 r hr)

theorem permMapOf_get?_none (perms : List Permission) (k : String) (h : ∀ p ∈ perms, p.Name ≠ k) :
    (permMapOf perms).get? k = none :=
  (NameMap_get?_foldl_none (fun p : Permission => p.Name) (fun p => p.ID) k perms []).mpr
    ⟨rfl, h⟩


theorem createBody_valid_role_missing_permission (db : DB) (ctx : Context) (user : UserModel)
    (req : CreateUserRequest) (rname pname : String)
    (huser : user.LastLogin = none ∧ user.DeletedAt = none)
    (hroles : req.Roles = [{ Name := rname }]) (hperms : req.Permissions = [{ Name := pname }])
    (hrole : ∃ r ∈ db.pool.roles, r.RoleName = rname)
    (hperm : ∀ p ∈ db.pool.permissions, p.PermissionName ≠ pname) :
    ∃ roleID,
      userService.createBody { db with tx := some db.pool } (WithValue ctx TxKey .tx)
          (fun _ => false) user req =
        (.error (NotFoundError "permission.not_found" none [("name", pname)]),
         { pool := db.pool,
           tx := some { db.pool with users := db.pool.users ++ [user],
                                     user_roles := db.pool.user_roles ++ [(user.ID, roleID)] } }) := by
  have htx := Value_WithValue_self ctx TxKey .tx
  obtain ⟨roleID, hmap⟩ := roleMapOf_get?_some
    (db.pool.roles.map (fun r =>
        ({ ID := r.ID, Name := r.RoleName, Description := r.Description, Permissions := [] } : Role)))
    rname (by
        obtain ⟨r, hr, hn⟩ := hrole
        exact ⟨_, List.mem_map_of_mem _ hr, hn⟩)
  have hpm := permMapOf_get?_none
    (db.pool.permissions.map (fun p =>
        ({ ID := p.ID, Name := p.PermissionName, Description := p.Description } : Permission)))
    pname (by
        intro p hp
        obtain ⟨q, hq, rfl⟩ := List.mem_map.mp hp
        exact hperm q hq)
  have hfil : db.pool.permissions.filter (fun p => decide (p.PermissionName = pname)) = [] := by
    rw [List.filter_eq_nil_iff]
    intro p hp
    simp [hperm p hp]
  have hu : ({ user with LastLogin := none, DeletedAt := none } : UserModel) = user := by
    cases user; simp_all
  refine ⟨roleID, ?_⟩
  simp only [userService.createBody, userRepository.Create, userRepository.GetAllRoles,
    userRepository.GetAllPermissions, ExecContext, QueryContext, DB.conn, DB.put, htx,
    Bool.false_eq_true, if_false, hroles, hperms, userService.assignRoles,
    userService.assignPermissions, hmap, hpm, userRepository.AssignRole,
    userRepository.FindPermissionByName, ScanOneContext, hfil, hu]

/-- C2: whenever `userService.Create` returns an error (a validation or
conflict error, a failing store call at any step, an unknown role or
permission name), the transaction runner rolling back on a non-nil error, the
committed tables after the call equal those before it, for every pattern of
failing store calls; in particular, with one valid role name, one nonexistent
permission name and no failing store call, `Create` returns the
`permission.not_found` error and the committed tables are unchanged, although
inside the transaction the user row and the role assignment had been inserted. -/
theorem C2_create_rolls_back_on_error (db : DB) (ctx : Context) (req : CreateUserRequest)
    (now : Time) (freshID : UUID) (hash : String → Except Err String) :
    (∀ (preErr : Bool) (fail : Nat → Bool) (e : Err),
        (userService.Create db ctx req now freshID hash preErr fail).1 = .error e →
        (userService.Create db ctx req now freshID hash preErr fail).2.pool = db.pool) ∧
    (∀ (rname pname hashed : String),
        req.Password = req.PasswordConfirmation →
        userRepository.FindByEmail db ctx req.Email false = .ok none →
        hash req.Password = .ok hashed →
        req.Roles = [{ Name := rname }] → req.Permissions = [{ Name := pname }] →
        (∃ r ∈ db.pool.roles, r.RoleName = rname) →
        (∀ p ∈ db.pool.permissions, p.PermissionName ≠ pname) →
        userService.Create db ctx req now freshID hash false (fun _ => false) =
          (.error (NotFoundError "permission.not_found" none [("name", pname)]),
           { pool := db.pool, tx := none }) ∧
        ∃ roleID,
          (userService.createBody { db with tx := some db.pool } (WithValue ctx TxKey .tx)
              (fun _ => false) (newUserModel req now freshID hashed) req).2.tx =
            some { db.pool with
                     users := db.pool.users ++ [newUserModel req now freshID hashed],
                     user_roles := db.pool.user_roles ++ [(freshID, roleID)] }) := by
  refine ⟨fun preErr fail e h => Create_error_pool db ctx req now freshID hash preErr fail e h, ?_⟩
  intro rname pname hashed hpw hfind hhash hroles hperms hrole hperm
  obtain ⟨roleID, hbody⟩ := createBody_valid_role_missing_permission db ctx
    (newUserModel req now freshID hashed) req rname pname ⟨rfl, rfl⟩ hroles hperms hrole hperm
  refine ⟨?_, roleID, by rw [hbody]; rfl⟩
  have hne : ¬ (req.Password ≠ req.PasswordConfirmation) := not_not.mpr hpw
  simp only [userService.Create, if_neg hne, hfind, hhash, ReadCommitted, hbody]

/-- Witness for C2: the sample request names the role `member`, which exists,
and the permission `reports:export`, which does not. -/
theorem C2_create_rolls_back_on_error_witness :
    (userService.Create sampleDB Background sampleCreateRequest 1000 "u-1" sampleHash false
        (fun _ => false)).1 = .error (NotFoundError "permission.not_found" none [("name", "reports:export")]) ∧
    (userService.Create sampleDB Background sampleCreateRequest 1000 "u-1" sampleHash false
        (fun _ => false)).2.pool = sampleDB.pool ∧
    (userService.Create sampleDB Background sampleCreateRequest 1000 "u-1" sampleHash false
        (fun n => decide (n = 1))).2.pool = sampleDB.pool :=
  ⟨congrArg Prod.fst
     ((C2_create_rolls_back_on_error sampleDB Background sampleCreateRequest 1000 "u-1"
        sampleHash).2 "member" "reports:export" "hash:secret" (by decide) (by decide) (by decide)
        (by decide) (by decide) (by decide) (by decide)).1,
   (C2_create_rolls_back_on_error sampleDB Background sampleCreateRequest 1000 "u-1"
      sampleHash).1 false (fun _ => false)
      (NotFoundError "permission.not_found" none [("name", "reports:export")]) (by decide),
   (C2_create_rolls_back_on_error sampleDB Background sampleCreateRequest 1000 "u-1"
      sampleHash).1 false (fun n => decide (n = 1)) driverError (by decide)⟩

/-! ### Revoking all sessions of a user -/

theorem RevokeAllUserTokens_ok (s : Store) (u : UUID) (ip : String) (now : Time) (hu : u ≠ uuidNil) :
    (refreshTokenRepository.RevokeAllUserTokens s u ip now false).2 =
      s.map (fun rt =>
        if sqlActiveOf u now rt then
          { rt with Revoked := true, RevokedAt := some now, RevokedByIP := ip }
        else rt) := by
  simp [refreshTokenRepository.RevokeAllUserTokens, hu]

theorem RevokeAllUserTokens_none_active (s : Store) (u : UUID) (ip : String) (now1 now2 : Time)
    (h : now1 ≤ now2) (e1 : Bool) (r : RefreshToken)
    (hr : r ∈ (refreshTokenRepository.RevokeAllUserTokens s u ip now1 e1).2)
    (he : e1 = false) (hu : u ≠ uuidNil) : sqlActiveOf u now2 r = false := by
  subst he
  rw [RevokeAllUserTokens_ok s u ip now1 hu, List.mem_map] at hr
  obtain ⟨x, _, hx⟩ := hr
  by_cases hact : sqlActiveOf u now1 x = true
  · rw [if_pos hact] at hx
    subst hx
    simp [sqlActiveOf, sqlActive]
  · rw [if_neg hact] at hx
    subst hx
    cases h2 : sqlActiveOf u now2 x with
    | false => rfl
    | true => exact absurd (sqlActiveOf_mono u now1 now2 h x h2) hact

/-- C20: for every store, every user and every pair of clock values
`now1 ≤ now2`, when no store call fails a second `RevokeAllUserTokens` leaves
every row exactly as the first one left it (its revoked flag, `revoked_at`,
`revoked_by_ip` and every other column): the second call updates no row. The
same holds when the second call is made with another address, and for the
service method, which is the repository call. -/
theorem C20_revoke_all_twice_is_once (a : authService) (s : Store) (u : UUID) (ip1 ip2 : String)
    (now1 now2 : Time) (h : now1 ≤ now2) :
    (refreshTokenRepository.RevokeAllUserTokens
        (refreshTokenRepository.RevokeAllUserTokens s u ip1 now1 false).2 u ip2 now2 false).2 =
      (refreshTokenRepository.RevokeAllUserTokens s u ip1 now1 false).2 ∧
    (a.RevokeAllUserTokens (a.RevokeAllUserTokens s u ip1 now1 false).2 u ip2 now2 false).2 =
      (a.RevokeAllUserTokens s u ip1 now1 false).2 := by
  have key : (refreshTokenRepository.RevokeAllUserTokens
        (refreshTokenRepository.RevokeAllUserTokens s u ip1 now1 false).2 u ip2 now2 false).2 =
      (refreshTokenRepository.RevokeAllUserTokens s u ip1 now1 false).2 := by
    by_cases hu : u = uuidNil
    · simp [refreshTokenRepository.RevokeAllUserTokens, hu]
    · rw [RevokeAllUserTokens_ok _ u ip2 now2 hu]
      conv_rhs => rw [← List.map_id (refreshTokenRepository.RevokeAllUserTokens s u ip1 now1 false).2]
      apply List.map_congr_left
      intro r hr
      have := RevokeAllUserTokens_none_active s u ip1 now1 now2 h false r hr rfl hu
      simp [this]
  exact ⟨key, key⟩

/-- Witness for C20: two sessions of the sample user, revoked at second 10
and again at second 20. -/
theorem C20_revoke_all_twice_is_once_witness :
    (10 * Second ≤ 20 * Second) ∧
    (refreshTokenRepository.RevokeAllUserTokens
        (refreshTokenRepository.RevokeAllUserTokens [sampleSession 1 "a", sampleSession 2 "b"]
          sampleUser.ID "ip-1" (10 * Second) false).2 sampleUser.ID "ip-2" (20 * Second) false).2 =
      (refreshTokenRepository.RevokeAllUserTokens [sampleSession 1 "a", sampleSession 2 "b"]
          sampleUser.ID "ip-1" (10 * Second) false).2 :=
  ⟨by decide,
   (C20_revoke_all_twice_is_once sampleAuth [sampleSession 1 "a", sampleSession 2 "b"]
      sampleUser.ID "ip-1" "ip-2" (10 * Second) (20 * Second) (by decide)).1⟩

/-! ### Revoking one session -/

/-- C19 (counterexample): the empty token string has no session record, yet
`RevokeToken` answers it with a `BAD_REQUEST` error, not with a `NOT_FOUND`
error: `GetByToken` rejects the empty string before it queries the store. -/
theorem C19_empty_token_is_bad_request :
    refreshTokenRepository.GetByToken [sampleSession 1 "a"] "" false =
      .error (BadRequestError "token.empty" none []) ∧
    ([sampleSession 1 "a"].filter (fun rt => decide (rt.Token = ""))) = [] ∧
    sampleAuth.RevokeToken [sampleSession 1 "a"] "" "10.0.0.9" (5 * Second) false false =
      (.error (BadRequestError "token.empty" none []), [sampleSession 1 "a"]) ∧
    BadRequestError "token.empty" none [] ≠ NotFoundError "token.not_found" none [] := by
  decide

/-- C19 (amended): when no store call fails, for every non-empty token string
that has no session record `RevokeToken` returns the `NOT_FOUND` error
`token.not_found` and leaves the store as it was; for every token string that
has a record, `RevokeToken` returns nil, the records with the found record's
id end up with `revoked = true`, `revoked_by_ip` equal to the given ip and
`revoked_at` equal to the clock value, the found record is among them, and
every other record is unchanged. -/
theorem C19_revoke_token (a : authService) (s : Store) (tok ip : String) (now : Time) :
    (tok ≠ "" → (∀ r ∈ s, r.Token ≠ tok) →
        a.RevokeToken s tok ip now false false =
          (.error (NotFoundError "token.not_found" none []), s)) ∧
    (∀ r, refreshTokenRepository.GetByToken s tok false = .ok (some r) →
        (a.RevokeToken s tok ip now false false).1 = .ok () ∧
        (∃ y ∈ (a.RevokeToken s tok ip now false false).2, y.ID = r.ID ∧ y.Token = tok) ∧
        (∀ y ∈ (a.RevokeToken s tok ip now false false).2, y.ID = r.ID →
            y.Revoked = true ∧ y.RevokedByIP = ip ∧ y.RevokedAt = some now) ∧
        (∀ x ∈ s, x.ID ≠ r.ID → x ∈ (a.RevokeToken s tok ip now false false).2)) := by
  constructor
  · intro htok hnone
    have hfind : s.find? (fun rt => decide (rt.Token = tok)) = none := by
      rw [List.find?_eq_none]
      intro r hr
      simpa using hnone r hr
    simp [authService.RevokeToken, refreshTokenRepository.GetByToken, htok, hfind]
  · intro r hget
    obtain ⟨hr, hrtok⟩ := GetByToken_mem s tok false r hget
    have hstore : (a.RevokeToken s tok ip now false false).2 =
        s.map (fun rt => if rt.ID = r.ID then
          { rt with Revoked := true, RevokedAt := some now, RevokedByIP := ip,
                    ReplacedByToken := "" } else rt) := by
      simp only [authService.RevokeToken, hget, Update_eq, RefreshToken.Revoke]
    refine ⟨by simp [authService.RevokeToken, hget, refreshTokenRepository.Update], ?_, ?_, ?_⟩
    · rw [hstore]
      refine ⟨_, List.mem_map_of_mem _ hr, ?_⟩
      simp [hrtok]
    · intro y hy hyid
      rw [hstore, List.mem_map] at hy
      obtain ⟨x, _, hxy⟩ := hy
      by_cases hx : x.ID = r.ID
      · rw [if_pos hx] at hxy; subst hxy; exact ⟨rfl, rfl, rfl⟩
      · rw [if_neg hx] at hxy; subst hxy; exact absurd hyid hx
    · intro x hx hne
      rw [hstore, List.mem_map]
      exact ⟨x, hx, by rw [if_neg hne]⟩

/-- Witness for C19 (amended): an unknown token against a store with one
session, and the token of that session. -/
theorem C19_revoke_token_witness :
    sampleAuth.RevokeToken [sampleSession 1 "a"] "token-zz" "10.0.0.9" (5 * Second) false false =
      (.error (NotFoundError "token.not_found" none []), [sampleSession 1 "a"]) ∧
    (sampleAuth.RevokeToken [sampleSession 1 "a"] "token-a" "10.0.0.9" (5 * Second) false false).1 =
      .ok () :=
  ⟨(C19_revoke_token sampleAuth [sampleSession 1 "a"] "token-zz" "10.0.0.9" (5 * Second)).1
      (by decide) (by decide),
   ((C19_revoke_token sampleAuth [sampleSession 1 "a"] "token-a" "10.0.0.9" (5 * Second)).2
      (sampleSession 1 "a") (by decide)).1⟩

/-! ### Refresh: rejected tokens and swallowed failures -/

/-- C14 (counterexample): the empty refresh token string has no session
record, yet `RefreshToken` answers it with a `BAD_REQUEST` error (status 400),
not with an `UNAUTHORIZED` error. -/
theorem C14_empty_token_is_bad_request :
    ([sampleSession 1 "a"].filter (fun rt => decide (rt.Token = ""))) = [] ∧
    sampleAuth.RefreshToken [sampleSession 1 "a"] sampleCtx "" (5 * Second)
        { deviceID := "d-new", tokenID := "id-new" } noFaults =
      (.error (.app { Status := 400, Code := "BAD_REQUEST", Message := "token.empty",
                      Err := none, Details := [] }), [sampleSession 1 "a"]) := by
  decide

/-- C14 (amended): when the lookup does not fail, for every non-empty refresh
token string that has no session record, or whose record is revoked or has
`expires_at` earlier than the clock value, `RefreshToken` returns an
`UNAUTHORIZED` error (`token.not_found`, respectively `token.inactive`), so no
token pair, and leaves the store as it was, whatever other store call would
fail. -/
theorem C14_refresh_rejects_unknown_or_inactive (a : authService) (s : Store) (ctx : Context)
    (tok : String) (now : Time) (fr : Fresh) (f : Faults)
    (htok : tok ≠ "") (hlookup : f.getByToken = false)
    (h : (∀ r ∈ s, r.Token ≠ tok) ∨
         ∃ r, refreshTokenRepository.GetByToken s tok false = .ok (some r) ∧
           (r.Revoked = true ∨ r.ExpiresAt < now)) :
    (a.RefreshToken s ctx tok now fr f).2 = s ∧
    ((a.RefreshToken s ctx tok now fr f).1 =
        .error (UnauthorizedError "token.not_found" (some "refresh token not found") []) ∨
     (a.RefreshToken s ctx tok now fr f).1 =
        .error (UnauthorizedError "token.inactive" (some "refresh token is inactive") [])) := by
  rcases h with hnone | ⟨r, hget, hinact⟩
  · have hfind : s.find? (fun rt => decide (rt.Token = tok)) = none := by
      rw [List.find?_eq_none]
      intro r hr
      simpa using hnone r hr
    simp [authService.RefreshToken, refreshTokenRepository.GetByToken, htok, hlookup, hfind]
  · have hnot : r.IsActive now = false := by
      rcases hinact with hrev | hexp
      · simp [RefreshToken.IsActive, hrev]
      · simp [RefreshToken.IsActive, RefreshToken.IsExpired, hexp]
    simp [authService.RefreshToken, hlookup, hget, hnot]

/-- Witness for C14 (amended): an unknown token, and the token of a session
that expired one second before the call. -/
theorem C14_refresh_rejects_unknown_or_inactive_witness :
    sampleAuth.RefreshToken [sampleSession 1 "a"] sampleCtx "token-zz" (5 * Second)
        { deviceID := "d-new", tokenID := "id-new" } noFaults =
      (.error (UnauthorizedError "token.not_found" (some "refresh token not found") []),
       [sampleSession 1 "a"]) ∧
    (sampleAuth.RefreshToken [sampleSession 1 "a"] sampleCtx "token-a" (2 * Second + 24 * Hour)
        { deviceID := "d-new", tokenID := "id-new" } noFaults).2 = [sampleSession 1 "a"] :=
  ⟨by decide,
   (C14_refresh_rejects_unknown_or_inactive sampleAuth [sampleSession 1 "a"] sampleCtx
      "token-a" (2 * Second + 24 * Hour) { deviceID := "d-new", tokenID := "id-new" } noFaults
      (by decide) rfl (Or.inr ⟨sampleSession 1 "a", by decide, Or.inr (by decide)⟩)).1⟩

/-- C16: in every `RefreshToken` call in which the new token pair was issued
(the presented record was found active, its user was found and `generateToken`
returned the pair) and the final store update of the presented record fails,
`RefreshToken` returns that token pair with a nil error; the store is the one
`generateToken` left. -/
theorem C16_refresh_swallows_rotation_failure (a : authService) (s s1 : Store) (ctx : Context)
    (tok : String) (now : Time) (fr : Fresh) (f : Faults) (r : RefreshToken) (user : User)
    (resp : AuthResponse)
    (hget : refreshTokenRepository.GetByToken s tok f.getByToken = .ok (some r))
    (hact : r.IsActive now = true)
    (huser : a.users.GetByID r.UserID = .ok (some user))
    (hgen : a.generateToken s ctx user (getClientIP ctx) now fr f = (.ok resp, s1))
    (hfail : f.updateRotated = true) :
    a.RefreshToken s ctx tok now fr f = (.ok resp, s1) := by
  simp [authService.RefreshToken, hget, hact, huser, hgen, hfail, refreshTokenRepository.Update]

/-- Witness for C16: the only session of the sample user is refreshed while
the final update fails; the pair is returned and the presented record is left
active in the store. -/
theorem C16_refresh_swallows_rotation_failure_witness :
    sampleAuth.RefreshToken [sampleSession 1 "a"] sampleCtx "token-a" (100 * Second)
        { deviceID := "d-new", tokenID := "id-new" } { noFaults with updateRotated := true } =
      (.ok { Token := "access/k/11111111-1111-1111-1111-111111111111/3700000000000",
             RefreshToken := "refresh/k/11111111-1111-1111-1111-111111111111/86500",
             TokenType := "Bearer", ExpiresIn := 3600, AccessExpiresAt := 3700000000000 },
       (sampleAuth.generateToken [sampleSession 1 "a"] sampleCtx sampleUser (getClientIP sampleCtx)
          (100 * Second) { deviceID := "d-new", tokenID := "id-new" }
          { noFaults with updateRotated := true }).2) :=
  C16_refresh_swallows_rotation_failure sampleAuth [sampleSession 1 "a"] _ sampleCtx "token-a"
    (100 * Second) { deviceID := "d-new", tokenID := "id-new" }
    { noFaults with updateRotated := true } (sampleSession 1 "a") sampleUser _
    (by decide) (by decide) (by decide) (by decide) rfl

/-! ### Best-effort steps of session admission -/

theorem Update_length (s : Store) (tok : RefreshToken) (e : Bool) :
    (refreshTokenRepository.Update s tok e).2.length = s.length := by
  cases e <;> simp [refreshTokenRepository.Update]

theorem RevokeOldest_length (s : Store) (v : UUID) (limit : Int) (ip : String) (now : Time)
    (e1 e2 : Bool) :
    (refreshTokenRepository.RevokeOldestIfLimitExceeded s v limit ip now e1 e2).2.length =
      s.length := by
  rcases RevokeOldest_store s v limit ip now e1 e2 with h | ⟨_, _, _, _, h⟩
  · rw [h]
  · rw [h, List.length_map]

theorem saveRefreshToken_best_effort (s : Store) (ctx : Context) (u : UUID) (tok : String)
    (exp : Time) (ip : String) (now : Time) (fr : Fresh) (f : Faults)
    (hu : u ≠ uuidNil) (hd : getDeviceIdentifier ctx fr.deviceID ≠ "")
    (hlookup : f.getByDevice = false) (hcreate : f.create = false) :
    ∃ s2 : Store, s2.length = s.length ∧
      saveRefreshToken s ctx u tok exp ip now fr f =
        (.ok (), s2 ++ [{ ID := fr.tokenID, UserID := u, Token := tok, ExpiresAt := exp,
                          Revoked := false, CreatedAt := now, CreatedByIP := ip,
                          RevokedAt := none, RevokedByIP := "", ReplacedByToken := "",
                          DeviceIdentifier := getDeviceIdentifier ctx fr.deviceID }]) := by
  have key : ∀ s1 : Store, s1.length = s.length → ∃ s2 : Store, s2.length = s.length ∧
      refreshTokenRepository.Create
          (refreshTokenRepository.RevokeOldestIfLimitExceeded s1 u (maxTokensPerUser - 1) ip now
            f.countActive f.revokeOldest).2
          { ID := fr.tokenID, UserID := u, Token := tok, ExpiresAt := exp,
            Revoked := false, CreatedAt := now, CreatedByIP := ip,
            RevokedAt := none, RevokedByIP := "", ReplacedByToken := "",
            DeviceIdentifier := getDeviceIdentifier ctx fr.deviceID } fr.tokenID false =
        (.ok (), s2 ++ [{ ID := fr.tokenID, UserID := u, Token := tok, ExpiresAt := exp,
                          Revoked := false, CreatedAt := now, CreatedByIP := ip,
                          RevokedAt := none, RevokedByIP := "", ReplacedByToken := "",
                          DeviceIdentifier := getDeviceIdentifier ctx fr.deviceID }]) := by
    intro s1 h1
    refine ⟨(refreshTokenRepository.RevokeOldestIfLimitExceeded s1 u (maxTokensPerUser - 1) ip now
      f.countActive f.revokeOldest).2, by rw [RevokeOldest_length, h1], ?_⟩
    simp [refreshTokenRepository.Create]
  simp only [saveRefreshToken, refreshTokenRepository.GetByDeviceIdentifier, hu, hd, hlookup,
    hcreate, if_false, Bool.false_eq_true]
  split
  · exact key _ (Update_length _ _ _)
  · exact key _ rfl

/-- C15 (counterexample): when the lookup of the device's existing session
fails, `saveRefreshToken` returns the error and inserts nothing, and
`generateToken` returns the error `failed to save refresh token` instead of
the token pair. -/
theorem C15_lookup_failure_aborts_issuance :
    saveRefreshToken [sampleSession 1 "a"] sampleCtx sampleUser.ID "new-token"
        (5 * Second + 24 * Hour) "10.0.0.1:5000" (5 * Second)
        { deviceID := "d-new", tokenID := "id-new" } { noFaults with getByDevice := true } =
      (.error (InternalServerError "token.get_error" (some driverErrorText) []),
       [sampleSession 1 "a"]) ∧
    sampleAuth.generateToken [sampleSession 1 "a"] sampleCtx sampleUser "10.0.0.1:5000"
        (5 * Second) { deviceID := "d-new", tokenID := "id-new" }
        { noFaults with getByDevice := true } =
      (.error (.wrapped "failed to save refresh token"
          (InternalServerError "token.get_error" (some driverErrorText) [])),
       [sampleSession 1 "a"]) := by
  decide

/-- C15 (amended): whatever store failure occurs during the revocation of
the device's existing active session or during cap enforcement (its count or
its update), if the lookup of the device's session and the insert do not fail,
`saveRefreshToken` returns nil after inserting the new session record as the
last row, no earlier row being removed, and `generateToken`, once both tokens
are signed, returns the token pair with a nil error. The user id is not the
nil id and the device identifier is not empty. -/
theorem C15_admission_best_effort (a : authService) (s : Store) (ctx : Context) (user : User)
    (ip : String) (now : Time) (fr : Fresh) (f : Faults) (accessToken refreshTokenString : String)
    (hu : user.ID ≠ uuidNil) (hd : getDeviceIdentifier ctx fr.deviceID ≠ "")
    (hlookup : f.getByDevice = false) (hcreate : f.create = false)
    (haccess : a.jwtManager.GenerateToken a.sign user.ID (user.Roles.map (fun role => role.Name))
        (permissionNames user) now now now = .ok accessToken)
    (hsign : a.sign (.refresh user.ID "refresh" (Unix (now + a.cfg.RefreshTokenExpiryHours * Hour)))
        a.cfg.SecretKey = .ok refreshTokenString) :
    ∃ s2 : Store, s2.length = s.length ∧
      saveRefreshToken s ctx user.ID refreshTokenString
          (now + a.cfg.RefreshTokenExpiryHours * Hour) ip now fr f =
        (.ok (), s2 ++ [{ ID := fr.tokenID, UserID := user.ID, Token := refreshTokenString,
                          ExpiresAt := now + a.cfg.RefreshTokenExpiryHours * Hour,
                          Revoked := false, CreatedAt := now, CreatedByIP := ip,
                          RevokedAt := none, RevokedByIP := "", ReplacedByToken := "",
                          DeviceIdentifier := getDeviceIdentifier ctx fr.deviceID }]) ∧
      (a.generateToken s ctx user ip now fr f).1 =
        .ok { Token := accessToken, RefreshToken := refreshTokenString, TokenType := "Bearer",
              ExpiresIn := a.cfg.AccessTokenExpiryMinutes * 60,
              AccessExpiresAt := now + a.cfg.AccessTokenExpiryMinutes * Minute } := by
  obtain ⟨s2, hlen, hsave⟩ := saveRefreshToken_best_effort s ctx user.ID refreshTokenString
    (now + a.cfg.RefreshTokenExpiryHours * Hour) ip now fr f hu hd hlookup hcreate
  refine ⟨s2, hlen, hsave, ?_⟩
  simp only [authService.generateToken, haccess, hsign, hsave]

/-- Witness for C15 (amended): the sample user has three active sessions and
logs in while the revocation update and both statements of cap enforcement
fail; the pair is issued and four sessions are stored. -/
theorem C15_admission_best_effort_witness :
    ∃ s2 : Store, s2.length = 3 ∧
      saveRefreshToken [sampleSession 1 "a", sampleSession 2 "b", sampleSession 3 "c"] sampleCtx
          sampleUser.ID "refresh/k/11111111-1111-1111-1111-111111111111/86500"
          (100 * Second + sampleAuth.cfg.RefreshTokenExpiryHours * Hour) "10.0.0.1:5000"
          (100 * Second) { deviceID := "d-new", tokenID := "id-new" }
          { noFaults with updateDevice := true, countActive := true, revokeOldest := true } =
        (.ok (), s2 ++ [{ ID := "id-new", UserID := sampleUser.ID,
                          Token := "refresh/k/11111111-1111-1111-1111-111111111111/86500",
                          ExpiresAt := 100 * Second + sampleAuth.cfg.RefreshTokenExpiryHours * Hour,
                          Revoked := false, CreatedAt := 100 * Second,
                          CreatedByIP := "10.0.0.1:5000", RevokedAt := none, RevokedByIP := "",
                          ReplacedByToken := "",
                          DeviceIdentifier := getDeviceIdentifier sampleCtx "d-new" }]) ∧
      (sampleAuth.generateToken [sampleSession 1 "a", sampleSession 2 "b", sampleSession 3 "c"]
          sampleCtx sampleUser "10.0.0.1:5000" (100 * Second)
          { deviceID := "d-new", tokenID := "id-new" }
          { noFaults with updateDevice := true, countActive := true, revokeOldest := true }).1 =
        .ok { Token := "access/k/11111111-1111-1111-1111-111111111111/3700000000000",
              RefreshToken := "refresh/k/11111111-1111-1111-1111-111111111111/86500",
              TokenType := "Bearer", ExpiresIn := sampleAuth.cfg.AccessTokenExpiryMinutes * 60,
              AccessExpiresAt := 100 * Second + sampleAuth.cfg.AccessTokenExpiryMinutes * Minute } :=
  C15_admission_best_effort sampleAuth
    [sampleSession 1 "a", sampleSession 2 "b", sampleSession 3 "c"] sampleCtx sampleUser
    "10.0.0.1:5000" (100 * Second) { deviceID := "d-new", tokenID := "id-new" }
    { noFaults with updateDevice := true, countActive := true, revokeOldest := true }
    "access/k/11111111-1111-1111-1111-111111111111/3700000000000"
    "refresh/k/11111111-1111-1111-1111-111111111111/86500"
    (by decide) (by decide) rfl rfl (by decide) (by decide)

/-! ### Claims embedded in the access token -/

theorem generateToken_access_claims (a : authService) (s : Store) (ctx : Context) (user : User)
    (ip : String) (now : Time) (fr : Fresh) (f : Faults) (resp : AuthResponse) (s1 : Store)
    (h : a.generateToken s ctx user ip now fr f = (.ok resp, s1)) :
    a.sign (.user { Subject := user.ID,
                    ExpiresAt := some (NewNumericDate
                      (now + wrapInt64 (a.jwtManager.expirationMinutes * Minute))),
                    IssuedAt := some (NewNumericDate now), NotBefore := some (NewNumericDate now),
                    UserID := user.ID, Roles := user.Roles.map (fun role => role.Name),
                    Permissions := permissionNames user }) a.jwtManager.secret = .ok resp.Token := by
  unfold authService.generateToken at h
  simp only at h
  split at h
  · simp at h
  · rename_i accessToken hacc
    have hresp : resp.Token = accessToken := by
      split at h
      · simp at h
      · split at h
        · simp at h
        · simp only [Prod.mk.injEq, Except.ok.injEq] at h
          rw [← h.1]
    unfold Manager.GenerateToken at hacc
    simp only at hacc
    split at hacc
    · simp at hacc
    · rename_i tokenString hsign
      simp only [Except.ok.injEq] at hacc
      rw [hresp, ← hacc]
      exact hsign

theorem mem_permissionNames (user : User) (n : String) :
    n ∈ permissionNames user ↔
      (∃ p ∈ user.Permissions, p.Name = n) ∨
      ∃ role ∈ user.Roles, ∃ p ∈ role.Permissions, p.Name = n := by
  simp only [permissionNames, List.mem_dedup, List.mem_append, List.mem_map, List.mem_flatten]
  constructor
  · rintro (h | ⟨l, ⟨role, hrole, rfl⟩, hn⟩)
    · exact Or.inl h
    · obtain ⟨p, hp, rfl⟩ := List.mem_map.mp hn
      exact Or.inr ⟨role, hrole, p, hp, rfl⟩
  · rintro (h | ⟨role, hrole, p, hp, rfl⟩)
    · exact Or.inl h
    · exact Or.inr ⟨_, ⟨role, hrole, rfl⟩, List.mem_map_of_mem _ hp⟩

theorem mem_permissionNames_iff_HasPermission (user : User) (n : String) :
    n ∈ permissionNames user ↔ user.HasPermission n = true := by
  rw [mem_permissionNames]
  simp [User.HasPermission]

/-- C11: the permission-name list `generateToken` embeds in the access token
(the `Permissions` of the claims it signs) has no duplicates and contains
exactly the names of the user's direct permissions and of the permissions of
the user's roles, that is the names `HasPermission` accepts; for a user with one
role granting P1, or P1 and P2, and a direct grant of P2, the list has the two
entries P1 and P2. -/
theorem C11_token_permission_names (a : authService) (s : Store) (ctx : Context) (user : User)
    (ip : String) (now : Time) (fr : Fresh) (f : Faults) :
    (∀ resp s1, a.generateToken s ctx user ip now fr f = (.ok resp, s1) →
      ∃ c : UserClaims, a.sign (.user c) a.jwtManager.secret = .ok resp.Token ∧
        c.Permissions = permissionNames user) ∧
    (permissionNames user).Nodup ∧
    (∀ n, n ∈ permissionNames user ↔
      (∃ p ∈ user.Permissions, p.Name = n) ∨
      ∃ role ∈ user.Roles, ∃ p ∈ role.Permissions, p.Name = n) ∧
    (∀ n, n ∈ permissionNames user ↔ user.HasPermission n = true) ∧
    (∀ (R : Role) (P1 P2 : Permission), user.Roles = [R] → user.Permissions = [P2] →
      (R.Permissions = [P1] ∨ R.Permissions = [P1, P2]) → P1.Name ≠ P2.Name →
      (permissionNames user).length = 2 ∧
      ∀ n, n ∈ permissionNames user ↔ n = P1.Name ∨ n = P2.Name) := by
  refine ⟨?_, List.nodup_dedup _, mem_permissionNames user, mem_permissionNames_iff_HasPermission user, ?_⟩
  · intro resp s1 h
    exact ⟨_, generateToken_access_claims a s ctx user ip now fr f resp s1 h, rfl⟩
  · intro R P1 P2 hR hP hcases hne
    have hmem : ∀ n, n ∈ permissionNames user ↔ n = P1.Name ∨ n = P2.Name := by
      intro n
      rw [mem_permissionNames, hR, hP]
      rcases hcases with h1 | h1 <;> simp [h1] <;> tauto
    refine ⟨?_, hmem⟩
    have hnd : [P1.Name, P2.Name].Nodup := by simp [hne]
    have hperm : (permissionNames user).Perm [P1.Name, P2.Name] := by
      refine (List.perm_ext_iff_of_nodup (List.nodup_dedup _) hnd).mpr ?_
      intro n
      have := hmem n
      simp only [permissionNames] at this
      rw [this]
      simp
    simpa using hperm.length_eq

/-- Witness for C11: the sample user with the role `editor` (granting
`docs:read` and `docs:write`) and the direct grant `docs:write`. -/
theorem C11_token_permission_names_witness :
    (echoAuth.generateToken [] sampleCtx sampleEditor "10.0.0.1:5000" (5 * Second)
        { deviceID := "d1", tokenID := "i1" } noFaults).1.toOption.map (fun r => r.Token) =
      some "roles=editor;permissions=docs:read,docs:write" ∧
    (permissionNames sampleEditor).length = 2 ∧
    (∀ n, n ∈ permissionNames sampleEditor ↔ n = "docs:read" ∨ n = "docs:write") :=
  ⟨by decide,
   (C11_token_permission_names echoAuth [] sampleCtx sampleEditor "10.0.0.1:5000" (5 * Second)
      { deviceID := "d1", tokenID := "i1" } noFaults).2.2.2.2
      { ID := 1, Name := "editor", Description := "",
        Permissions := [samplePermission 1 "docs:read", samplePermission 2 "docs:write"] }
      (samplePermission 1 "docs:read") (samplePermission 2 "docs:write") rfl rfl
      (Or.inr rfl) (by decide)⟩

/-- C12 (counterexample): for a user whose role list holds the role `editor`
twice, the role names `generateToken` embeds in the access token are
`editor, editor`: the name appears twice. -/
theorem C12_role_names_repeat :
    (echoAuth.generateToken [] sampleCtx sampleTwiceEditor "10.0.0.1:5000" (5 * Second)
        { deviceID := "d1", tokenID := "i1" } noFaults).1.toOption.map (fun r => r.Token) =
      some "roles=editor,editor;permissions=" ∧
    sampleTwiceEditor.Roles.map (fun role => role.Name) = ["editor", "editor"] ∧
    ¬ (sampleTwiceEditor.Roles.map (fun role => role.Name)).Nodup := by
  decide

/-- C12 (amended): the role-name list `generateToken` embeds in the access
token (the `Roles` of the claims it signs) has one entry for each entry of the
user's role list, in the same order: a name appears as many times as the role
list has entries with that name, so it contains the name of each role exactly
once exactly when no two entries of the role list have the same name. -/
theorem C12_token_role_names (a : authService) (s : Store) (ctx : Context) (user : User)
    (ip : String) (now : Time) (fr : Fresh) (f : Faults) (resp : AuthResponse) (s1 : Store)
    (h : a.generateToken s ctx user ip now fr f = (.ok resp, s1)) :
    ∃ c : UserClaims, a.sign (.user c) a.jwtManager.secret = .ok resp.Token ∧
      c.Roles = user.Roles.map (fun role => role.Name) ∧
      c.Roles.length = user.Roles.length ∧
      (∀ n, c.Roles.count n = (user.Roles.filter (fun role => decide (role.Name = n))).length) ∧
      (c.Roles.Nodup ↔ user.Roles.Pairwise (fun r1 r2 => r1.Name ≠ r2.Name)) := by
  refine ⟨_, generateToken_access_claims a s ctx user ip now fr f resp s1 h, rfl, ?_, ?_, ?_⟩
  · simp
  · intro n
    rw [← List.countP_eq_length_filter, List.count_eq_countP, List.countP_map]
    apply List.countP_congr
    intro r _
    simp
  · simp only [List.Nodup, List.pairwise_map]

/-- Witness for C12 (amended): the sample user with the single role `editor`. -/
theorem C12_token_role_names_witness :
    ∃ c : UserClaims,
      echoAuth.sign (.user c) echoAuth.jwtManager.secret =
        .ok "roles=editor;permissions=docs:read,docs:write" ∧
      c.Roles = sampleEditor.Roles.map (fun role => role.Name) ∧
      c.Roles.length = sampleEditor.Roles.length ∧
      (∀ n, c.Roles.count n =
        (sampleEditor.Roles.filter (fun role => decide (role.Name = n))).length) ∧
      (c.Roles.Nodup ↔ sampleEditor.Roles.Pairwise (fun r1 r2 => r1.Name ≠ r2.Name)) :=
  C12_token_role_names echoAuth [] sampleCtx sampleEditor "10.0.0.1:5000" (5 * Second)
    { deviceID := "d1", tokenID := "i1" } noFaults
    { Token := "roles=editor;permissions=docs:read,docs:write",
      RefreshToken := "refresh/11111111-1111-1111-1111-111111111111/86405",
      TokenType := "Bearer", ExpiresIn := 3600, AccessExpiresAt := 3605000000000 }
    (echoAuth.generateToken [] sampleCtx sampleEditor "10.0.0.1:5000" (5 * Second)
      { deviceID := "d1", tokenID := "i1" } noFaults).2
    (by decide)

/-! ### Revoked sessions stay revoked -/

theorem keepsRevoked_refl (s : Store) : keepsRevoked s s :=
  ⟨id, [], by simp, fun _ => ⟨rfl, rfl, rfl, id⟩⟩

theorem keepsRevoked_trans {s s1 s2 : Store} (h1 : keepsRevoked s s1) (h2 : keepsRevoked s1 s2) :
    keepsRevoked s s2 := by
  obtain ⟨f, t, rfl, hf⟩ := h1
  obtain ⟨g, t2, rfl, hg⟩ := h2
  refine ⟨g ∘ f, t.map g ++ t2, by simp, fun r => ?_⟩
  obtain ⟨a1, a2, a3, a4⟩ := hf r
  obtain ⟨b1, b2, b3, b4⟩ := hg (f r)
  exact ⟨b1.trans a1, b2.trans a2, b3.trans a3, fun h => b4 (a4 h)⟩

theorem keepsRevoked_map (s : Store) (f : RefreshToken → RefreshToken)
    (hf : ∀ r, (f r).ID = r.ID ∧ (f r).UserID = r.UserID ∧ (f r).Token = r.Token ∧
      (r.Revoked = true → (f r).Revoked = true)) : keepsRevoked s (s.map f) :=
  ⟨f, [], by simp, hf⟩

theorem keepsRevoked_append (s t : Store) : keepsRevoked s (s ++ t) :=
  ⟨id, t, by simp, fun _ => ⟨rfl, rfl, rfl, id⟩⟩

theorem keepsRevoked_Update (s : Store) (tok : RefreshToken) (e : Bool) (h : tok.Revoked = true) :
    keepsRevoked s (refreshTokenRepository.Update s tok e).2 := by
  cases e
  · rw [Update_eq]
    apply keepsRevoked_map
    intro r
    split_ifs
    · exact ⟨rfl, rfl, rfl, fun _ => h⟩
    · exact ⟨rfl, rfl, rfl, id⟩
  · simpa [refreshTokenRepository.Update] using keepsRevoked_refl s

theorem keepsRevoked_RevokeOldest (s : Store) (v : UUID) (limit : Int) (ip : String) (now : Time)
    (e1 e2 : Bool) :
    keepsRevoked s (refreshTokenRepository.RevokeOldestIfLimitExceeded s v limit ip now e1 e2).2 := by
  rcases RevokeOldest_store s v limit ip now e1 e2 with h | ⟨_, _, _, _, h⟩
  · rw [h]; exact keepsRevoked_refl s
  · rw [h]
    apply keepsRevoked_map
    intro r
    split_ifs
    · exact ⟨rfl, rfl, rfl, fun _ => rfl⟩
    · exact ⟨rfl, rfl, rfl, id⟩

theorem keepsRevoked_RevokeAll (s : Store) (u : UUID) (ip : String) (now : Time) (e : Bool) :
    keepsRevoked s (refreshTokenRepository.RevokeAllUserTokens s u ip now e).2 := by
  unfold refreshTokenRepository.RevokeAllUserTokens
  split_ifs
  · exact keepsRevoked_refl s
  · exact keepsRevoked_refl s
  · apply keepsRevoked_map
    intro r
    split_ifs
    · exact ⟨rfl, rfl, rfl, fun _ => rfl⟩
    · exact ⟨rfl, rfl, rfl, id⟩

theorem keepsRevoked_Create (s : Store) (tok : RefreshToken) (freshID : UUID) (e : Bool) :
    keepsRevoked s (refreshTokenRepository.Create s tok freshID e).2 := by
  rcases Create_store s tok freshID e with h | ⟨row, _, _, _, h⟩
  · rw [h]; exact keepsRevoked_refl s
  · rw [h]; exact keepsRevoked_append s [row]

theorem keepsRevoked_saveRefreshToken (s : Store) (ctx : Context) (v : UUID) (tok : String)
    (exp : Time) (ip : String) (now : Time) (fr : Fresh) (f : Faults) :
    keepsRevoked s (saveRefreshToken s ctx v tok exp ip now fr f).2 := by
  unfold saveRefreshToken
  simp only
  split
  · exact keepsRevoked_refl s
  · rename_i existing _
    refine keepsRevoked_trans ?_ (keepsRevoked_Create _ _ _ _)
    refine keepsRevoked_trans ?_ (keepsRevoked_RevokeOldest _ _ _ _ _ _ _)
    cases existing with
    | none => exact keepsRevoked_refl s
    | some ex => exact keepsRevoked_Update s _ _ rfl

theorem keepsRevoked_generateToken (a : authService) (s : Store) (ctx : Context) (user : User)
    (ip : String) (now : Time) (fr : Fresh) (f : Faults) :
    keepsRevoked s (a.generateToken s ctx user ip now fr f).2 := by
  unfold authService.generateToken
  simp only
  split
  · exact keepsRevoked_refl s
  · split
    · exact keepsRevoked_refl s
    · rename_i refreshTokenString _
      have h := keepsRevoked_saveRefreshToken s ctx user.ID refreshTokenString
        (now + a.cfg.RefreshTokenExpiryHours * Hour) ip now fr f
      split
      · rename_i e s1 heq; rw [heq] at h; exact h
      · rename_i u s1 heq; rw [heq] at h; exact h

theorem keepsRevoked_RefreshToken (a : authService) (s : Store) (ctx : Context) (tok : String)
    (now : Time) (fr : Fresh) (f : Faults) :
    keepsRevoked s (a.RefreshToken s ctx tok now fr f).2 := by
  unfold authService.RefreshToken
  split
  · exact keepsRevoked_refl s
  · exact keepsRevoked_refl s
  · rename_i storedToken _
    split_ifs
    · exact keepsRevoked_refl s
    · split
      · exact keepsRevoked_refl s
      · exact keepsRevoked_refl s
      · rename_i user _
        simp only
        have h := keepsRevoked_generateToken a s ctx user (getClientIP ctx) now fr f
        split
        · rename_i e s1 heq; rw [heq] at h; exact h
        · rename_i resp s1 heq
          rw [heq] at h
          exact keepsRevoked_trans h (keepsRevoked_Update s1 _ _ rfl)

theorem keepsRevoked_authStep (a : authService) (s : Store) (op : AuthOp) :
    keepsRevoked s (authStep a s op) := by
  cases op with
  | register ctx req now fr f =>
    simp only [authStep, authService.Register]
    split
    · exact keepsRevoked_refl s
    · exact keepsRevoked_generateToken a s ctx _ _ now fr f
  | login ctx email password now fr f =>
    simp only [authStep, authService.Login]
    split
    · exact keepsRevoked_refl s
    · exact keepsRevoked_generateToken a s ctx _ _ now fr f
  | refresh ctx tok now fr f => exact keepsRevoked_RefreshToken a s ctx tok now fr f
  | revoke tok ip now getErr updateErr =>
    simp only [authStep, authService.RevokeToken]
    split
    · exact keepsRevoked_refl s
    · exact keepsRevoked_refl s
    · exact keepsRevoked_Update s _ _ rfl
  | revokeAll userID ip now dbErr => exact keepsRevoked_RevokeAll s userID ip now dbErr
  | admission ctx userID tok exp ip now fr f =>
    exact keepsRevoked_saveRefreshToken s ctx userID tok exp ip now fr f

theorem keepsRevoked_authRun (a : authService) :
    ∀ (ops : List AuthOp) (s : Store), keepsRevoked s (authRun a s ops) := by
  intro ops
  induction ops with
  | nil => intro s; exact keepsRevoked_refl s
  | cons op rest ih =>
    intro s
    exact keepsRevoked_trans (keepsRevoked_authStep a s op) (ih (authStep a s op))

/-- C18: no operation of the auth service (`Register`, `Login`,
`RefreshToken`, `RevokeToken`, `RevokeAllUserTokens`, session admission), with
whatever arguments, clock values and failing store calls, changes a session
record from revoked to not revoked: after every sequence of these operations,
from every store, the row at each position of the earlier store is still at
that position with the same id, user and token string, and it is revoked if it
was revoked before. -/
theorem C18_revoked_stays_revoked (a : authService) (s : Store) (ops : List AuthOp) (i : Nat)
    (r : RefreshToken) (hr : s[i]? = some r) :
    ∃ r', (authRun a s ops)[i]? = some r' ∧ r'.ID = r.ID ∧ r'.UserID = r.UserID ∧
      r'.Token = r.Token ∧ (r.Revoked = true → r'.Revoked = true) := by
  obtain ⟨f, t, hs, hf⟩ := keepsRevoked_authRun a ops s
  have hi : i < s.length := by
    rcases Nat.lt_or_ge i s.length with h | h
    · exact h
    · rw [List.getElem?_eq_none h] at hr; simp at hr
  refine ⟨f r, ?_, hf r⟩
  rw [hs, List.getElem?_append_left (by simpa using hi), List.getElem?_map, hr]
  rfl

/-- Witness for C18: a revoked session stays revoked through a login, a
refresh with its own token, a revocation of all sessions and an admission. -/
theorem C18_revoked_stays_revoked_witness :
    ∃ r', (authRun sampleAuth
        [{ sampleSession 1 "a" with Revoked := true }, sampleSession 2 "b"]
        [.login sampleCtx "a@x.com" "secret" (5 * Second) { deviceID := "d1", tokenID := "i1" } noFaults,
         .refresh sampleCtx "token-a" (6 * Second) { deviceID := "d2", tokenID := "i2" } noFaults,
         .revokeAll sampleUser.ID "10.0.0.9" (7 * Second) false,
         .admission Background sampleUser.ID "t" (9 * Second) "ip" (8 * Second)
            { deviceID := "d3", tokenID := "i3" } noFaults])[0]? = some r' ∧
      r'.ID = "id-a" ∧ r'.UserID = sampleUser.ID ∧ r'.Token = "token-a" ∧
      ((true : Bool) = true → r'.Revoked = true) :=
  C18_revoked_stays_revoked sampleAuth
    [{ sampleSession 1 "a" with Revoked := true }, sampleSession 2 "b"] _ 0
    { sampleSession 1 "a" with Revoked := true } rfl

/-! ### Cap enforcement -/

theorem insertionSort_createdAt_sorted (A : List RefreshToken) :
    (A.insertionSort (fun a b => a.CreatedAt ≤ b.CreatedAt)).Pairwise
      (fun a b => a.CreatedAt ≤ b.CreatedAt) := by
  haveI : IsTotal RefreshToken (fun a b => a.CreatedAt ≤ b.CreatedAt) :=
    ⟨fun a b => le_total a.CreatedAt b.CreatedAt⟩
  haveI : IsTrans RefreshToken (fun a b => a.CreatedAt ≤ b.CreatedAt) :=
    ⟨fun _ _ _ h1 h2 => le_trans h1 h2⟩
  exact List.sorted_insertionSort (fun a b : RefreshToken => a.CreatedAt ≤ b.CreatedAt) A

theorem take_sorted_le_rest {α : Type} (r : α → α → Prop) (S : List α) (k : Nat)
    (hs : S.Pairwise r) (a b : α) (ha : a ∈ S.take k) (hb : b ∈ S) (hnb : b ∉ S.take k) :
    r a b := by
  have hsplit : S.take k ++ S.drop k = S := List.take_append_drop k S
  have hb' : b ∈ S.drop k := by
    rw [← hsplit, List.mem_append] at hb
    rcases hb with h | h
    · exact absurd h hnb
    · exact h
  rw [← hsplit, List.pairwise_append] at hs
  exact hs.2.2 a ha b hb'

theorem oldest_rows (s : Store) (u : UUID) (now : Time) (n : Int)
    (hid : (s.map (fun rt => rt.ID)).Nodup) (hn : n.toNat ≤ activeCount s u now) :
    ∃ R : List RefreshToken,
      refreshTokenRepository.oldestActiveIDs s u now n = R.map (fun rt => rt.ID) ∧
      R.length = n.toNat ∧ R.Nodup ∧
      (∀ r ∈ R, r ∈ s ∧ sqlActiveOf u now r = true) ∧
      (∀ r ∈ R, ∀ x ∈ s, sqlActiveOf u now x = true → x ∉ R → r.CreatedAt ≤ x.CreatedAt) ∧
      (∀ x ∈ s, (x.ID ∈ refreshTokenRepository.oldestActiveIDs s u now n ↔ x ∈ R)) := by
  have hperm := List.perm_insertionSort (fun a b : RefreshToken => a.CreatedAt ≤ b.CreatedAt)
    (s.filter (sqlActiveOf u now))
  have hsnd : s.Nodup := List.Nodup.of_map _ hid
  have hSnd : ((s.filter (sqlActiveOf u now)).insertionSort
      (fun a b : RefreshToken => a.CreatedAt ≤ b.CreatedAt)).Nodup :=
    hperm.nodup_iff.mpr (hsnd.filter _)
  have hmemR : ∀ r, r ∈ ((s.filter (sqlActiveOf u now)).insertionSort
      (fun a b : RefreshToken => a.CreatedAt ≤ b.CreatedAt)).take n.toNat → r ∈ s ∧ sqlActiveOf u now r = true := by
    intro r hr
    have := hperm.mem_iff.mp (List.mem_of_mem_take hr)
    exact List.mem_filter.mp this
  refine ⟨((s.filter (sqlActiveOf u now)).insertionSort
      (fun a b : RefreshToken => a.CreatedAt ≤ b.CreatedAt)).take n.toNat, rfl, ?_, ?_, hmemR, ?_, ?_⟩
  · rw [List.length_take, hperm.length_eq]
    exact Nat.min_eq_left hn
  · exact hSnd.sublist (List.take_sublist _ _)
  · intro r hr x hx hact hnx
    exact take_sorted_le_rest _ _ _ (insertionSort_createdAt_sorted _) r x hr
      (hperm.mem_iff.mpr (List.mem_filter.mpr ⟨hx, hact⟩)) hnx
  · intro x hx
    simp only [refreshTokenRepository.oldestActiveIDs, List.mem_map]
    constructor
    · rintro ⟨r, hr, hrid⟩
      have hrs := (hmemR r hr).1
      have : r = x := List.inj_on_of_nodup_map hid hrs hx hrid
      rw [← this]; exact hr
    · intro hxR
      exact ⟨x, hxR, rfl⟩

theorem countP_mem_of_subset_nodup (A R : List RefreshToken) (hA : A.Nodup) (hR : R.Nodup)
    (hsub : ∀ r ∈ R, r ∈ A) : A.countP (fun rt => decide (rt ∈ R)) = R.length := by
  rw [List.countP_eq_length_filter]
  apply List.Perm.length_eq
  refine (List.perm_ext_iff_of_nodup (hA.filter _) hR).mpr ?_
  intro x
  simp only [List.mem_filter, decide_eq_true_eq]
  exact ⟨fun h => h.2, fun h => ⟨hsub x h, h⟩⟩

/-- C17: `RevokeOldestIfLimitExceeded(user, limit, ip)` at clock value `now`,
for a user id other than the nil id, `limit ≥ 0`, a table whose ids are
distinct (`id` is the key of the table) and no failing store call. If the
number `c` of the user's active sessions is at most `limit`, no row changes.
Otherwise there is a list `R` of `c - limit` distinct active sessions of the
user, none created later than any other active session of the user, such that
exactly the rows of `R` are marked revoked with `revoked_by_ip = ip` and
`revoked_at = now`; exactly `limit` sessions of the user remain active and no
session of another user is in `R`. -/
theorem C17_revoke_oldest_if_limit_exceeded (s : Store) (u : UUID) (limit : Int) (ip : String)
    (now : Time) (hu : u ≠ uuidNil) (hl : 0 ≤ limit)
    (hid : (s.map (fun rt => rt.ID)).Nodup) :
    ((activeCount s u now : Int) ≤ limit →
      refreshTokenRepository.RevokeOldestIfLimitExceeded s u limit ip now false false =
        (.ok (), s)) ∧
    (limit < (activeCount s u now : Int) →
      ∃ R : List RefreshToken,
        (R.length : Int) = (activeCount s u now : Int) - limit ∧ R.Nodup ∧
        (∀ r ∈ R, r ∈ s ∧ sqlActiveOf u now r = true) ∧
        (∀ r ∈ R, ∀ x ∈ s, sqlActiveOf u now x = true → x ∉ R → r.CreatedAt ≤ x.CreatedAt) ∧
        refreshTokenRepository.RevokeOldestIfLimitExceeded s u limit ip now false false =
          (.ok (), s.map (fun rt =>
            if rt ∈ R then { rt with Revoked := true, RevokedAt := some now, RevokedByIP := ip }
            else rt)) ∧
        (activeCount (refreshTokenRepository.RevokeOldestIfLimitExceeded s u limit ip now
            false false).2 u now : Int) = limit ∧
        (∀ x ∈ s, x.UserID ≠ u → x ∉ R)) := by
  constructor
  · intro hc
    simp only [activeCount] at hc
    simp [refreshTokenRepository.RevokeOldestIfLimitExceeded,
      refreshTokenRepository.CountActiveByUserID, hu, hc]
  · intro hc
    have hk : ((activeCount s u now : Int) - limit).toNat ≤ activeCount s u now := by omega
    obtain ⟨R, hids, hlen, hnd, hmem, hold, hiff⟩ :=
      oldest_rows s u now ((activeCount s u now : Int) - limit) hid hk
    have hmap : s.map (fun rt =>
          if rt.ID ∈ refreshTokenRepository.oldestActiveIDs s u now ((activeCount s u now : Int) - limit)
          then { rt with Revoked := true, RevokedAt := some now, RevokedByIP := ip } else rt) =
        s.map (fun rt =>
          if rt ∈ R then { rt with Revoked := true, RevokedAt := some now, RevokedByIP := ip }
          else rt) := by
      apply List.map_congr_left
      intro x hx
      by_cases hxR : x ∈ R
      · rw [if_pos hxR, if_pos ((hiff x hx).mpr hxR)]
      · rw [if_neg hxR, if_neg (fun h => hxR ((hiff x hx).mp h))]
    have hnc : ¬ (activeCount s u now : Int) ≤ limit := by omega
    have hcall : refreshTokenRepository.RevokeOldestIfLimitExceeded s u limit ip now false false =
        (.ok (), s.map (fun rt =>
          if rt ∈ R then { rt with Revoked := true, RevokedAt := some now, RevokedByIP := ip }
          else rt)) := by
      rw [← hmap]
      have hnc' := hnc
      simp only [activeCount] at hnc' ⊢
      simp [refreshTokenRepository.RevokeOldestIfLimitExceeded,
        refreshTokenRepository.CountActiveByUserID, hu, hnc']
    refine ⟨R, by rw [hlen]; omega, hnd, hmem, hold, hcall, ?_, ?_⟩
    · rw [hcall]
      simp only
      rw [activeCount_eq_countP, List.countP_map]
      have hrest : s.countP ((sqlActiveOf u now) ∘ (fun rt =>
            if rt ∈ R then { rt with Revoked := true, RevokedAt := some now, RevokedByIP := ip }
            else rt)) =
          (s.filter (sqlActiveOf u now)).countP (fun rt => !(decide (rt ∈ R))) := by
        rw [List.countP_filter]
        apply List.countP_congr
        intro r _
        by_cases hr : r ∈ R
        · simp [hr, sqlActiveOf, sqlActive]
        · simp [hr]
      have hsum := countP_add_countP_not (fun rt : RefreshToken => decide (rt ∈ R))
        (s.filter (sqlActiveOf u now))
      have hin := countP_mem_of_subset_nodup (s.filter (sqlActiveOf u now)) R
        ((List.Nodup.of_map _ hid).filter _) hnd
        (fun r hr => List.mem_filter.mpr (hmem r hr))
      have hA : (s.filter (sqlActiveOf u now)).length = activeCount s u now := rfl
      rw [hrest]
      omega
    · intro x _ hxu hxR
      have := (hmem x hxR).2
      simp [sqlActiveOf, hxu] at this

/-- Witness for C17: three active sessions of the sample user and the limit
2; the session created first is the one revoked. -/
theorem C17_revoke_oldest_if_limit_exceeded_witness :
    refreshTokenRepository.RevokeOldestIfLimitExceeded
        [sampleSession 2 "b", sampleSession 1 "a", sampleSession 3 "c"] sampleUser.ID 3
        "10.0.0.9" (50 * Second) false false =
      (.ok (), [sampleSession 2 "b", sampleSession 1 "a", sampleSession 3 "c"]) ∧
    (activeCount (refreshTokenRepository.RevokeOldestIfLimitExceeded
        [sampleSession 2 "b", sampleSession 1 "a", sampleSession 3 "c"] sampleUser.ID 2
        "10.0.0.9" (50 * Second) false false).2 sampleUser.ID (50 * Second) : Int) = 2 :=
  ⟨(C17_revoke_oldest_if_limit_exceeded
      [sampleSession 2 "b", sampleSession 1 "a", sampleSession 3 "c"] sampleUser.ID 3
      "10.0.0.9" (50 * Second) (by decide) (by decide) (by decide)).1 (by decide),
   by
     obtain ⟨R, _, _, _, _, _, h, _⟩ := (C17_revoke_oldest_if_limit_exceeded
       [sampleSession 2 "b", sampleSession 1 "a", sampleSession 3 "c"] sampleUser.ID 2
       "10.0.0.9" (50 * Second) (by decide) (by decide) (by decide)).2 (by decide)
     exact h⟩

/-! ### Unknown role names -/

theorem roleMapOf_get?_none (roles : List Role) (k : String) (h : ∀ r ∈ roles, r.Name ≠ k) :
    (roleMapOf roles).get? k = none :=
  (NameMap_get?_foldl_none (fun r : Role => r.Name) (fun r => r.ID) k roles []).mpr ⟨rfl, h⟩

theorem assignRoles_missing (ctx : Context) (htx : ctx.Value TxKey = some .tx) (userID : UUID)
    (roleMap : NameMap) (missing : RoleRequest) (post : List RoleRequest)
    (hmap : roleMap.get? missing.Name = none) :
    ∀ (pre : List RoleRequest) (db : DB) (n : Nat) (t : Tables), db.tx = some t →
      (∀ m ∈ t.roles, m.RoleName ≠ missing.Name) →
      (∀ r ∈ pre, ∃ id, roleMap.get? r.Name = some id) →
      ∃ (t' : Tables) (n' : Nat),
        userService.assignRoles ctx (fun _ => false) userID roleMap db n (pre ++ missing :: post) =
          (.error (NotFoundError "role.not_found" none [("name", missing.Name)]),
           { pool := db.pool, tx := some t' }, n') ∧
        t'.roles = t.roles ∧ t'.user_permissions = t.user_permissions := by
  intro pre
  induction pre with
  | nil =>
    intro db n t ht hmiss _
    have hfil : t.roles.filter (fun r => decide (r.RoleName = missing.Name)) = [] := by
      rw [List.filter_eq_nil_iff]
      intro m hm
      simp [hmiss m hm]
    refine ⟨t, n + 1, ?_, rfl, rfl⟩
    cases db with
    | mk pool tx =>
      simp only at ht
      subst ht
      simp only [List.nil_append, userService.assignRoles, hmap, userRepository.FindRoleByName,
        ScanOneContext, QueryContext, DB.conn, htx, Bool.false_eq_true, if_false, hfil]
  | cons r rest ih =>
    intro db n t ht hmiss hpre
    obtain ⟨id, hid⟩ := hpre r (List.mem_cons_self _ _)
    cases db with
    | mk pool tx =>
      simp only at ht
      subst ht
      obtain ⟨t', n', hrun, hroles, hperm⟩ := ih
        { pool := pool, tx := some { t with user_roles := t.user_roles ++ [(userID, id)] } }
        (n + 1) { t with user_roles := t.user_roles ++ [(userID, id)] } rfl hmiss
        (fun r' hr' => hpre r' (List.mem_cons_of_mem _ hr'))
      refine ⟨t', n', ?_, hroles, hperm⟩
      simp only [List.cons_append, userService.assignRoles, hid, userRepository.AssignRole,
        ExecContext, DB.conn, DB.put, htx, Bool.false_eq_true, if_false]
      exact hrun

theorem createBody_missing_role (db : DB) (ctx : Context) (user : UserModel)
    (req : CreateUserRequest) (pre post : List RoleRequest) (missing : RoleRequest)
    (hroles : req.Roles = pre ++ missing :: post)
    (hpre : ∀ r ∈ pre, ∃ m ∈ db.pool.roles, m.RoleName = r.Name)
    (hmiss : ∀ m ∈ db.pool.roles, m.RoleName ≠ missing.Name) :
    ∃ t' : Tables,
      userService.createBody { db with tx := some db.pool } (WithValue ctx TxKey .tx)
          (fun _ => false) user req =
        (.error (NotFoundError "role.not_found" none [("name", missing.Name)]),
         { pool := db.pool, tx := some t' }) ∧
      t'.user_permissions = db.pool.user_permissions := by
  have htx := Value_WithValue_self ctx TxKey .tx
  have hmapNone := roleMapOf_get?_none
    (db.pool.roles.map (fun r =>
        ({ ID := r.ID, Name := r.RoleName, Description := r.Description, Permissions := [] } : Role)))
    missing.Name (by
        intro r hr
        obtain ⟨m, hm, rfl⟩ := List.mem_map.mp hr
        exact hmiss m hm)
  have hmapSome : ∀ r ∈ pre, ∃ id, (roleMapOf (db.pool.roles.map (fun r =>
        ({ ID := r.ID, Name := r.RoleName, Description := r.Description,
           Permissions := [] } : Role)))).get? r.Name = some id := by
    intro r hr
    obtain ⟨m, hm, hn⟩ := hpre r hr
    exact roleMapOf_get?_some _ _ ⟨_, List.mem_map_of_mem _ hm, hn⟩
  obtain ⟨t', n', hrun, _, hperm⟩ := assignRoles_missing (WithValue ctx TxKey .tx) htx user.ID _
    missing post hmapNone pre
    { pool := db.pool,
      tx := some { db.pool with
                   users := db.pool.users ++ [{ user with LastLogin := none, DeletedAt := none }] } }
    2 _ rfl hmiss hmapSome
  refine ⟨t', ?_, hperm⟩
  simp only [userService.createBody, userRepository.Create, userRepository.GetAllRoles,
    ExecContext, QueryContext, DB.conn, DB.put, htx, Bool.false_eq_true, if_false, hroles, hrun]

/-- C13 (counterexample): a request whose role list names the unknown role
`ghost` and whose password confirmation differs from the password gets a
`VALIDATION_ERROR`, not a `NOT_FOUND` error: the confirmation is checked
before any role is looked up. -/
theorem C13_unknown_role_behind_validation :
    (sampleDB.pool.roles.filter (fun m => decide (m.RoleName = "ghost"))) = [] ∧
    userService.Create sampleDB Background
        { sampleCreateRequest with Roles := [{ Name := "ghost" }],
                                   PasswordConfirmation := "other" }
        1000 "u-1" sampleHash false (fun _ => false) =
      (.error (.app { Status := 400, Code := "VALIDATION_ERROR",
                      Message := "user.password_mismatch", Err := none,
                      Details := [("password", "***"), ("password_confirmation", "***")] }),
       sampleDB) := by
  decide

/-- C13 (amended): for every request that passes the password-confirmation
check and the email check, with hashing and every store call succeeding, whose
role list contains a name absent from the roles table (so from the catalog and
from the lookup by name), the names before it being in the catalog, `Create`
returns the `NOT_FOUND` error `role.not_found` whose details name that first
missing role; the committed tables are unchanged and the transaction was
aborted before any permission assignment: its `user_permissions` are those it
started with. -/
theorem C13_first_missing_role_not_found (db : DB) (ctx : Context) (req : CreateUserRequest)
    (now : Time) (freshID : UUID) (hash : String → Except Err String) (hashed : String)
    (pre post : List RoleRequest) (missing : RoleRequest)
    (hpw : req.Password = req.PasswordConfirmation)
    (hfind : userRepository.FindByEmail db ctx req.Email false = .ok none)
    (hhash : hash req.Password = .ok hashed)
    (hroles : req.Roles = pre ++ missing :: post)
    (hpre : ∀ r ∈ pre, ∃ m ∈ db.pool.roles, m.RoleName = r.Name)
    (hmiss : ∀ m ∈ db.pool.roles, m.RoleName ≠ missing.Name) :
    userService.Create db ctx req now freshID hash false (fun _ => false) =
      (.error (.app { Status := 404, Code := "NOT_FOUND", Message := "role.not_found",
                      Err := none, Details := [("name", missing.Name)] }),
       { pool := db.pool, tx := none }) ∧
    ∃ t' : Tables,
      (userService.createBody { db with tx := some db.pool } (WithValue ctx TxKey .tx)
          (fun _ => false) (newUserModel req now freshID hashed) req).2.tx = some t' ∧
      t'.user_permissions = db.pool.user_permissions := by
  obtain ⟨t', hbody, hperm⟩ := createBody_missing_role db ctx
    (newUserModel req now freshID hashed) req pre post missing hroles hpre hmiss
  refine ⟨?_, t', by rw [hbody], hperm⟩
  have hne : ¬ (req.Password ≠ req.PasswordConfirmation) := not_not.mpr hpw
  simp only [userService.Create, if_neg hne, hfind, hhash, ReadCommitted, hbody]
  rfl

/-- Witness for C13 (amended): the roles `member`, `ghost`, `phantom` are
requested; `member` exists, `ghost` is the first missing name. -/
theorem C13_first_missing_role_not_found_witness :
    userService.Create sampleDB Background
        { sampleCreateRequest with
          Roles := [{ Name := "member" }, { Name := "ghost" }, { Name := "phantom" }] }
        1000 "u-1" sampleHash false (fun _ => false) =
      (.error (.app { Status := 404, Code := "NOT_FOUND", Message := "role.not_found",
                      Err := none, Details := [("name", "ghost")] }),
       { pool := sampleDB.pool, tx := none }) :=
  (C13_first_missing_role_not_found sampleDB Background
    { sampleCreateRequest with
      Roles := [{ Name := "member" }, { Name := "ghost" }, { Name := "phantom" }] }
    1000 "u-1" sampleHash "hash:secret" [{ Name := "member" }] [{ Name := "phantom" }]
    { Name := "ghost" } (by decide) (by decide) (by decide) rfl (by decide) (by decide)).1

/-! ### Registration guards -/

/-- C21 (counterexample): the only stored user with the email `a@x.com` is
soft-deleted. A request for that email with matching passwords gets no
`CONFLICT` error: `FindByEmail` reads rows with `deleted_at IS NULL` only, so
`Create` goes on, and with no store call failing it returns the new user and
the table holds two rows with the email; when the `INSERT` fails, as under a
unique index on the email, the error is the one of the driver. -/
theorem C21_soft_deleted_email_is_no_conflict :
    softDeletedDirectory.pool.users.map (fun u => (u.Email, u.DeletedAt)) =
      [("a@x.com", some 500)] ∧
    userRepository.FindByEmail softDeletedDirectory Background "a@x.com" false = .ok none ∧
    (userService.Create softDeletedDirectory Background
        { sampleCreateRequest with Permissions := [] } 1000 "u-2" sampleHash false
        (fun _ => false)).1.toOption.map (fun u => (u.ID, u.Email)) =
      some ("u-2", "a@x.com") ∧
    (userService.Create softDeletedDirectory Background
        { sampleCreateRequest with Permissions := [] } 1000 "u-2" sampleHash false
        (fun _ => false)).2.pool.users.map (fun u => (u.ID, u.Email)) =
      [("11111111-1111-1111-1111-111111111111", "a@x.com"), ("u-2", "a@x.com")] ∧
    userService.Create softDeletedDirectory Background
        { sampleCreateRequest with Permissions := [] } 1000 "u-2" sampleHash false
        (fun n => decide (n = 0)) =
      (.error (.plain "driver error"), softDeletedDirectory) := by
  decide

/-- C21 (amended): for every request whose password differs from its confirmation,
`Create` returns the `VALIDATION_ERROR` error `user.password_mismatch` whatever
the state of the store and whichever store call would fail, and the database is
as before: the store is not reached. For every request with matching passwords
whose email is found by `FindByEmail` (a stored user that is not deleted),
`Create` returns the `CONFLICT` error `user.email_exists` and the database is
as before. -/
theorem C21_create_guards (db : DB) (ctx : Context) (req : CreateUserRequest) (now : Time)
    (freshID : UUID) (hash : String → Except Err String) (fail : Nat → Bool) :
    (req.Password ≠ req.PasswordConfirmation → ∀ preErr : Bool,
      userService.Create db ctx req now freshID hash preErr fail =
        (.error (.app { Status := 400, Code := "VALIDATION_ERROR",
                        Message := "user.password_mismatch", Err := none,
                        Details := [("password", "***"), ("password_confirmation", "***")] }),
         db)) ∧
    (req.Password = req.PasswordConfirmation →
      ∀ u, userRepository.FindByEmail db ctx req.Email false = .ok (some u) →
        userService.Create db ctx req now freshID hash false fail =
          (.error (.app { Status := 409, Code := "CONFLICT", Message := "user.email_exists",
                          Err := none, Details := [("email", req.Email)] }), db)) := by
  constructor
  · intro hne preErr
    simp only [userService.Create, if_pos hne]
    rfl
  · intro heq u hfind
    have hne : ¬ (req.Password ≠ req.PasswordConfirmation) := not_not.mpr heq
    simp only [userService.Create, if_neg hne, hfind]
    rfl

/-- Witness for C21: a request with a mismatching confirmation against a
closed connection, and a request for the email of the stored user. -/
theorem C21_create_guards_witness :
    userService.Create sampleDB (WithValue Background TxKey .tx)
        { sampleCreateRequest with PasswordConfirmation := "other" } 1000 "u-1" sampleHash true
        (fun _ => true) =
      (.error (.app { Status := 400, Code := "VALIDATION_ERROR",
                      Message := "user.password_mismatch", Err := none,
                      Details := [("password", "***"), ("password_confirmation", "***")] }),
       sampleDB) ∧
    userService.Create sampleDirectory Background sampleCreateRequest 1000 "u-1" sampleHash false
        (fun _ => false) =
      (.error (.app { Status := 409, Code := "CONFLICT", Message := "user.email_exists",
                      Err := none, Details := [("email", "a@x.com")] }), sampleDirectory) :=
  ⟨(C21_create_guards sampleDB (WithValue Background TxKey .tx)
      { sampleCreateRequest with PasswordConfirmation := "other" } 1000 "u-1" sampleHash
      (fun _ => true)).1 (by decide) true,
   (C21_create_guards sampleDirectory Background sampleCreateRequest 1000 "u-1" sampleHash
      (fun _ => false)).2 (by decide) { sampleUserRow with Active := false } (by decide)⟩

/-! ### Login failures -/

/-- C22: `Login` with the credentials checked by `ValidateCredentials` on the
user directory, no store call failing. For every email that no stored user
has, `Login` returns the `NOT_FOUND` error `user.not_found`; for every stored
user found by the email and every password the hash comparison rejects, `Login`
returns the `UNAUTHORIZED` error `errors.invalid_credentials`. In both cases
the result is an error, so no token pair, and the session store is as before. -/
theorem C22_login_failures (a : authService) (db : DB) (s : Store) (ctx : Context)
    (email password : String) (compare : String → String → Option String)
    (fail : Nat → Bool) (permErr : Bool) (now : Time) (fr : Fresh) (f : Faults)
    (hvc : a.users.ValidateCredentials = fun e p =>
      userService.ValidateCredentials db ctx e p compare false fail permErr) :
    (userRepository.FindByEmail db ctx email false = .ok none →
      a.Login s ctx email password now fr f =
        (.error (.app { Status := 404, Code := "NOT_FOUND", Message := "user.not_found",
                        Err := none, Details := [("email", email)] }), s)) ∧
    (∀ u reason, userRepository.FindByEmail db ctx email false = .ok (some u) →
      compare u.Password password = some reason →
      a.Login s ctx email password now fr f =
        (.error (.app { Status := 401, Code := "UNAUTHORIZED",
                        Message := "errors.invalid_credentials", Err := some reason,
                        Details := [] }), s)) := by
  constructor
  · intro hfind
    simp only [authService.Login, hvc, userService.ValidateCredentials, hfind]
    rfl
  · intro u reason hfind hcmp
    simp only [authService.Login, hvc, userService.ValidateCredentials, hfind, hcmp]
    rfl

/-- Witness for C22: an email without a user, and the stored user with a
wrong password, while one session of that user is stored. -/
theorem C22_login_failures_witness :
    (directoryAuth sampleCtx).Login [sampleSession 1 "a"] sampleCtx "nobody@x.com" "secret"
        (5 * Second) { deviceID := "d-new", tokenID := "id-new" } noFaults =
      (.error (.app { Status := 404, Code := "NOT_FOUND", Message := "user.not_found",
                      Err := none, Details := [("email", "nobody@x.com")] }),
       [sampleSession 1 "a"]) ∧
    (directoryAuth sampleCtx).Login [sampleSession 1 "a"] sampleCtx "a@x.com" "guess"
        (5 * Second) { deviceID := "d-new", tokenID := "id-new" } noFaults =
      (.error (.app { Status := 401, Code := "UNAUTHORIZED",
                      Message := "errors.invalid_credentials",
                      Err := some "crypto/bcrypt: hashedPassword is not the hash of the given password",
                      Details := [] }), [sampleSession 1 "a"]) :=
  ⟨(C22_login_failures (directoryAuth sampleCtx) sampleDirectory [sampleSession 1 "a"] sampleCtx
      "nobody@x.com" "secret" sampleCompare (fun _ => false) false (5 * Second)
      { deviceID := "d-new", tokenID := "id-new" } noFaults rfl).1 (by decide),
   (C22_login_failures (directoryAuth sampleCtx) sampleDirectory [sampleSession 1 "a"] sampleCtx
      "a@x.com" "guess" sampleCompare (fun _ => false) false (5 * Second)
      { deviceID := "d-new", tokenID := "id-new" } noFaults rfl).2
      { sampleUserRow with Active := false } _ (by decide) (by decide)⟩

/-! ### What the unauthorized errors tell -/

/-- C23 (counterexample): the error `Login` returns for a wrong password and
the errors `RefreshToken` returns for an unknown and for a revoked refresh
token carry three different messages. -/
theorem C23_messages_differ :
    ((directoryAuth sampleCtx).Login [sampleSession 1 "a"] sampleCtx "a@x.com" "guess"
        (5 * Second) { deviceID := "d-new", tokenID := "id-new" } noFaults).1 =
      .error (.app { Status := 401, Code := "UNAUTHORIZED",
                     Message := "errors.invalid_credentials",
                     Err := some "crypto/bcrypt: hashedPassword is not the hash of the given password",
                     Details := [] }) ∧
    ((directoryAuth sampleCtx).RefreshToken [sampleSession 1 "a"] sampleCtx "token-zz"
        (5 * Second) { deviceID := "d-new", tokenID := "id-new" } noFaults).1 =
      .error (.app { Status := 401, Code := "UNAUTHORIZED", Message := "token.not_found",
                     Err := some "refresh token not found", Details := [] }) ∧
    ((directoryAuth sampleCtx).RefreshToken [{ sampleSession 1 "a" with Revoked := true }]
        sampleCtx "token-a" (5 * Second) { deviceID := "d-new", tokenID := "id-new" }
        noFaults).1 =
      .error (.app { Status := 401, Code := "UNAUTHORIZED", Message := "token.inactive",
                     Err := some "refresh token is inactive", Details := [] }) ∧
    "errors.invalid_credentials" ≠ "token.not_found" ∧
    "errors.invalid_credentials" ≠ "token.inactive" ∧
    "token.not_found" ≠ "token.inactive" := by
  decide

/-- C23 (amended): the error `Login` returns for a wrong password and the
errors `RefreshToken` returns for an unknown, a revoked and an expired refresh
token are application errors with the same code `UNAUTHORIZED`, the same
status 401 and no details; the errors for a revoked and for an expired token
are the same error, with the message `token.inactive`; the wrong password
carries the message `errors.invalid_credentials` and the unknown token the
message `token.not_found`. -/
theorem C23_unauthorized_errors (a : authService) (db : DB) (s : Store) (ctx : Context)
    (email password : String) (compare : String → String → Option String)
    (fail : Nat → Bool) (permErr : Bool) (now : Time) (fr : Fresh) (f : Faults)
    (u : UserModel) (reason tokU tokR tokE : String) (rR rE : RefreshToken)
    (hvc : a.users.ValidateCredentials = fun e p =>
      userService.ValidateCredentials db ctx e p compare false fail permErr)
    (hfind : userRepository.FindByEmail db ctx email false = .ok (some u))
    (hcmp : compare u.Password password = some reason)
    (hU : refreshTokenRepository.GetByToken s tokU f.getByToken = .ok none)
    (hR : refreshTokenRepository.GetByToken s tokR f.getByToken = .ok (some rR))
    (hrev : rR.Revoked = true)
    (hE : refreshTokenRepository.GetByToken s tokE f.getByToken = .ok (some rE))
    (hexp : rE.ExpiresAt < now) :
    ∃ e1 e2 e3 : AppError,
      (a.Login s ctx email password now fr f).1 = .error (.app e1) ∧
      (a.RefreshToken s ctx tokU now fr f).1 = .error (.app e2) ∧
      (a.RefreshToken s ctx tokR now fr f).1 = .error (.app e3) ∧
      (a.RefreshToken s ctx tokE now fr f).1 = .error (.app e3) ∧
      e1.Code = "UNAUTHORIZED" ∧ e2.Code = "UNAUTHORIZED" ∧ e3.Code = "UNAUTHORIZED" ∧
      e1.Status = 401 ∧ e2.Status = 401 ∧ e3.Status = 401 ∧
      e1.Details = [] ∧ e2.Details = [] ∧ e3.Details = [] ∧
      e1.Message = "errors.invalid_credentials" ∧ e2.Message = "token.not_found" ∧
      e3.Message = "token.inactive" := by
  refine ⟨{ Status := 401, Code := "UNAUTHORIZED", Message := "errors.invalid_credentials",
            Err := some reason, Details := [] },
          { Status := 401, Code := "UNAUTHORIZED", Message := "token.not_found",
            Err := some "refresh token not found", Details := [] },
          { Status := 401, Code := "UNAUTHORIZED", Message := "token.inactive",
            Err := some "refresh token is inactive", Details := [] },
          ?_, ?_, ?_, ?_, rfl, rfl, rfl, rfl, rfl, rfl, rfl, rfl, rfl, rfl, rfl, rfl⟩
  · simp only [authService.Login, hvc, userService.ValidateCredentials, hfind, hcmp]
    rfl
  · simp only [authService.RefreshToken, hU]
    rfl
  · have hnot : rR.IsActive now = false := by simp [RefreshToken.IsActive, hrev]
    simp only [authService.RefreshToken, hR, hnot]
    rfl
  · have hnot : rE.IsActive now = false := by
      simp [RefreshToken.IsActive, RefreshToken.IsExpired, hexp]
    simp only [authService.RefreshToken, hE, hnot]
    rfl

/-- Witness for C23 (amended): the stored user with a wrong password, an
unknown token, a revoked session and a session that expired a second ago. -/
theorem C23_unauthorized_errors_witness :
    ∃ e1 e2 e3 : AppError,
      ((directoryAuth sampleCtx).Login
          [{ sampleSession 1 "a" with Revoked := true }, sampleSession 0 "b"] sampleCtx
          "a@x.com" "guess" (1 * Second + 24 * Hour) { deviceID := "d-new", tokenID := "id-new" }
          noFaults).1 = .error (.app e1) ∧
      ((directoryAuth sampleCtx).RefreshToken
          [{ sampleSession 1 "a" with Revoked := true }, sampleSession 0 "b"] sampleCtx
          "token-zz" (1 * Second + 24 * Hour) { deviceID := "d-new", tokenID := "id-new" }
          noFaults).1 = .error (.app e2) ∧
      ((directoryAuth sampleCtx).RefreshToken
          [{ sampleSession 1 "a" with Revoked := true }, sampleSession 0 "b"] sampleCtx
          "token-a" (1 * Second + 24 * Hour) { deviceID := "d-new", tokenID := "id-new" }
          noFaults).1 = .error (.app e3) ∧
      ((directoryAuth sampleCtx).RefreshToken
          [{ sampleSession 1 "a" with Revoked := true }, sampleSession 0 "b"] sampleCtx
          "token-b" (1 * Second + 24 * Hour) { deviceID := "d-new", tokenID := "id-new" }
          noFaults).1 = .error (.app e3) ∧
      e1.Code = "UNAUTHORIZED" ∧ e2.Code = "UNAUTHORIZED" ∧ e3.Code = "UNAUTHORIZED" ∧
      e1.Status = 401 ∧ e2.Status = 401 ∧ e3.Status = 401 ∧
      e1.Details = [] ∧ e2.Details = [] ∧ e3.Details = [] ∧
      e1.Message = "errors.invalid_credentials" ∧ e2.Message = "token.not_found" ∧
      e3.Message = "token.inactive" :=
  C23_unauthorized_errors (directoryAuth sampleCtx) sampleDirectory
    [{ sampleSession 1 "a" with Revoked := true }, sampleSession 0 "b"] sampleCtx
    "a@x.com" "guess" sampleCompare (fun _ => false) false (1 * Second + 24 * Hour)
    { deviceID := "d-new", tokenID := "id-new" } noFaults
    { sampleUserRow with Active := false }
    "crypto/bcrypt: hashedPassword is not the hash of the given password"
    "token-zz" "token-a" "token-b" { sampleSession 1 "a" with Revoked := true }
    (sampleSession 0 "b") rfl (by decide) (by decide) (by decide) (by decide) (by decide)
    (by decide) (by decide)

/-! ### Expiry sweep -/

/-- C25: for every store and clock value `now`, `DeleteExpired` (the statement
not failing) keeps, in their order and unchanged, exactly the rows whose
`expires_at` is not earlier than `now` minus 24 hours, so it removes exactly the
rows whose `expires_at` is earlier than that; no row that is active at `now`,
by the store's predicate or by `IsActive`, is removed. When the statement
fails the store is as before. -/
theorem C25_delete_expired (s : Store) (now : Time) :
    (refreshTokenRepository.DeleteExpired s now false).1 = .ok () ∧
    (refreshTokenRepository.DeleteExpired s now false).2 =
      s.filter (fun rt => !decide (rt.ExpiresAt < now - 24 * Hour)) ∧
    (refreshTokenRepository.DeleteExpired s now false).2.Sublist s ∧
    (∀ r, r ∈ (refreshTokenRepository.DeleteExpired s now false).2 ↔
      r ∈ s ∧ ¬ r.ExpiresAt < now - 24 * Hour) ∧
    (∀ r ∈ s, r.ExpiresAt < now - 24 * Hour →
      r ∉ (refreshTokenRepository.DeleteExpired s now false).2) ∧
    (∀ r ∈ s, sqlActive now r = true ∨ r.IsActive now = true →
      r ∈ (refreshTokenRepository.DeleteExpired s now false).2) ∧
    (refreshTokenRepository.DeleteExpired s now true).2 = s := by
  have hstore : (refreshTokenRepository.DeleteExpired s now false).2 =
      s.filter (fun rt => !decide (rt.ExpiresAt < now - 24 * Hour)) := by
    simp [refreshTokenRepository.DeleteExpired]
  have hmem : ∀ r, r ∈ (refreshTokenRepository.DeleteExpired s now false).2 ↔
      r ∈ s ∧ ¬ r.ExpiresAt < now - 24 * Hour := by
    intro r
    rw [hstore]
    simp [List.mem_filter]
  have hday : (0 : Int) < 24 * Hour := by decide
  refine ⟨by simp [refreshTokenRepository.DeleteExpired], hstore, ?_, hmem, ?_, ?_,
    by simp [refreshTokenRepository.DeleteExpired]⟩
  · rw [hstore]
    exact List.filter_sublist s
  · intro r _ hlt hin
    exact ((hmem r).mp hin).2 hlt
  · intro r hr hact
    refine (hmem r).mpr ⟨hr, ?_⟩
    intro hlt
    have hlt' : r.ExpiresAt < now := lt_trans hlt (sub_lt_self now hday)
    rcases hact with h | h
    · simp only [sqlActive, Bool.and_eq_true, decide_eq_true_eq] at h
      exact absurd h.2 (not_lt.mpr (le_of_lt hlt'))
    · simp only [RefreshToken.IsActive, RefreshToken.IsExpired, Bool.and_eq_true,
        Bool.not_eq_true', decide_eq_false_iff_not] at h
      exact h.2 hlt'

/-! ### The rotation pointer under a later revocation -/

/-- C29: the session `a` is rotated by `RefreshToken` at second 100, which
sets its `replaced_by_token` to the new refresh token; `RevokeToken` on the
token string of `a` at second 200 succeeds and leaves the record with an empty
`replaced_by_token` (and with the address and time of the second call): the
pointer set by the rotation is overwritten. -/
theorem C29_revoke_erases_rotation_pointer :
    (sampleAuth.RefreshToken [sampleSession 1 "a"] sampleCtx "token-a" (100 * Second)
        { deviceID := "d-new", tokenID := "id-new" } noFaults).2.map
        (fun r => (r.Token, r.Revoked, r.ReplacedByToken)) =
      [("token-a", true, "refresh/k/11111111-1111-1111-1111-111111111111/86500"),
       ("refresh/k/11111111-1111-1111-1111-111111111111/86500", false, "")] ∧
    (sampleAuth.RevokeToken
        (sampleAuth.RefreshToken [sampleSession 1 "a"] sampleCtx "token-a" (100 * Second)
          { deviceID := "d-new", tokenID := "id-new" } noFaults).2
        "token-a" "10.0.0.9" (200 * Second) false false).1 = .ok () ∧
    (sampleAuth.RevokeToken
        (sampleAuth.RefreshToken [sampleSession 1 "a"] sampleCtx "token-a" (100 * Second)
          { deviceID := "d-new", tokenID := "id-new" } noFaults).2
        "token-a" "10.0.0.9" (200 * Second) false false).2.map
        (fun r => (r.Token, r.Revoked, r.ReplacedByToken, r.RevokedByIP, r.RevokedAt)) =
      [("token-a", true, "", "10.0.0.9", some (200 * Second)),
       ("refresh/k/11111111-1111-1111-1111-111111111111/86500", false, "", "", none)] := by
  decide

/-! ### The in-memory predicate and the store's predicate -/

/-- C30: `IsActive` and the store's predicate `revoked = false AND
expires_at > now` agree on a record exactly when it is revoked or its
`expires_at` differs from `now`. At the instant of expiry they differ: the
only session of the sample user is active for `IsActive`, the store counts no
active session of the user and finds none for the device, and `RefreshToken`
accepts the token and issues a pair. -/
theorem C30_isActive_vs_store_predicate :
    (∀ (rt : RefreshToken) (now : Time),
      rt.IsActive now = sqlActive now rt ↔ (rt.Revoked = true ∨ rt.ExpiresAt ≠ now)) ∧
    (sampleSession 1 "a").IsActive (1 * Second + 24 * Hour) = true ∧
    sqlActive (1 * Second + 24 * Hour) (sampleSession 1 "a") = false ∧
    refreshTokenRepository.CountActiveByUserID [sampleSession 1 "a"] sampleUser.ID
      (1 * Second + 24 * Hour) false = .ok 0 ∧
    refreshTokenRepository.GetActiveByUserID [sampleSession 1 "a"] sampleUser.ID
      (1 * Second + 24 * Hour) false = .ok [] ∧
    refreshTokenRepository.GetByDeviceIdentifier [sampleSession 1 "a"] sampleUser.ID "a"
      (1 * Second + 24 * Hour) false = .ok none ∧
    (sampleAuth.RefreshToken [sampleSession 1 "a"] sampleCtx "token-a" (1 * Second + 24 * Hour)
        { deviceID := "d-new", tokenID := "id-new" } noFaults).1.toOption.map
        (fun r => r.RefreshToken) =
      some "refresh/k/11111111-1111-1111-1111-111111111111/172801" := by
  refine ⟨?_, by decide, by decide, by decide, by decide, by decide, by decide⟩
  intro rt now
  cases hrev : rt.Revoked
  · simp only [RefreshToken.IsActive, RefreshToken.IsExpired, sqlActive, hrev, Bool.not_false,
      Bool.true_and, Bool.false_eq_true, false_or]
    rcases lt_trichotomy rt.ExpiresAt now with h | h | h
    · simp [h, not_lt.mpr (le_of_lt h), ne_of_lt h]
    · simp [h]
    · simp [h, not_lt.mpr (le_of_lt h), ne_of_gt h]
  · simp [RefreshToken.IsActive, sqlActive, hrev]

/-! ### The token prefix logged by the authentication handler -/

theorem extractToken_bearer (t : String) (h : ' ' ∉ t.data) :
    AuthMiddleware.extractToken ("Bearer " ++ t) = .ok t := by
  have hne : ("Bearer " ++ t) ≠ "" := by
    intro h0
    have := congrArg String.data h0
    simp at this
  have hdata : ("Bearer " ++ t).data = "Bearer".data ++ ' ' :: t.data := by
    simp [String.data_append]
  have hsplit : stringsSplit ("Bearer " ++ t) ' ' = ["Bearer", t] := by
    unfold stringsSplit List.splitOn
    rw [hdata, List.splitOnP_first (fun c => c == ' ') "Bearer".data (by decide) ' ' (by decide),
      List.splitOnP_eq_single]
    · rfl
    · intro c hc hp
      have : c = ' ' := by simpa using hp
      exact h (this ▸ hc)
  simp only [AuthMiddleware.extractToken, if_neg hne, hsplit]
  simp

/-- C28: for every token `t` without a blank that is shorter than 10 bytes,
the empty token included, the header `Bearer t` passes `extractToken` and
`Authenticate` then evaluates `tokenString[:10]` out of range: the handler
ends in a run-time panic, not in an Unauthorized response. A header for which
`extractToken` returns an error (a missing or malformed header) ends in the
Unauthorized response `errors.unauthorized`. -/
theorem C28_short_token_panics (m : Manager) (decode : Decoder) (users : UserService)
    (parseUUID : String → Except Err UUID) (now : Time) :
    (∀ t : String, ' ' ∉ t.data → t.utf8ByteSize < 10 →
      AuthMiddleware.extractToken ("Bearer " ++ t) = .ok t ∧
      AuthMiddleware.Authenticate m decode users parseUUID ("Bearer " ++ t) now =
        .panicked "runtime error: slice bounds out of range") ∧
    (∀ authHeader err, AuthMiddleware.extractToken authHeader = .error err →
      AuthMiddleware.Authenticate m decode users parseUUID authHeader now =
        .aborted (.app { Status := 401, Code := "UNAUTHORIZED", Message := "errors.unauthorized",
                         Err := some err, Details := [] })) := by
  constructor
  · intro t hsp hlen
    refine ⟨extractToken_bearer t hsp, ?_⟩
    have hout : sliceInRange t 10 = false := by
      simp only [sliceInRange, decide_eq_false_iff_not, not_le]
      exact hlen
    simp only [AuthMiddleware.Authenticate, extractToken_bearer t hsp, hout]
    rfl
  · intro authHeader err herr
    simp only [AuthMiddleware.Authenticate, herr]
    rfl

/-- Witness for C28: the headers `Bearer abc` and `Bearer ` (an empty token),
and a request without the header. -/
theorem C28_short_token_panics_witness :
    AuthMiddleware.Authenticate sampleAuth.jwtManager (fun _ => none) sampleUsers
        (fun id => .ok id) "Bearer abc" 0 =
      .panicked "runtime error: slice bounds out of range" ∧
    AuthMiddleware.Authenticate sampleAuth.jwtManager (fun _ => none) sampleUsers
        (fun id => .ok id) "Bearer " 0 =
      .panicked "runtime error: slice bounds out of range" ∧
    AuthMiddleware.Authenticate sampleAuth.jwtManager (fun _ => none) sampleUsers
        (fun id => .ok id) "" 0 =
      .aborted (.app { Status := 401, Code := "UNAUTHORIZED", Message := "errors.unauthorized",
                       Err := some "отсутствует заголовок Authorization", Details := [] }) :=
  ⟨((C28_short_token_panics sampleAuth.jwtManager (fun _ => none) sampleUsers
      (fun id => .ok id) 0).1 "abc" (by decide) (by decide)).2,
   ((C28_short_token_panics sampleAuth.jwtManager (fun _ => none) sampleUsers
      (fun id => .ok id) 0).1 "" (by decide) (by decide)).2,
   (C28_short_token_panics sampleAuth.jwtManager (fun _ => none) sampleUsers
      (fun id => .ok id) 0).2 "" _ (by decide)⟩

/-! ### Confidential fields in validation details -/

theorem toLower_ascii (c : Char) (h : c.toLower.toNat < 128) : c.toNat < 128 := by
  unfold Char.toLower at h
  simp only at h
  split at h
  · rename_i hc
    omega
  · exact h

theorem isConfidentialField_of_containsAnyCase (lower : Char → Char)
    (hlower : ∀ c : Char, c.toNat < 128 → lower c = c.toLower) (fieldName word : String)
    (hword : word ∈ confidentialFields) (hascii : ∀ d ∈ word.data, d.toNat < 128)
    (h : containsAnyCase fieldName word) : isConfidentialField lower fieldName = true := by
  obtain ⟨w, hinfix, hw⟩ := h
  have hmap : w.map lower = word.data := by
    rw [← hw]
    apply List.map_congr_left
    intro c hc
    apply hlower
    apply toLower_ascii
    apply hascii
    rw [← hw]
    exact List.mem_map_of_mem _ hc
  have hcontains : stringsContains (stringsToLower lower fieldName) word = true := by
    simp only [stringsContains, stringsToLower, decide_eq_true_eq]
    rw [← hmap]
    exact List.IsInfix.map lower hinfix
  simp only [isConfidentialField, List.any_eq_true]
  exact ⟨word, hword, hcontains⟩

theorem Translate_congr (translate : FieldError → String)
    (R : FieldError → FieldError → Prop)
    (hR : ∀ e1 e2, R e1 e2 → e1.Namespace = e2.Namespace ∧ translate e1 = translate e2)
    (ns : String) :
    ∀ l1 l2 : List FieldError, List.Forall₂ R l1 l2 →
      (l1.find? (fun fe => decide (fe.Namespace = ns))).map translate =
        (l2.find? (fun fe => decide (fe.Namespace = ns))).map translate := by
  intro l1 l2 h
  induction h with
  | nil => rfl
  | @cons a b l1 l2 hab _ ih =>
    obtain ⟨hns, htr⟩ := hR a b hab
    by_cases hn : a.Namespace = ns
    · have hn2 : b.Namespace = ns := hns ▸ hn
      simp [List.find?_cons, hn, hn2, htr]
    · have hn2 : ¬ b.Namespace = ns := fun hb => hn (hns.trans hb)
      simp only [List.find?_cons, hn, hn2, decide_False]
      exact ih

theorem Translate_eq_map (translate : FieldError → String) (errs : List FieldError) (ns : String) :
    Translate translate errs ns =
      ((errs.reverse.find? (fun fe => decide (fe.Namespace = ns))).map translate).getD "" := by
  unfold Translate
  cases errs.reverse.find? (fun fe => decide (fe.Namespace = ns)) <;> rfl

theorem parseValidationErrors_congr (lower : Char → Char) (translate : FieldError → String)
    (htrans : ∀ (fe : FieldError) (v : String), translate { fe with Value := v } = translate fe)
    (errs1 errs2 : List FieldError)
    (h : List.Forall₂ (fun e1 e2 : FieldError =>
      e1.Namespace = e2.Namespace ∧ e1.Field = e2.Field ∧ e1.Tag = e2.Tag ∧
      e1.Param = e2.Param ∧ (isConfidentialField lower e1.Field = true ∨ e1.Value = e2.Value))
      errs1 errs2) :
    parseValidationErrors lower translate (some errs1) =
      parseValidationErrors lower translate (some errs2) := by
  have hmsg : ∀ ns, Translate translate errs1 ns = Translate translate errs2 ns := by
    intro ns
    rw [Translate_eq_map, Translate_eq_map]
    congr 1
    refine Translate_congr translate _ ?_ ns _ _ (List.rel_reverse h)
    intro e1 e2 hR
    refine ⟨hR.1, ?_⟩
    obtain ⟨h1, h2, h3, h4, _⟩ := hR
    have : e1 = { e2 with Value := e1.Value } := by
      cases e1
      cases e2
      simp only at h1 h2 h3 h4
      simp [h1, h2, h3, h4]
    rw [this]
    exact htrans e2 _
  simp only [parseValidationErrors]
  generalize Translate translate errs1 = msg1 at hmsg ⊢
  generalize Translate translate errs2 = msg2 at hmsg ⊢
  have hfun : msg1 = msg2 := funext hmsg
  subst hfun
  induction h with
  | nil => rfl
  | @cons a b l1 l2 hab _ ih =>
    obtain ⟨h1, h2, h3, h4, h5⟩ := hab
    simp only [List.map_cons, List.cons.injEq]
    refine ⟨?_, ih⟩
    rcases h5 with hc | hv
    · have hc2 : isConfidentialField lower b.Field = true := h2 ▸ hc
      simp [h1, h2, h3, h4, hc2]
    · simp [h1, h2, h3, h4, hv]

/-- C24: `lower` is `unicode.ToLower`, which lowers the ASCII letters as
`Char.toLower` does, and `translate` is the message translation of the
validation library, which does not read the submitted value. A field whose
name contains `password`, `secret`, `token`, `key` or `pin` in any letter case
is confidential for `isConfidentialField`; the details `parseValidationErrors`
produces carry no value for a confidential field; two lists of field errors
that differ only in the values of confidential fields produce equal details;
and the password-mismatch error of `Create` is the same fixed error for every
request, with `***` in place of the password and the confirmation. -/
theorem C24_confidential_values_not_echoed (lower : Char → Char)
    (translate : FieldError → String)
    (hlower : ∀ c : Char, c.toNat < 128 → lower c = c.toLower)
    (htrans : ∀ (fe : FieldError) (v : String), translate { fe with Value := v } = translate fe) :
    (∀ fieldName word, word ∈ ["password", "secret", "token", "key", "pin"] →
      containsAnyCase fieldName word → isConfidentialField lower fieldName = true) ∧
    (∀ errs d, d ∈ parseValidationErrors lower translate (some errs) →
      isConfidentialField lower d.Field = true → d.Value = none) ∧
    (∀ errs1 errs2 : List FieldError,
      List.Forall₂ (fun e1 e2 : FieldError =>
        e1.Namespace = e2.Namespace ∧ e1.Field = e2.Field ∧ e1.Tag = e2.Tag ∧
        e1.Param = e2.Param ∧ (isConfidentialField lower e1.Field = true ∨ e1.Value = e2.Value))
        errs1 errs2 →
      parseValidationErrors lower translate (some errs1) =
        parseValidationErrors lower translate (some errs2)) ∧
    (∀ (db : DB) (ctx : Context) (req : CreateUserRequest) (now : Time) (freshID : UUID)
        (hash : String → Except Err String) (preErr : Bool) (fail : Nat → Bool),
      req.Password ≠ req.PasswordConfirmation →
      (userService.Create db ctx req now freshID hash preErr fail).1 =
        .error (.app { Status := 400, Code := "VALIDATION_ERROR",
                       Message := "user.password_mismatch", Err := none,
                       Details := [("password", "***"), ("password_confirmation", "***")] })) := by
  refine ⟨?_, ?_, parseValidationErrors_congr lower translate htrans, ?_⟩
  · intro fieldName word hword hcase
    have hmem : word ∈ confidentialFields := by
      simp only [List.mem_cons, List.mem_singleton, List.not_mem_nil, or_false] at hword
      rcases hword with h | h | h | h | h <;> subst h <;> decide
    have hascii : ∀ d ∈ word.data, d.toNat < 128 := by
      simp only [List.mem_cons, List.mem_singleton, List.not_mem_nil, or_false] at hword
      rcases hword with h | h | h | h | h <;> subst h <;> decide
    exact isConfidentialField_of_containsAnyCase lower hlower fieldName word hmem hascii hcase
  · intro errs d hd hconf
    simp only [parseValidationErrors, List.mem_map] at hd
    obtain ⟨fe, _, hfe⟩ := hd
    subst hfe
    simp only at hconf
    simp [hconf]
  · intro db ctx req now freshID hash preErr fail hne
    simp only [userService.Create, if_pos hne]
    rfl

/-- Witness for C24: the field `UserPassword` is confidential, and the details
for a password error and an email error hold the translated message and no
value for the password. -/
theorem C24_confidential_values_not_echoed_witness :
    isConfidentialField Char.toLower "UserPassword" = true ∧
    parseValidationErrors Char.toLower (fun fe => fe.Field ++ " fails " ++ fe.Tag)
        (some [{ Namespace := "Req.UserPassword", Field := "UserPassword", Tag := "min",
                 Param := "8", Value := "hunter2" },
               { Namespace := "Req.Email", Field := "Email", Tag := "email", Param := "",
                 Value := "nobody" }]) =
      parseValidationErrors Char.toLower (fun fe => fe.Field ++ " fails " ++ fe.Tag)
        (some [{ Namespace := "Req.UserPassword", Field := "UserPassword", Tag := "min",
                 Param := "8", Value := "12345" },
               { Namespace := "Req.Email", Field := "Email", Tag := "email", Param := "",
                 Value := "nobody" }]) ∧
    parseValidationErrors Char.toLower (fun fe => fe.Field ++ " fails " ++ fe.Tag)
        (some [{ Namespace := "Req.UserPassword", Field := "UserPassword", Tag := "min",
                 Param := "8", Value := "hunter2" },
               { Namespace := "Req.Email", Field := "Email", Tag := "email", Param := "",
                 Value := "nobody" }]) =
      [{ Field := "UserPassword", Tag := "min", Value := none,
         Message := "UserPassword fails min", Param := "8" },
       { Field := "Email", Tag := "email", Value := some "nobody",
         Message := "Email fails email", Param := "" }] :=
  ⟨(C24_confidential_values_not_echoed Char.toLower (fun fe => fe.Field ++ " fails " ++ fe.Tag)
      (fun _ _ => rfl) (fun _ _ => rfl)).1 "UserPassword" "password" (by decide)
      ⟨"Password".data, by decide, by decide⟩,
   (C24_confidential_values_not_echoed Char.toLower (fun fe => fe.Field ++ " fails " ++ fe.Tag)
      (fun _ _ => rfl) (fun _ _ => rfl)).2.2.1 _ _
      (List.Forall₂.cons ⟨rfl, rfl, rfl, rfl, Or.inl (by decide)⟩
        (List.Forall₂.cons ⟨rfl, rfl, rfl, rfl, Or.inr rfl⟩ List.Forall₂.nil)),
   by decide⟩

/-! ### Access tokens: issue and validation -/

theorem oneToken_decodesSigned (c0 : UserClaims) (key0 tok0 : String) :
    decodesSigned (oneTokenSign c0 key0 tok0) (oneTokenDecode c0 key0 tok0) := by
  intro c key tokenString _ hsign
  unfold oneTokenSign at hsign
  split at hsign
  · rename_i hck
    obtain ⟨hc, hk⟩ := hck
    simp only [Except.ok.injEq] at hsign
    simp only [Claims.user.injEq] at hc
    subst hc hk hsign
    unfold oneTokenDecode
    rw [if_pos rfl]
    exact ⟨_, rfl, rfl, rfl, by simp [hmacVerify]⟩
  · simp at hsign

theorem wrapInt64_of_range (x : Int) (hlo : -9223372036854775808 ≤ x)
    (hhi : x < 9223372036854775808) : wrapInt64 x = x := by
  unfold wrapInt64
  omega

theorem NewNumericDate_le (t : Time) : NewNumericDate t ≤ t := by
  unfold NewNumericDate
  exact Int.ediv_mul_le t (by decide)

theorem lt_NewNumericDate_add (t : Time) : t < NewNumericDate t + Second := by
  unfold NewNumericDate
  have h := Int.lt_ediv_add_one_mul_self t (show (0 : Int) < Second by decide)
  rw [add_mul, one_mul] at h
  exact h

theorem NewNumericDate_add_minutes (t n : Int) :
    NewNumericDate (t + n * Minute) = NewNumericDate t + n * Minute := by
  unfold NewNumericDate Minute
  rw [show t + n * (60 * Second) = t + (n * 60) * Second by ring,
    Int.add_mul_ediv_right t (n * 60) (by decide : Second ≠ 0)]
  ring

theorem NewNumericDate_emod (t : Time) : NewNumericDate t % Second = 0 := by
  unfold NewNumericDate
  exact Int.mul_emod_left _ _

theorem ValidateToken_ok (m : Manager) (decode : Decoder) (tokenString : String) (now : Time)
    (c : UserClaims) (h : m.ValidateToken decode tokenString now = .ok c) :
    ∃ token, decode tokenString = some token ∧ token.Method.isHMAC = true ∧
      token.Verify m.secret = true ∧
      verifyExpiresAt token.Claims now = true ∧ verifyNotBefore token.Claims now = true ∧
      c = token.Claims := by
  unfold Manager.ValidateToken ParseWithClaims at h
  cases hdec : decode tokenString with
  | none => simp [hdec] at h
  | some token =>
    refine ⟨token, rfl, ?_⟩
    simp only [hdec] at h
    cases hm : token.Method.isHMAC with
    | false => simp [hm] at h
    | true =>
      simp only [hm, Bool.not_true, Bool.false_eq_true, if_false] at h
      cases hsig : token.Verify m.secret with
      | false => simp [hsig] at h
      | true =>
        simp only [hsig, Bool.not_true, Bool.false_eq_true, if_false] at h
        unfold Validate at h
        cases hexp : verifyExpiresAt token.Claims now with
        | false => simp [hexp] at h
        | true =>
          cases hnbf : verifyNotBefore token.Claims now with
          | false => simp [hexp, hnbf] at h
          | true =>
            simp [hexp, hnbf] at h
            exact ⟨rfl, rfl, rfl, rfl, h.symm⟩

/-- C26 (counterexample): a manager with the positive lifetime 153722868
minutes. The `int64` product of the lifetime wraps around, the token issued at
second 1762300800 carries an expiry before its issue time, `ValidateToken`
rejects it as expired at the instant of issue and as not valid yet one second
before its expiry. With a lifetime of 60 minutes and clock readings that
straddle a second, the expiry of the token is not its `IssuedAt` plus 60
minutes. -/
theorem C26_long_lifetime_token_is_expired :
    Manager.GenerateToken { secret := "k", expirationMinutes := 153722868 }
        (oneTokenSign overflowClaims "k" "tok") sampleUser.ID ["editor"] ["docs:read"]
        (1762300800 * Second) (1762300800 * Second) (1762300800 * Second) = .ok "tok" ∧
    Manager.ValidateToken { secret := "k", expirationMinutes := 153722868 }
        (oneTokenDecode overflowClaims "k" "tok") "tok" (1762300800 * Second) =
      .error (.wrapped "ошибка валидации токена"
        (.wrapped "token has invalid claims" (.plain "token is expired"))) ∧
    Manager.ValidateToken { secret := "k", expirationMinutes := 153722868 }
        (oneTokenDecode overflowClaims "k" "tok") "tok" (-7461071195 * Second) =
      .error (.wrapped "ошибка валидации токена"
        (.wrapped "token has invalid claims" (.plain "token is not valid yet"))) ∧
    overflowClaims.ExpiresAt ≠ some (1762300800 * Second + 153722868 * Minute) ∧
    Manager.GenerateToken { secret := "k", expirationMinutes := 60 }
        (oneTokenSign boundaryClaims "k" "tok") sampleUser.ID ["editor"] ["docs:read"]
        999999999 1000000001 1000000001 = .ok "tok" ∧
    boundaryClaims.IssuedAt = some (1 * Second) ∧
    boundaryClaims.ExpiresAt ≠ some (1 * Second + 60 * Minute) := by
  decide

/-- C26 (amended): for every subject id, role-name list and permission-name
list and every manager with a lifetime from 1 to 153722867 minutes (the
lifetimes whose `int64` product does not wrap around), when the signing
library decodes what it signed (`decodesSigned`): the token `GenerateToken`
returns is accepted by `ValidateToken` at every clock value from the last
clock reading of `GenerateToken` until its expiry, and the claims returned have
`Subject` and `UserID` equal to the subject id, `Roles` and `Permissions` equal
to the given lists, and an expiry equal to the first clock reading `now` of
`GenerateToken`, at the precision of whole seconds, plus the configured number
of minutes. `IssuedAt` and `NotBefore` are the second and third clock reading
at that precision, so the expiry is `IssuedAt` plus the lifetime when the first
two readings fall in the same second. The token is not yet expired at `now`. -/
theorem C26_generate_then_validate (m : Manager) (sign : Signer) (decode : Decoder)
    (userID : String) (roles permissions : List String) (now iatNow nbfNow later : Time)
    (tokenString : String)
    (hcodec : decodesSigned sign decode) (hpos : 0 < m.expirationMinutes)
    (hmax : m.expirationMinutes ≤ 153722867)
    (hgen : m.GenerateToken sign userID roles permissions now iatNow nbfNow = .ok tokenString)
    (hafter : nbfNow ≤ later)
    (hbefore : later < NewNumericDate now + m.expirationMinutes * Minute) :
    ∃ c : UserClaims, m.ValidateToken decode tokenString later = .ok c ∧
      c.Subject = userID ∧ c.UserID = userID ∧ c.Roles = roles ∧ c.Permissions = permissions ∧
      c.ExpiresAt = some (NewNumericDate now + m.expirationMinutes * Minute) ∧
      c.IssuedAt = some (NewNumericDate iatNow) ∧
      c.NotBefore = some (NewNumericDate nbfNow) ∧
      (NewNumericDate iatNow = NewNumericDate now →
        c.ExpiresAt = some (NewNumericDate iatNow + m.expirationMinutes * Minute)) ∧
      NewNumericDate now ≤ now ∧ now < NewNumericDate now + Second ∧
      now < NewNumericDate now + m.expirationMinutes * Minute := by
  have hwrap : wrapInt64 (m.expirationMinutes * Minute) = m.expirationMinutes * Minute := by
    apply wrapInt64_of_range
    · simp only [Minute, Second]
      omega
    · simp only [Minute, Second]
      omega
  have hsign : sign (.user
      { Subject := userID,
        ExpiresAt := some (NewNumericDate (now + m.expirationMinutes * Minute)),
        IssuedAt := some (NewNumericDate iatNow), NotBefore := some (NewNumericDate nbfNow),
        UserID := userID, Roles := roles, Permissions := permissions }) m.secret =
      .ok tokenString := by
    unfold Manager.GenerateToken at hgen
    simp only [hwrap] at hgen
    split at hgen
    · simp at hgen
    · rename_i tok htok
      simp only [Except.ok.injEq] at hgen
      rw [← hgen]
      exact htok
  obtain ⟨token, hdec, hmethod, hclaims, hverify⟩ := hcodec _ m.secret tokenString (by
    intro t ht
    simp only [Option.some.injEq] at ht
    rcases ht with h | h | h <;> rw [← h] <;> exact NewNumericDate_emod _) hsign
  have hminute : (0 : Int) < Minute := by decide
  have hlife : Second ≤ m.expirationMinutes * Minute := by
    have h1 : (1 : Int) ≤ m.expirationMinutes := hpos
    have h2 : 1 * Minute ≤ m.expirationMinutes * Minute :=
      Int.mul_le_mul_of_nonneg_right h1 (le_of_lt hminute)
    have h3 : Second ≤ 1 * Minute := by decide
    exact le_trans h3 h2
  have hnow : now < NewNumericDate now + m.expirationMinutes * Minute :=
    lt_of_lt_of_le (lt_NewNumericDate_add now) (add_le_add_left hlife _)
  have hnbf : ¬ later < NewNumericDate nbfNow :=
    not_lt.mpr (le_trans (NewNumericDate_le nbfNow) hafter)
  refine ⟨{ Subject := userID,
            ExpiresAt := some (NewNumericDate now + m.expirationMinutes * Minute),
            IssuedAt := some (NewNumericDate iatNow), NotBefore := some (NewNumericDate nbfNow),
            UserID := userID, Roles := roles, Permissions := permissions },
    ?_, rfl, rfl, rfl, rfl, rfl, rfl, rfl, ?_, NewNumericDate_le now,
    lt_NewNumericDate_add now, hnow⟩
  · obtain ⟨method, claims, verify, valid⟩ := token
    simp only at hmethod hclaims hverify
    subst hmethod hclaims
    simp [Manager.ValidateToken, ParseWithClaims, hdec, hverify, SigningMethod.isHMAC, Validate,
      verifyExpiresAt, verifyNotBefore, NewNumericDate_add_minutes, hbefore, hnbf]
  · intro hsame
    rw [hsame]

/-- Witness for C26 (amended): the sample claims are issued with a lifetime of
60 minutes, the three clock readings being 5.3 s, 5.4 s and 5.5 s, and
validated at second 100. -/
theorem C26_generate_then_validate_witness :
    ∃ c : UserClaims,
      Manager.ValidateToken { secret := "k", expirationMinutes := 60 }
        (oneTokenDecode sampleClaims "k" "tok") "tok" (100 * Second) = .ok c ∧
      c.Subject = sampleUser.ID ∧ c.UserID = sampleUser.ID ∧ c.Roles = ["editor"] ∧
      c.Permissions = ["docs:read"] ∧
      c.ExpiresAt = some (NewNumericDate (5 * Second + 300000000) + 60 * Minute) ∧
      c.IssuedAt = some (NewNumericDate (5 * Second + 400000000)) ∧
      c.NotBefore = some (NewNumericDate (5 * Second + 500000000)) ∧
      (NewNumericDate (5 * Second + 400000000) = NewNumericDate (5 * Second + 300000000) →
        c.ExpiresAt = some (NewNumericDate (5 * Second + 400000000) + 60 * Minute)) ∧
      NewNumericDate (5 * Second + 300000000) ≤ 5 * Second + 300000000 ∧
      5 * Second + 300000000 < NewNumericDate (5 * Second + 300000000) + Second ∧
      5 * Second + 300000000 < NewNumericDate (5 * Second + 300000000) + 60 * Minute :=
  C26_generate_then_validate { secret := "k", expirationMinutes := 60 }
    (oneTokenSign sampleClaims "k" "tok") (oneTokenDecode sampleClaims "k" "tok")
    sampleUser.ID ["editor"] ["docs:read"] (5 * Second + 300000000) (5 * Second + 400000000)
    (5 * Second + 500000000) (100 * Second) "tok"
    (oneToken_decodesSigned sampleClaims "k" "tok") (by decide) (by decide) (by decide)
    (by decide) (by decide)

/-- C27 (counterexample): the secret of the manager is `k`; a token whose
signature was made under `k` followed by a zero byte, a different secret,
verifies under `k`, because HMAC pads keys with zero bytes, and `ValidateToken`
returns its claims. -/
theorem C27_zero_padded_secret_accepted :
    String.mk ['k', Char.ofNat 0] ≠ "k" ∧
    hmacVerify (String.mk ['k', Char.ofNat 0]) "k" = true ∧
    (sampleDecode "signed-with-k-and-zero-byte").map
        (fun token => (token.Method, token.Verify (String.mk ['k', Char.ofNat 0]))) =
      some (.HS256, true) ∧
    Manager.ValidateToken { secret := "k", expirationMinutes := 60 } sampleDecode
        "signed-with-k-and-zero-byte" (100 * Second) = .ok sampleClaims := by
  decide

/-- C27 (amended): for every token string that cannot be decoded as a token,
or that decodes to a token naming a method that is not HMAC, or whose
signature does not verify under the secret of the manager, or whose expiry is
not later than the clock value, `ValidateToken` returns an error, hence no
claims. -/
theorem C27_validate_rejects (m : Manager) (decode : Decoder) (tokenString : String) (now : Time)
    (h : decode tokenString = none ∨
      ∃ token, decode tokenString = some token ∧
        (token.Method.isHMAC = false ∨ token.Verify m.secret = false ∨
         (∃ exp, token.Claims.ExpiresAt = some exp ∧ exp ≤ now))) :
    ∃ e : Err, m.ValidateToken decode tokenString now = .error e := by
  cases hres : m.ValidateToken decode tokenString now with
  | error e => exact ⟨e, rfl⟩
  | ok c =>
    exfalso
    obtain ⟨token, hdec, hmac, hsig, hexp, _, _⟩ := ValidateToken_ok m decode tokenString now c hres
    rcases h with hnone | ⟨token', hdec', hcase⟩
    · rw [hnone] at hdec
      simp at hdec
    · rw [hdec'] at hdec
      simp only [Option.some.injEq] at hdec
      subst hdec
      rcases hcase with hm | hs | ⟨exp, he, hle⟩
      · rw [hm] at hmac
        simp at hmac
      · rw [hs] at hsig
        simp at hsig
      · simp only [verifyExpiresAt, he, decide_eq_true_eq] at hexp
        exact absurd hexp (not_lt.mpr hle)

/-- Witness for C27 (amended): a string that is no token, a token signed under
the key `other`, a token naming the method `none`, and a token of the manager
one hour after its expiry; the same token is accepted before its expiry. -/
theorem C27_validate_rejects_witness :
    (∃ e : Err, Manager.ValidateToken { secret := "k", expirationMinutes := 60 } sampleDecode
        "not a token" (100 * Second) = .error e) ∧
    (∃ e : Err, Manager.ValidateToken { secret := "k", expirationMinutes := 60 } sampleDecode
        "signed-with-other-key" (100 * Second) = .error e) ∧
    (∃ e : Err, Manager.ValidateToken { secret := "k", expirationMinutes := 60 } sampleDecode
        "alg-none" (100 * Second) = .error e) ∧
    (∃ e : Err, Manager.ValidateToken { secret := "k", expirationMinutes := 60 } sampleDecode
        "signed-with-k" (3605 * Second + 60 * Minute) = .error e) ∧
    Manager.ValidateToken { secret := "k", expirationMinutes := 60 } sampleDecode
        "signed-with-k" (100 * Second) = .ok sampleClaims :=
  ⟨C27_validate_rejects { secret := "k", expirationMinutes := 60 } sampleDecode "not a token"
      (100 * Second) (Or.inl (by simp [sampleDecode])),
   C27_validate_rejects { secret := "k", expirationMinutes := 60 } sampleDecode
      "signed-with-other-key" (100 * Second)
      (Or.inr ⟨_, rfl, Or.inr (Or.inl (by decide))⟩),
   C27_validate_rejects { secret := "k", expirationMinutes := 60 } sampleDecode "alg-none"
      (100 * Second) (Or.inr ⟨_, rfl, Or.inl (by decide)⟩),
   C27_validate_rejects { secret := "k", expirationMinutes := 60 } sampleDecode "signed-with-k"
      (3605 * Second + 60 * Minute)
      (Or.inr ⟨_, rfl, Or.inr (Or.inr ⟨3605 * Second, by decide, by decide⟩)⟩),
   by decide⟩

end GoTmpl
